import Mathlib

/-!
BCBP decoder (`basic_scanner/bcbp-parser.js`, identical copy in `Bpass/script.js`)

A shallow embedding of the boarding-pass decoder and the properties checked
against it.

Modelling conventions:

* A JavaScript string is a finite sequence of UTF-16 code units; it is
  modelled as `List Nat` (`JSString`), one number per code unit.  `js "..."`
  writes a literal.
* JavaScript numbers are used by the source only as small integers or `NaN`;
  they are modelled as `Option Int`, `none` standing for `NaN` (`-0` is not
  distinguished from `0`: the source only compares and adds these values).
* `new Date().getFullYear()` is the parameter `currentYear`, and the host's
  time zone is the parameter `zone`: the two offset functions through which a
  `Date` converts between UTC and local time.  Time values are exact integers
  of milliseconds (`Option Int`, `none` for `NaN`); inside the range of a
  `Date` no rounding occurs.
* A thrown `Error` is modelled by its `message`.
* The `while` loop of `parseOptionalFields` is modelled with a fuel argument
  (the number of loop entries allowed); `none` means the loop was still
  running when the fuel ran out.  Engine resource limits (heap size, maximal
  array length) are not modelled.
* `console.log` / `console.error` have no effect on results and are omitted.
-/

namespace BCBP

/-! ## JavaScript strings -/

/-- A JavaScript string: its UTF-16 code units. -/
abbrev JSString := List Nat

/-- String literal: the code units of a (Basic Multilingual Plane) literal. -/
def js (s : String) : JSString := s.toList.map Char.toNat

/-- ECMAScript `WhiteSpace` or `LineTerminator` code unit: what
`String.prototype.trim`, the `StrWhiteSpaceChar` skipping of `parseInt` and the
regular-expression class `\s` all use. -/
def isWhiteSpace (c : Nat) : Bool :=
  c = 0x09 || c = 0x0A || c = 0x0B || c = 0x0C || c = 0x0D || c = 0x20 ||
  c = 0xA0 || c = 0x1680 || (0x2000 ≤ c && c ≤ 0x200A) ||
  c = 0x2028 || c = 0x2029 || c = 0x202F || c = 0x205F || c = 0x3000 || c = 0xFEFF

/-- Regular-expression class `\d` (also `[0-9]`). -/
def isDigit (c : Nat) : Bool := 48 ≤ c && c ≤ 57

/-- Regular-expression class `[A-Z]`. -/
def isUpper (c : Nat) : Bool := 65 ≤ c && c ≤ 90

/-- Regular-expression class `[A-Za-z]`. -/
def isLetter (c : Nat) : Bool := (65 ≤ c && c ≤ 90) || (97 ≤ c && c ≤ 122)

/-- JavaScript `String.prototype.trim`: strips white space from both ends. -/
def trim (s : JSString) : JSString :=
  ((s.dropWhile isWhiteSpace).reverse.dropWhile isWhiteSpace).reverse

/-- Clamp an integer position into `[0, len]` (the `min(max(pos, 0), len)` of
`String.prototype.substring`). -/
def clamp (pos : Int) (len : Nat) : Nat := min pos.toNat len

/-- JavaScript `s.substring(start, stop)`: both positions are clamped into `[0, length]`
and swapped when `start > stop`. -/
def substring (s : JSString) (start stop : Int) : JSString :=
  let a := clamp start s.length
  let b := clamp stop s.length
  (s.drop (min a b)).take (max a b - min a b)

/-- JavaScript `s.substring(start)`: the end position defaults to the length. -/
def substringFrom (s : JSString) (start : Int) : JSString :=
  substring s start s.length

/-- JavaScript `s.charAt(i)`: the one-unit string at index `i`, or `""` out of range. -/
def charAt (s : JSString) (i : Nat) : JSString := (s.drop i).take 1

/-- JavaScript `s.includes(c)` for a one-unit search string. -/
def includes (s : JSString) (c : Nat) : Bool := s.contains c

/-- JavaScript `s.startsWith(c)` for a one-unit search string. -/
def startsWith (s : JSString) (c : Nat) : Bool :=
  match s with
  | [] => false
  | d :: _ => d == c

/-- Worker of `split`: `cur` is the segment being read, in reverse. -/
def splitAux (sep : Nat) : JSString → JSString → List JSString
  | [], cur => [cur.reverse]
  | c :: rest, cur =>
    if c = sep then cur.reverse :: splitAux sep rest [] else splitAux sep rest (c :: cur)

/-- JavaScript `s.split(sep)` for a one-unit separator: all segments between separators. -/
def split (s : JSString) (sep : Nat) : List JSString := splitAux sep s []

/-- JavaScript `s.includes(sub)` for an arbitrary search string. -/
def includesStr (s sub : JSString) : Bool := decide (sub <:+: s)

/-! ## Numbers -/

/-- Value of a code unit as a digit (`0-9`, `a-z`, `A-Z`), if it is one. -/
def digitValue (c : Nat) : Option Nat :=
  if 48 ≤ c ∧ c ≤ 57 then some (c - 48)
  else if 97 ≤ c ∧ c ≤ 122 then some (c - 97 + 10)
  else if 65 ≤ c ∧ c ≤ 90 then some (c - 65 + 10)
  else none

/-- Is `c` a digit of the given radix? -/
def isRadixDigit (radix : Nat) (c : Nat) : Bool :=
  match digitValue c with
  | some v => v < radix
  | none => false

/-- Value of a run of radix digits, most significant first. -/
def digitsValue (radix : Nat) (z : JSString) : Nat :=
  z.foldl (fun acc c => acc * radix + (digitValue c).getD 0) 0

/-- Sign handling of `parseInt`: a leading `-` or `+` is removed. -/
def stripSign : JSString → Bool × JSString
  | 45 :: rest => (true, rest)
  | 43 :: rest => (false, rest)
  | s => (false, s)

/-- With radix 16, `parseInt` removes a leading `0x` / `0X`. -/
def stripHexPrefix (radix : Nat) : JSString → JSString
  | 48 :: 120 :: rest => if radix = 16 then rest else 48 :: 120 :: rest
  | 48 :: 88 :: rest => if radix = 16 then rest else 48 :: 88 :: rest
  | s => s

/-- JavaScript `parseInt(s, radix)` for an explicit radix in `2..36` (the source uses 10
and 16): skip leading white space, read an optional sign, for radix 16 an
optional `0x`, then the longest run of radix digits; `none` (`NaN`) when that
run is empty.  Characters after the run are ignored.  Exact as long as the
value is below `2^53`; the source calls it on at most four characters. -/
def parseInt (s : JSString) (radix : Nat) : Option Int :=
  let (neg, s1) := stripSign (s.dropWhile isWhiteSpace)
  let z := (stripHexPrefix radix s1).takeWhile (isRadixDigit radix)
  if z = [] then none
  else if neg then some (-(digitsValue radix z : Int)) else some (digitsValue radix z : Int)

/-- JavaScript `n.toString()` for a non-negative integer below `10^21`: its decimal
numeral. -/
def natToString (n : Nat) : JSString := (Nat.toDigits 10 n).map Char.toNat

/-- JavaScript `String(x)` / `x.toString()` for a number that is an integer or `NaN`. -/
def numberToString : Option Int → JSString
  | none => js "NaN"
  | some (Int.ofNat n) => natToString n
  | some (Int.negSucc n) => js "-" ++ natToString (n + 1)

/-! ## Field classifier -/

/-- The regular expression `/^[A-Z]{2}\s*\d+$/`: two upper-case letters, any
white space, then one or more digits up to the end. -/
def matchesFrequentFlyer : JSString → Bool
  | a :: b :: rest =>
    isUpper a && isUpper b &&
      (!(rest.dropWhile isWhiteSpace).isEmpty && (rest.dropWhile isWhiteSpace).all isDigit)
  | _ => false

/-- The regular expression `/^\d{10,}$/`. -/
def matchesBaggageTag (s : JSString) : Bool := decide (10 ≤ s.length) && s.all isDigit

/-- The regular expression `/^\d$/`. -/
def matchesOneDigit : JSString → Bool
  | [c] => isDigit c
  | _ => false

/-- The regular expression `/^[0-3]$/`. -/
def matchesZeroToThree : JSString → Bool
  | [c] => decide (48 ≤ c) && decide (c ≤ 51)
  | _ => false

/-- The regular expression `/^[Y|N|T]$/`: inside a character class `|` is a
literal, so the class is the four characters `Y`, `|`, `N`, `T`. -/
def matchesFastTrack : JSString → Bool
  | [c] => c = 89 || c = 124 || c = 78 || c = 84
  | _ => false

/-- The function `identifyField(fieldData)`: label of an optional field, first match wins. -/
def identifyField (fieldData : JSString) : JSString :=
  if matchesFrequentFlyer fieldData then js "Frequent Flyer Number"
  else if matchesBaggageTag fieldData then js "Baggage Tag License Plate"
  else if fieldData.length = 1 ∧ matchesOneDigit fieldData = true then js "Check-in Source"
  else if fieldData.length = 1 ∧ matchesZeroToThree fieldData = true then js "Selectee Indicator"
  else if matchesFastTrack fieldData then js "Fast Track"
  else js "Additional Data"

/-! ## Optional-field loop -/

/-- One entry of `optionalFields`: `{ data, description }`. -/
structure OptionalField where
  data : JSString
  description : JSString
  deriving DecidableEq, Repr

/-- The `while (pos < optionalData.length)` loop of `parseOptionalFields`,
started at cursor `pos` with the entries `fields` pushed so far.  `none`: the
loop is still running after `fuel` entries. -/
def parseOptionalFieldsLoop (optionalData : JSString) :
    Nat → Int → List OptionalField → Option (List OptionalField)
  | 0, _, _ => none
  | fuel + 1, pos, fields =>
    if pos < optionalData.length then
      -- Need at least 2 characters for size field
      if pos + 2 > optionalData.length then some fields
      else
        let sizeHex := substring optionalData pos (pos + 2)
        match parseInt sizeHex 16 with
        | none => some fields
        | some size =>
          let pos1 := pos + 2
          -- Ensure we have enough characters left
          if pos1 + size > optionalData.length then some fields
          else
            let fieldData := substring optionalData pos1 (pos1 + size)
            parseOptionalFieldsLoop optionalData fuel (pos1 + size)
              (fields ++ [{ data := fieldData, description := identifyField fieldData }])
    else some fields

/-- The function `parseOptionalFields(optionalData)`: the loop from cursor 0 with no
entries.  Nothing inside the `try` throws, so its `catch` is never entered. -/
def parseOptionalFields (fuel : Nat) (optionalData : JSString) : Option (List OptionalField) :=
  parseOptionalFieldsLoop optionalData fuel 0 []

/-! ## Date converter -/

/-- The host's time zone, as the two offset functions of ECMAScript, in
milliseconds.  `offsetAt t` is the offset of local time from UTC at the instant
`t` (`LocalTime(t) = t + offsetAt t`); `offsetOfLocal u` is the offset with
which the local time value `u` is read (`UTC(u) = u - offsetOfLocal u`). -/
structure TimeZone where
  offsetAt : Int → Int
  offsetOfLocal : Int → Int

/-- Milliseconds per day. -/
def msPerDay : Int := 86400000

/-- The largest time value a `Date` holds, 8.64e15 ms either side of the epoch. -/
def maxTime : Int := 8640000000000000

/-- The operation `TimeClip`: a time value out of range is `NaN`. -/
def timeClip (t : Int) : Option Int :=
  if t < -maxTime ∨ maxTime < t then none else some t

/-- The operation `DayFromYear`: the day number (days since 1 January 1970) of
1 January of year `y` in the proleptic Gregorian calendar. -/
def dayFromYear (y : Int) : Int :=
  365 * (y - 1970) + (y - 1969) / 4 - (y - 1901) / 100 + (y - 1601) / 400

/-- The year of a day number (`YearFromTime`): the year `y` with
`dayFromYear y ≤ d < dayFromYear (y + 1)`, found from the estimate
`1970 + d / 365.2425`, which is off by at most one. -/
def yearFromDay (d : Int) : Int :=
  let y := 1970 + 400 * d / 146097
  if d < dayFromYear y then y - 1
  else if dayFromYear (y + 1) ≤ d then y + 1
  else y

/-- Gregorian leap year. -/
def isLeapYear (y : Int) : Bool := y % 4 = 0 && (y % 100 != 0 || y % 400 = 0)

/-- Lengths of the twelve months of year `y`. -/
def monthLengths (y : Int) : List Nat :=
  [31, if isLeapYear y then 29 else 28, 31, 30, 31, 30, 31, 31, 30, 31, 30, 31]

/-- The month names `toLocaleDateString('en-US', { month: 'long' })` prints. -/
def monthNames : List JSString :=
  [js "January", js "February", js "March", js "April", js "May", js "June", js "July",
   js "August", js "September", js "October", js "November", js "December"]

/-- Walk a list of month lengths: the month index (counted from `m`) and the
day of the month (from 1) of the day `d` days after the first day of month `m`. -/
def monthDayAux : List Nat → Nat → Nat → Nat × Nat
  | [], m, d => (m, d + 1)
  | len :: rest, m, d => if d < len then (m, d + 1) else monthDayAux rest (m + 1) (d - len)

/-- The year a `Date` is built for by `new Date(year, 0, 1)`: years 0 to 99
mean 1900 to 1999. -/
def dateYear (year : Int) : Int := if 0 ≤ year ∧ year ≤ 99 then 1900 + year else year

/-- The time value of `new Date(year, 0, 1)`: local midnight of 1 January of
`dateYear year`, read with the zone's offset for that local time and clipped to
the range of a `Date`; `NaN` when `year` is `NaN`. -/
def dateOfYear (zone : TimeZone) (year : Option Int) : Option Int :=
  match year with
  | none => none
  | some y =>
    let localTime := dayFromYear (dateYear y) * msPerDay
    timeClip (localTime - zone.offsetOfLocal localTime)

/-- The time value of `new Date(value)` for a number `value`. -/
def dateOfValue (value : Option Int) : Option Int := value.bind timeClip

/-- The method `date.toLocaleDateString('en-US', { month: 'long', day: 'numeric' })`:
`Invalid Date` for an invalid `Date`; otherwise the month name, a space and the
day without leading zero of the local calendar date of the instant (proleptic
Gregorian calendar). -/
def toLocaleDateString (zone : TimeZone) (date : Option Int) : JSString :=
  match date with
  | none => js "Invalid Date"
  | some t =>
    let day := (t + zone.offsetAt t) / msPerDay
    let y := yearFromDay day
    let md := monthDayAux (monthLengths y) 0 (day - dayFromYear y).toNat
    monthNames.getD md.1 [] ++ js " " ++ natToString md.2

/-- The step "Determine the full year based on current year": the decade of the current
year plus the year digit, ten years earlier when that is more than 2 years in
the future.  (`Math.floor(currentYear / 10)` is `currentYear / 10`, which on
`Int` rounds down for the positive divisor 10.) -/
def resolveFullYear (currentYear : Int) (yearDigit : Int) : Int :=
  let currentDecade := currentYear / 10 * 10
  let fullYear := currentDecade + yearDigit
  if fullYear > currentYear + 2 then fullYear - 10 else fullYear

/-- The function `convertJulianDateToCalendar(julianDate)` with `currentYear` the value of
`new Date().getFullYear()` and `zone` the host's time zone.  When `yearDigit`
is `NaN` so is `fullYear` (the comparison `fullYear > currentYear + 2` is
false), both `Date` objects are invalid, and `toLocaleDateString` of an invalid
`Date` is `"Invalid Date"`.  Nothing inside the `try` throws for a string
argument, so the `catch` (`'Unknown date'`) is never entered. -/
def convertJulianDateToCalendar (zone : TimeZone) (currentYear : Int) (julianDate : JSString) :
    JSString :=
  if julianDate.length ≠ 3 then js "Invalid date"
  else
    let yearDigit := parseInt (charAt julianDate 0) 10
    let dayOfYear := parseInt (substringFrom julianDate 1) 10
    match dayOfYear with
    | none => js "Invalid date"
    | some day =>
      if day < 1 ∨ day > 366 then js "Invalid date"
      else
        let fullYear := yearDigit.map (resolveFullYear currentYear)
        let jan1 := dateOfYear zone fullYear
        let date := dateOfValue (jan1.map (fun t => t + (day - 1) * 24 * 60 * 60 * 1000))
        toLocaleDateString zone date

/-! ## Decoder -/

/-- The object `parseBCBP` returns.  `cabinClass` is the property `class`;
the three properties assigned only for longer inputs are `none` when absent. -/
structure BoardingPass where
  formatCode : JSString
  numberOfLegs : JSString
  passengerName : JSString
  electronicTicketIndicator : JSString
  pnr : JSString
  origin : JSString
  destination : JSString
  airline : JSString
  flightNumber : JSString
  date : JSString
  cabinClass : JSString
  seat : JSString
  checkinSequenceNumber : JSString
  passengerStatus : JSString
  structuredDataSize : JSString
  checkedIn : Bool
  versionIndicator : Option JSString
  versionNumber : Option JSString
  optionalFields : Option (List OptionalField)
  deriving DecidableEq, Repr

/-- How a call ends: it returns a value, throws an `Error` with a message, or
is still running when the fuel is used up. -/
inductive Outcome (α : Type) where
  | returned (value : α)
  | thrown (message : JSString)
  | unfinished
  deriving DecidableEq, Repr

/-- The passenger-name step: for a name containing `/`, `parts[1].trim()`,
a space, `parts[0].trim()` with `parts = name.split('/')`.  `none`: reading
`parts[1]` gave `undefined` and `.trim()` threw a `TypeError`. -/
def formatPassengerName (passengerName : JSString) : Option JSString :=
  if includes passengerName 47 then
    match split passengerName 47 with
    | p0 :: p1 :: _ => some (trim p1 ++ js " " ++ trim p0)
    | _ => none
  else some passengerName

/-- The airline step ("some common misreads"). -/
def correctAirline (airline : JSString) : JSString :=
  if airline = js "PAA" then js "AA"
  else if airline = js "PUA" then js "UA"
  else if airline = js "PQF" then js "QF"
  else if airline.length = 3 ∧ (startsWith airline 80 = true ∨ startsWith airline 79 = true) then
    let potentialCode := substringFrom airline 1
    if potentialCode ∈ [js "AA", js "UA", js "DL", js "QF", js "BA"] then potentialCode
    else airline
  else airline

/-- The regular expression `/^\d+[A-Za-z]$/`. -/
def matchesDigitsLetter (s : JSString) : Bool :=
  match s.reverse with
  | l :: d :: ds => isLetter l && (d :: ds).all isDigit
  | _ => false

/-- The regular expression `/^[A-Za-z]\d+[A-Za-z]$/`. -/
def matchesLetterDigitsLetter : JSString → Bool
  | c :: rest => isLetter c && matchesDigitsLetter rest
  | [] => false

/-- The regular expression `/^0+$/`. -/
def matchesZeros (s : JSString) : Bool := !s.isEmpty && s.all (fun c => c = 48)

/-- The string `number + letter` for the capture groups of `/^(\d+)([A-Za-z])$/` on `s`:
the digits are all of `s` but its last unit, the letter is the last unit;
`number = parseInt(digits, 10).toString()`. -/
def renderSeat (s : JSString) : JSString :=
  numberToString (parseInt s.dropLast 10) ++ s.drop (s.length - 1)

/-- The seat step.  The empty string is falsy and left alone. -/
def formatSeat (seat : JSString) : JSString :=
  if seat = [] then seat
  else if matchesLetterDigitsLetter seat then renderSeat (seat.drop 1)
  else if matchesDigitsLetter seat then renderSeat seat
  else if matchesZeros seat then js "Unassigned"
  else seat

/-- The body of the `try` block of `parseBCBP` on the trimmed string `data`. -/
def parseBCBPTry (zone : TimeZone) (currentYear : Int) (fuel : Nat) (data : JSString) : Outcome BoardingPass :=
  let formatCode := charAt data 0
  let date := convertJulianDateToCalendar zone currentYear (substring data 44 47)
  -- Format code validation - should be 'M' for BCBP
  if formatCode ≠ js "M" then
    Outcome.thrown (js "Not a valid boarding pass format (must start with M)")
  else
    match formatPassengerName (trim (substring data 2 22)) with
    | none => Outcome.thrown (js "TypeError")
    | some passengerName =>
      let result : BoardingPass :=
        { formatCode := formatCode
          numberOfLegs := charAt data 1
          passengerName := passengerName
          electronicTicketIndicator := charAt data 22
          pnr := trim (substring data 23 30)
          origin := substring data 30 33
          destination := substring data 33 36
          airline := correctAirline (substring data 36 39)
          flightNumber := trim (substring data 39 44)
          date := date
          cabinClass := charAt data 47
          seat := formatSeat (trim (substring data 48 52))
          checkinSequenceNumber := trim (substring data 52 57)
          passengerStatus := charAt data 57
          structuredDataSize := substring data 58 60
          checkedIn := decide (charAt data 57 = js "1" ∨ charAt data 57 = js "2")
          versionIndicator := none
          versionNumber := none
          optionalFields := none }
      -- Parse conditional and optional fields if they exist (after 60th character)
      if data.length > 60 then
        let result1 : BoardingPass :=
          { result with
            versionIndicator := some (charAt data 60)
            versionNumber := some (charAt data 61) }
        if data.length > 62 then
          match parseOptionalFields fuel (substringFrom data 62) with
          | none => Outcome.unfinished
          | some fields => Outcome.returned { result1 with optionalFields := some fields }
        else Outcome.returned result1
      else Outcome.returned result

/-- The function `parseBCBP(rawData)` for a string argument.  An error thrown inside the
`try` block is caught and replaced by a new `Error`. -/
def parseBCBP (zone : TimeZone) (currentYear : Int) (fuel : Nat) (rawData : JSString) : Outcome BoardingPass :=
  -- Validate input: the empty string is falsy
  if rawData = [] then Outcome.thrown (js "Invalid barcode data")
  else
    let data := trim rawData
    if data.length < 60 then
      Outcome.thrown (js "Barcode data is too short (must be at least 60 characters)")
    else
      match parseBCBPTry zone currentYear fuel data with
      | Outcome.thrown _ => Outcome.thrown (js "Failed to parse boarding pass data")
      | Outcome.returned result => Outcome.returned result
      | Outcome.unfinished => Outcome.unfinished

/-- The message `processScannedData` (`Bpass/app.js`, `Bpass/script.js`) shows
for a caught error with message `errorMsg`. -/
def processScannedDataErrorMsg (errorMsg : JSString) : JSString :=
  if includesStr errorMsg (js "too short") then
    js "The scanned barcode doesn't contain enough data to be a valid boarding pass."
  else if includesStr errorMsg (js "format") then
    js "The scanned barcode doesn't appear to be a boarding pass format."
  else errorMsg

/-! ## Breakdown formatter -/

/-- One row of the table `fields` of `formatDataBreakdown`: `range: [start,
stop]` (the source calls the second number `end`) and `label`. -/
structure BreakdownField where
  start : Nat
  stop : Nat
  label : JSString
  deriving DecidableEq, Repr

/-- The table `fields` of `formatDataBreakdown`. -/
def breakdownFields : List BreakdownField :=
  [{ start := 0, stop := 1, label := js "Format Code" },
   { start := 1, stop := 2, label := js "Number of Legs" },
   { start := 2, stop := 22, label := js "Passenger Name" },
   { start := 22, stop := 23, label := js "Electronic Ticket Indicator" },
   { start := 23, stop := 30, label := js "PNR/Booking Reference" },
   { start := 30, stop := 33, label := js "From Airport" },
   { start := 33, stop := 36, label := js "To Airport" },
   { start := 36, stop := 39, label := js "Airline Code" },
   { start := 39, stop := 44, label := js "Flight Number" },
   { start := 44, stop := 47, label := js "Julian Date" },
   { start := 47, stop := 48, label := js "Cabin Class" },
   { start := 48, stop := 52, label := js "Seat Number" },
   { start := 52, stop := 57, label := js "Check-in Sequence Number" },
   { start := 57, stop := 58, label := js "Passenger Status" },
   { start := 58, stop := 60, label := js "Structured Data Size" }]

/-- The line appended for one row: the template
`[start-(end-1)] label: "value"` followed by a line feed, with
`value = data.substring(start, end)`. -/
def breakdownLine (data : JSString) (field : BreakdownField) : JSString :=
  js "[" ++ natToString field.start ++ js "-" ++ natToString (field.stop - 1) ++ js "] " ++
    field.label ++ js ": \"" ++ substring data field.start field.stop ++ js "\"\n"

/-- The function `formatDataBreakdown(data)` for a string argument.  Nothing
inside its `try` throws, so the `catch` is never entered. -/
def formatDataBreakdown (data : JSString) : JSString :=
  if data.length < 30 then
    js "Data too short for breakdown (length: " ++ natToString data.length ++ js ")"
  else
    let breakdown := breakdownFields.foldl
      (fun acc field => if data.length ≥ field.stop then acc ++ breakdownLine data field else acc)
      (js "Field positions breakdown:\n\n")
    if data.length > 60 then
      let withIndicator :=
        breakdown ++ (js "[60] Version Indicator: \"" ++ charAt data 60 ++ js "\"\n")
      if data.length > 61 then
        let withNumber :=
          withIndicator ++ (js "[61] Version Number: \"" ++ charAt data 61 ++ js "\"\n")
        if data.length > 62 then
          withNumber ++ (js "[62+] Optional Fields: \"" ++ substringFrom data 62 ++ js "\"\n")
        else withNumber
      else withIndicator
    else breakdown

/-! ## Vocabulary of the specification -/

/-- The slice `t[a, b)` of the offset table: 0-based, end-exclusive. -/
def slice (t : JSString) (a b : Nat) : JSString := (t.take b).drop a

/-- The part of `s` before its first `/` (all of `s` when it has none). -/
def beforeFirstSlash (s : JSString) : JSString := s.takeWhile (fun c => c != 47)

/-- Everything in `s` after its first `/`. -/
def afterFirstSlash (s : JSString) : JSString := (s.dropWhile (fun c => c != 47)).drop 1

/-- The record `parseBCBP` builds from the trimmed string `t` once the format
code is accepted, written in one piece; `fields` is what the optional-field
loop returned. -/
def decodedRecord (zone : TimeZone) (currentYear : Int) (t : JSString) (fields : List OptionalField) :
    BoardingPass :=
  { formatCode := charAt t 0
    numberOfLegs := charAt t 1
    passengerName := (formatPassengerName (trim (substring t 2 22))).getD []
    electronicTicketIndicator := charAt t 22
    pnr := trim (substring t 23 30)
    origin := substring t 30 33
    destination := substring t 33 36
    airline := correctAirline (substring t 36 39)
    flightNumber := trim (substring t 39 44)
    date := convertJulianDateToCalendar zone currentYear (substring t 44 47)
    cabinClass := charAt t 47
    seat := formatSeat (trim (substring t 48 52))
    checkinSequenceNumber := trim (substring t 52 57)
    passengerStatus := charAt t 57
    structuredDataSize := substring t 58 60
    checkedIn := decide (charAt t 57 = js "1" ∨ charAt t 57 = js "2")
    versionIndicator := if t.length > 60 then some (charAt t 60) else none
    versionNumber := if t.length > 60 then some (charAt t 61) else none
    optionalFields := if t.length > 62 then some fields else none }

/-- A digit run written without leading zeros: leading `0`s are removed, and a
run of `0`s only is written `0`. -/
def withoutLeadingZeros (ds : JSString) : JSString :=
  if ds.dropWhile (fun c => c == 48) = [] then [48] else ds.dropWhile (fun c => c == 48)

/-- A hexadecimal digit: `0-9`, `a-f` or `A-F`. -/
def isHexDigit (c : Nat) : Bool :=
  (48 ≤ c && c ≤ 57) || (97 ≤ c && c ≤ 102) || (65 ≤ c && c ≤ 70)

/-- The entry `e` is framed in `tail`: at some offset `p` the two units
`tail[p, p+2)` are read by radix-16 `parseInt` as the number of units of
`e.data`, and `e.data` is the slice of that many units right after them. -/
def FramedIn (tail : JSString) (e : OptionalField) : Prop :=
  ∃ p : Nat, p + 2 + e.data.length ≤ tail.length ∧
    parseInt (slice tail p (p + 2)) 16 = some (e.data.length : Int) ∧
    e.data = slice tail (p + 2) (p + 2 + e.data.length)

/-- Rule 1 of the classifier in the words of the specification: two upper-case
letters, optionally followed by white space, then one or more digits. -/
def IsFrequentFlyerNumber (s : JSString) : Prop :=
  ∃ a b ws ds, s = a :: b :: (ws ++ ds) ∧ isUpper a = true ∧ isUpper b = true ∧
    (∀ c ∈ ws, isWhiteSpace c = true) ∧ ds ≠ [] ∧ ∀ c ∈ ds, isDigit c = true

/-- Rule 2: ten or more digits. -/
def IsBaggageTag (s : JSString) : Prop := 10 ≤ s.length ∧ ∀ c ∈ s, isDigit c = true

/-- Rule 3: exactly one digit. -/
def IsSingleDigit (s : JSString) : Prop := ∃ c, s = [c] ∧ isDigit c = true

/-- Rule 5: exactly one character in `{Y, N, T}`. -/
def IsSingleYNT (s : JSString) : Prop := ∃ c, s = [c] ∧ (c = 89 ∨ c = 78 ∨ c = 84)

/-- The six labels of the classifier. -/
def labels : List JSString :=
  [js "Frequent Flyer Number", js "Baggage Tag License Plate", js "Check-in Source",
   js "Selectee Indicator", js "Fast Track", js "Additional Data"]

/-- The pieces of the end-to-end scenario of the specification, in order. -/
def scenarioPieces : List JSString :=
  [js "M1SMITH/JOHN        E", js "ABC1234", js "JFKLAXAA", js "1234 ", js "4107", js "Y",
   js "0012C", js "00001", js "1", js "00"]

/-- The concatenation of the scenario's pieces. -/
def scenarioRaw : JSString := scenarioPieces.flatten

/-- The slice of `t` over the range of row `i` of the breakdown table. -/
def tableSlice (t : JSString) (i : Nat) : JSString :=
  match breakdownFields.get? i with
  | some field => slice t field.start field.stop
  | none => []

/-- The line of the breakdown for one row, in the words of the specification
but with the inclusive end the code prints: `[start-(end-1)] Label: "value"`
and a line feed, with `value = raw[start,end)`. -/
def tableLine (raw : JSString) (field : BreakdownField) : JSString :=
  js "[" ++ natToString field.start ++ js "-" ++ natToString (field.stop - 1) ++ js "] " ++
    field.label ++ js ": \"" ++ slice raw field.start field.stop ++ js "\"\n"

/-- Lengths of the twelve months of a Gregorian year, leap or common. -/
def monthLengthsOf (leap : Bool) : List Nat :=
  [31, if leap then 29 else 28, 31, 30, 31, 30, 31, 31, 30, 31, 30, 31]

/-- Number of days of year `y` before its month of index `m` (January is 0). -/
def daysBeforeMonth (y : Int) (m : Nat) : Nat := ((monthLengths y).take m).sum

/-- Day `d` of the month of index `m` is the `n`-th day of the Gregorian year
`y`, counted from January 1 as day 1. -/
def IsNthDayOfYear (y : Int) (n m d : Nat) : Prop :=
  m < 12 ∧ 1 ≤ d ∧ d ≤ (monthLengths y).getD m 0 ∧ daysBeforeMonth y m + d = n

/-- The string `{MonthName} {Day}` for the month of index `m` (January is 0)
and the day `d`. -/
def monthDayString (m d : Nat) : JSString := monthNames.getD m [] ++ js " " ++ natToString d

/-- The hexadecimal digit of value `v < 16`, in upper or lower case. -/
def hexDigitChar (upper : Bool) (v : Nat) : Nat :=
  if v < 10 then 48 + v else if upper then 55 + v else 87 + v

/-- The two-digit hexadecimal numeral of `n < 256`, in upper or lower case. -/
def hex2 (upper : Bool) (n : Nat) : JSString :=
  [hexDigitChar upper (n / 16), hexDigitChar upper (n % 16)]

/-- The length-prefixed encoding of a list of strings: for each one the
two-digit hexadecimal numeral of its length (in the letter case given with it)
followed by the string. -/
def encodeFields : List (Bool × JSString) → JSString
  | [] => []
  | (upper, d) :: rest => hex2 upper d.length ++ d ++ encodeFields rest

/-- The month-and-day string of the day `days` days after 1 January of the
year a `Date` is built for from `year`, in the proleptic Gregorian calendar:
the month name, a space, the day without leading zero.  It is the calendar
arithmetic of the specification, with no time zone in it. -/
def calendarDayString (year : Int) (days : Nat) : JSString :=
  let y := dateYear year
  let md := monthDayAux (monthLengths y ++ monthLengths (y + 1)) 0 days
  monthNames.getD (md.1 % 12) [] ++ js " " ++ natToString md.2

/-- The zone UTC: no offset. -/
def utc : TimeZone := { offsetAt := fun _ => 0, offsetOfLocal := fun _ => 0 }

/-- A zone that puts its clock back once: the offset is `before` up to the
instant `change` and `after` from then on.  A local time that occurs twice is
read with the earlier offset, as ECMAScript prescribes. -/
def clockBackZone (before after change : Int) : TimeZone :=
  { offsetAt := fun t => if t < change then before else after
    offsetOfLocal := fun u => if u < change + before then before else after }

/-- The zone America/Sao_Paulo from November 2018 on: UTC-2 (daylight saving
time) up to 2019-02-17T02:00Z, local midnight of 17 February 2019, and UTC-3
from then on. -/
def saoPaulo2019 : TimeZone := clockBackZone (-7200000) (-10800000) 1550368800000

/-- The zone Australia/Sydney from October 2022 to September 2023: UTC+11
(daylight saving time) up to 2023-04-01T16:00Z, 03:00 local time on 2 April
2023, and UTC+10 from then on. -/
def sydney2023 : TimeZone := clockBackZone 39600000 36000000 1680364800000

/-- Local midnight of 1 January of the year a `Date` is built for from `year`,
as a local time value. -/
def localJan1 (year : Int) : Int := dayFromYear (dateYear year) * msPerDay

/-- The instant of `new Date(year, 0, 1)` before clipping. -/
def jan1Instant (zone : TimeZone) (year : Int) : Int :=
  localJan1 year - zone.offsetOfLocal (localJan1 year)

/-- The instant the converter prints for day `day`: `day - 1` times 24 hours
after `jan1Instant`. -/
def printedInstant (zone : TimeZone) (year day : Int) : Int :=
  jan1Instant zone year + (day - 1) * msPerDay

/-- How far the zone's offset at the printed instant is ahead of the offset
local midnight of 1 January was read with: `0` when the zone did not move its
clock in between, negative when it put the clock back. -/
def clockShift (zone : TimeZone) (year day : Int) : Int :=
  zone.offsetAt (printedInstant zone year day) - zone.offsetOfLocal (localJan1 year)

/-- Both instants the converter builds lie in the range of a `Date`. -/
def InDateRange (zone : TimeZone) (year day : Int) : Prop :=
  (-maxTime ≤ jan1Instant zone year ∧ jan1Instant zone year ≤ maxTime) ∧
    (-maxTime ≤ printedInstant zone year day ∧ printedInstant zone year day ≤ maxTime)

instance (zone : TimeZone) (year day : Int) : Decidable (InDateRange zone year day) := by
  unfold InDateRange
  infer_instance

/-- A zone that, between local midnight of 1 January of any year and each of
the 98 instants a whole number of days after it, moves its clock by less than a
day in all, and whose clock at the instant of that midnight is not behind the
clock the midnight was read with. -/
def ClockWithinADay (zone : TimeZone) : Prop :=
  ∀ year day : Int, 1 ≤ day → day ≤ 99 →
    -msPerDay ≤ clockShift zone year day ∧ clockShift zone year day < msPerDay ∧
      (day = 1 → 0 ≤ clockShift zone year day)

/-- What the converter prints once the year is a number: `toLocaleDateString`
of the `Date` built `day - 1` times 24 hours after `new Date(fullYear, 0, 1)`. -/
def printedDate (zone : TimeZone) (fullYear day : Int) : JSString :=
  toLocaleDateString zone
    (dateOfValue ((dateOfYear zone (some fullYear)).map
      (fun t => t + (day - 1) * 24 * 60 * 60 * 1000)))

/-- The lines `formatDataBreakdown` adds for what follows the mandatory block:
the version indicator when the string has more than 60 units, the version
number when it has more than 61, the optional tail when it has more than 62. -/
def versionLines (raw : JSString) : JSString :=
  (if 60 < raw.length then js "[60] Version Indicator: \"" ++ slice raw 60 61 ++ js "\"\n"
    else []) ++
  (if 61 < raw.length then js "[61] Version Number: \"" ++ slice raw 61 62 ++ js "\"\n"
    else []) ++
  (if 62 < raw.length then js "[62+] Optional Fields: \"" ++ raw.drop 62 ++ js "\"\n"
    else [])

/-! ## Strings: basic facts -/

theorem substring_eq_slice (s : JSString) (a b : Nat) (hab : a ≤ b) (hb : b ≤ s.length) :
    substring s (a : Int) (b : Int) = slice s a b := by
  have ha : min a s.length = a := by omega
  have hb2 : min b s.length = b := by omega
  simp only [substring, clamp, slice, Int.toNat_ofNat, ha, hb2]
  rw [Nat.min_eq_left hab, Nat.max_eq_right hab, List.drop_take]

theorem charAt_eq_slice (s : JSString) (i : Nat) : charAt s i = slice s i (i + 1) := by
  simp [charAt, slice, List.drop_take]

theorem substringFrom_eq_drop (s : JSString) (a : Nat) : substringFrom s (a : Int) = s.drop a := by
  simp only [substringFrom, substring, clamp, Int.toNat_ofNat, Nat.min_self]
  rcases Nat.le_total a s.length with h | h
  · rw [Nat.min_eq_left h, Nat.min_eq_left h, Nat.max_eq_right h]
    exact List.take_of_length_le (by simp)
  · rw [Nat.min_eq_right h, Nat.min_self, Nat.max_self]
    simp [List.drop_of_length_le h]

theorem trim_nil : trim [] = [] := rfl

theorem ne_nil_of_trim_length {raw : JSString} {n : Nat} (h : n + 1 ≤ (trim raw).length) :
    raw ≠ [] := by
  intro h0
  subst h0
  simp [trim_nil] at h

theorem mem_of_mem_trim {c : Nat} {s : JSString} (h : c ∈ trim s) : c ∈ s := by
  unfold trim at h
  rw [List.mem_reverse] at h
  have h1 := (List.dropWhile_suffix isWhiteSpace).subset h
  rw [List.mem_reverse] at h1
  exact (List.dropWhile_suffix isWhiteSpace).subset h1

/-! ## `split` -/

theorem splitAux_eq (sep : Nat) (s cur : JSString) :
    splitAux sep s cur =
      (cur.reverse ++ s.takeWhile (fun c => c != sep)) ::
        (if sep ∈ s then splitAux sep ((s.dropWhile (fun c => c != sep)).drop 1) [] else []) := by
  induction s generalizing cur with
  | nil => simp [splitAux]
  | cons c rest ih =>
    by_cases hc : c = sep
    · subst hc
      simp [splitAux, List.takeWhile, List.dropWhile]
    · have hne : sep ≠ c := fun h => hc h.symm
      have hb : (c != sep) = true := by simp [hc]
      rw [splitAux, if_neg hc, ih]
      simp [List.takeWhile, List.dropWhile, hb, hne]

theorem split_of_includes (s : JSString) (h : includes s 47 = true) :
    ∃ rest, split s 47 =
      beforeFirstSlash s :: (afterFirstSlash s).takeWhile (fun c => c != 47) :: rest := by
  have hmem : (47 : Nat) ∈ s := by simpa [includes] using h
  refine ⟨if (47 : Nat) ∈ afterFirstSlash s then
      splitAux 47 (((afterFirstSlash s).dropWhile (fun c => c != 47)).drop 1) [] else [], ?_⟩
  rw [split, splitAux_eq, if_pos hmem, splitAux_eq]
  simp [beforeFirstSlash, afterFirstSlash]

theorem formatPassengerName_of_includes (s : JSString) (h : includes s 47 = true) :
    formatPassengerName s =
      some (trim ((afterFirstSlash s).takeWhile (fun c => c != 47)) ++ js " " ++
        trim (beforeFirstSlash s)) := by
  obtain ⟨rest, hrest⟩ := split_of_includes s h
  simp [formatPassengerName, h, hrest]

theorem formatPassengerName_of_not_includes (s : JSString) (h : includes s 47 = false) :
    formatPassengerName s = some s := by
  simp [formatPassengerName, h]

theorem formatPassengerName_isSome (s : JSString) : ∃ name, formatPassengerName s = some name := by
  cases h : includes s 47
  · exact ⟨_, formatPassengerName_of_not_includes s h⟩
  · exact ⟨_, formatPassengerName_of_includes s h⟩

/-! ## The decoder on a well-formed input -/

theorem charAt_zero_of_head {t : JSString} (h : t.head? = some 77) : charAt t 0 = js "M" := by
  cases t with
  | nil => simp at h
  | cons c rest =>
    simp only [List.head?_cons, Option.some.injEq] at h
    subst h
    rfl

theorem charAt_zero_ne_of_head {t : JSString} (hlen : 1 ≤ t.length) (h : t.head? ≠ some 77) :
    charAt t 0 ≠ js "M" := by
  cases t with
  | nil => simp at hlen
  | cons c rest =>
    intro hc
    apply h
    have : [c] = [77] := hc
    simp only [List.head?_cons]
    simpa using this

/-- Closed form of `parseBCBP` on an input whose trimmed form has at least 60
units and starts with `M`. -/
theorem parseBCBP_decodable (zone : TimeZone) (currentYear : Int) (fuel : Nat) (raw : JSString)
    (h60 : 60 ≤ (trim raw).length) (hM : (trim raw).head? = some 77) :
    parseBCBP zone currentYear fuel raw =
      if (trim raw).length > 62 then
        match parseOptionalFields fuel (substringFrom (trim raw) 62) with
        | none => Outcome.unfinished
        | some fields => Outcome.returned (decodedRecord zone currentYear (trim raw) fields)
      else Outcome.returned (decodedRecord zone currentYear (trim raw) []) := by
  have hne : raw ≠ [] := ne_nil_of_trim_length h60
  have hlt : ¬ (trim raw).length < 60 := by omega
  have hc : charAt (trim raw) 0 = js "M" := charAt_zero_of_head hM
  obtain ⟨name, hname⟩ := formatPassengerName_isSome (trim (substring (trim raw) 2 22))
  have htry : parseBCBPTry zone currentYear fuel (trim raw) =
      if (trim raw).length > 62 then
        match parseOptionalFields fuel (substringFrom (trim raw) 62) with
        | none => Outcome.unfinished
        | some fields => Outcome.returned (decodedRecord zone currentYear (trim raw) fields)
      else Outcome.returned (decodedRecord zone currentYear (trim raw) []) := by
    unfold parseBCBPTry decodedRecord
    dsimp only
    rw [if_neg (not_not.mpr hc), hname]
    dsimp only
    by_cases h62 : (trim raw).length > 62
    · have h60' : (trim raw).length > 60 := by omega
      rw [if_pos h60', if_pos h62, if_pos h62]
      cases parseOptionalFields fuel (substringFrom (trim raw) 62) with
      | none => rfl
      | some fields => simp only [if_pos h60', if_pos h62, Option.getD_some]
    · rw [if_neg h62, if_neg h62]
      by_cases h60' : (trim raw).length > 60
      · simp only [if_pos h60', if_neg h62, Option.getD_some]
      · simp only [if_neg h60', if_neg h62, Option.getD_some]
  simp only [parseBCBP, if_neg hne, if_neg hlt]
  rw [htry]
  by_cases h62 : (trim raw).length > 62
  · rw [if_pos h62]
    cases parseOptionalFields fuel (substringFrom (trim raw) 62) <;> rfl
  · rw [if_neg h62]

/-- On an input of at least 60 trimmed units that does not start with `M` the
`try` block throws the format error, and `parseBCBP` replaces it. -/
theorem parseBCBP_not_M (zone : TimeZone) (currentYear : Int) (fuel : Nat) (raw : JSString)
    (h60 : 60 ≤ (trim raw).length) (hM : (trim raw).head? ≠ some 77) :
    parseBCBPTry zone currentYear fuel (trim raw) =
        Outcome.thrown (js "Not a valid boarding pass format (must start with M)") ∧
      parseBCBP zone currentYear fuel raw = Outcome.thrown (js "Failed to parse boarding pass data") := by
  have hne : raw ≠ [] := ne_nil_of_trim_length h60
  have hlt : ¬ (trim raw).length < 60 := by omega
  have hc : charAt (trim raw) 0 ≠ js "M" := charAt_zero_ne_of_head (by omega) hM
  have htry : parseBCBPTry zone currentYear fuel (trim raw) =
      Outcome.thrown (js "Not a valid boarding pass format (must start with M)") := by
    unfold parseBCBPTry
    dsimp only
    rw [if_pos hc]
  refine ⟨htry, ?_⟩
  simp only [parseBCBP, if_neg hne, if_neg hlt]
  rw [htry]

/-! ## The optional-field loop on the tail `-2` -/

/-- On the tail `-2` one pass of the loop reads size `-2`, pushes an entry and
puts the cursor back to 0. -/
theorem parseOptionalFieldsLoop_minus_two_step (fuel : Nat) (fields : List OptionalField) :
    parseOptionalFieldsLoop (js "-2") (fuel + 1) 0 fields =
      parseOptionalFieldsLoop (js "-2") fuel 0
        (fields ++ [{ data := js "-2", description := js "Additional Data" }]) := by
  rw [parseOptionalFieldsLoop]
  have h1 : ((0 : Int) < ((js "-2").length : Int)) := by decide
  have h2 : ¬ ((0 : Int) + 2 > ((js "-2").length : Int)) := by decide
  have h3 : parseInt (substring (js "-2") 0 (0 + 2)) 16 = some (-2) := by decide
  have h4 : ¬ ((0 : Int) + 2 + (-2) > ((js "-2").length : Int)) := by decide
  have h5 : substring (js "-2") (0 + 2) (0 + 2 + (-2)) = js "-2" := by decide
  have h6 : identifyField (js "-2") = js "Additional Data" := by decide
  have h7 : (0 : Int) + 2 + (-2) = 0 := by decide
  rw [if_pos h1, if_neg h2]
  dsimp only
  rw [h3]
  dsimp only
  rw [if_neg h4, h5, h6, h7]

theorem parseOptionalFieldsLoop_minus_two (fuel : Nat) (fields : List OptionalField) :
    parseOptionalFieldsLoop (js "-2") fuel 0 fields = none := by
  induction fuel generalizing fields with
  | zero => rfl
  | succ n ih => rw [parseOptionalFieldsLoop_minus_two_step, ih]

theorem substring_lit (s : JSString) (a b : Nat) (ia ib : Int) (ha : ia = (a : Int))
    (hb : ib = (b : Int)) (hab : a ≤ b) (hlen : b ≤ s.length) :
    substring s ia ib = slice s a b := by
  subst ha hb
  exact substring_eq_slice s a b hab hlen

theorem correctAirline_of_length (a : JSString) (h3 : a.length = 3) :
    correctAirline a =
      if (a.head? = some 80 ∨ a.head? = some 79) ∧
          a.drop 1 ∈ [js "AA", js "UA", js "DL", js "QF", js "BA"]
      then a.drop 1 else a := by
  match a, h3 with
  | [x, y, z], _ =>
    have hsub : substringFrom [x, y, z] 1 = [y, z] := by
      have := substringFrom_eq_drop [x, y, z] 1
      simpa using this
    have e1 : js "PAA" = [80, 65, 65] := by decide
    have e2 : js "PUA" = [80, 85, 65] := by decide
    have e3 : js "PQF" = [80, 81, 70] := by decide
    have e4 : js "AA" = [65, 65] := by decide
    have e5 : js "UA" = [85, 65] := by decide
    have e6 : js "DL" = [68, 76] := by decide
    have e7 : js "QF" = [81, 70] := by decide
    have e8 : js "BA" = [66, 65] := by decide
    unfold correctAirline
    dsimp only
    rw [hsub, e1, e2, e3, e4, e5, e6, e7, e8]
    simp only [startsWith, List.cons.injEq, and_true, List.head?_cons, Option.some.injEq,
      List.drop_succ_cons, List.drop_zero, List.mem_cons, List.mem_singleton, List.length_cons,
      List.length_nil, beq_iff_eq, List.not_mem_nil, or_false]
    split_ifs <;> simp_all

theorem mem_of_mem_substring {c : Nat} {s : JSString} {a b : Int} (h : c ∈ substring s a b) :
    c ∈ s := by
  unfold substring at h
  exact List.mem_of_mem_drop (List.mem_of_mem_take h)

theorem stripSign_fst {l : JSString} (h : (stripSign l).1 = true) : 45 ∈ l := by
  unfold stripSign at h
  split at h
  · simp
  · simp at h
  · simp at h

theorem parseInt_nonneg {s : JSString} {radix : Nat} {v : Int} (h : parseInt s radix = some v)
    (hs : 45 ∉ s) : 0 ≤ v := by
  unfold parseInt at h
  rcases hp : stripSign (s.dropWhile isWhiteSpace) with ⟨neg, s1⟩
  rw [hp] at h
  dsimp only at h
  have hneg : neg = false := by
    cases hn : neg with
    | false => rfl
    | true =>
      exfalso
      apply hs
      have h1 : (stripSign (s.dropWhile isWhiteSpace)).1 = true := by rw [hp, hn]
      exact (List.dropWhile_suffix isWhiteSpace).subset (stripSign_fst h1)
  subst hneg
  simp only [Bool.false_eq_true, if_false] at h
  split_ifs at h with h1
  simp only [Option.some.injEq] at h
  rw [← h]
  exact Int.ofNat_nonneg _

/-- On a tail without `-` every size read is non-negative, the cursor moves on
by at least 2 per pass, and the loop ends within `fuel` passes as soon as
`length + 2 ≤ pos + 2 * fuel`. -/
theorem parseOptionalFieldsLoop_terminates (tail : JSString) (hs : 45 ∉ tail) :
    ∀ (fuel : Nat) (pos : Int) (fields : List OptionalField), 0 ≤ pos →
      pos ≤ (tail.length : Int) → (tail.length : Int) + 2 ≤ pos + 2 * fuel →
      ∃ result, parseOptionalFieldsLoop tail fuel pos fields = some result := by
  intro fuel
  induction fuel with
  | zero =>
    intro pos fields h0 hle hm
    exfalso
    simp only [Nat.cast_zero, mul_zero, add_zero] at hm
    omega
  | succ n ih =>
    intro pos fields h0 hle hm
    rw [parseOptionalFieldsLoop]
    by_cases h1 : pos < (tail.length : Int)
    · rw [if_pos h1]
      by_cases h2 : pos + 2 > (tail.length : Int)
      · rw [if_pos h2]
        exact ⟨_, rfl⟩
      · rw [if_neg h2]
        dsimp only
        cases hp : parseInt (substring tail pos (pos + 2)) 16 with
        | none => exact ⟨_, rfl⟩
        | some size =>
          dsimp only
          have hsz : 0 ≤ size := parseInt_nonneg hp (fun h => hs (mem_of_mem_substring h))
          by_cases h3 : pos + 2 + size > (tail.length : Int)
          · rw [if_pos h3]
            exact ⟨_, rfl⟩
          · rw [if_neg h3]
            apply ih
            · omega
            · omega
            · push_cast at hm
              omega
    · rw [if_neg h1]
      exact ⟨_, rfl⟩

theorem parseOptionalFields_terminates (tail : JSString) (hs : 45 ∉ tail) (fuel : Nat)
    (hf : tail.length + 2 ≤ 2 * fuel) :
    ∃ result, parseOptionalFields fuel tail = some result := by
  unfold parseOptionalFields
  apply parseOptionalFieldsLoop_terminates tail hs fuel 0 [] (le_refl _)
  · exact Int.ofNat_nonneg _
  · omega

/-- The outcome of `parseBCBP` on a well-formed input: either the optional-field
loop is still running (the fuel is below half the length or the tail contains
`-`), or the record of `decodedRecord` is returned. -/
theorem parseBCBP_outcome (zone : TimeZone) (currentYear : Int) (fuel : Nat) (raw : JSString)
    (h60 : 60 ≤ (trim raw).length) (hM : (trim raw).head? = some 77) :
    (parseBCBP zone currentYear fuel raw = Outcome.unfinished ∧ 62 < (trim raw).length ∧
        parseOptionalFields fuel ((trim raw).drop 62) = none ∧
        (2 * fuel < (trim raw).length ∨ 45 ∈ (trim raw).drop 62)) ∨
      ∃ fields, parseBCBP zone currentYear fuel raw =
          Outcome.returned (decodedRecord zone currentYear (trim raw) fields) ∧
        ((trim raw).length ≤ 62 ∨ parseOptionalFields fuel ((trim raw).drop 62) = some fields) := by
  rw [parseBCBP_decodable zone currentYear fuel raw h60 hM]
  have hd : substringFrom (trim raw) 62 = (trim raw).drop 62 := substringFrom_eq_drop (trim raw) 62
  rw [hd]
  by_cases h62 : (trim raw).length > 62
  · rw [if_pos h62]
    cases hloop : parseOptionalFields fuel ((trim raw).drop 62) with
    | none =>
      refine Or.inl ⟨rfl, h62, rfl, ?_⟩
      by_contra hc
      rw [not_or] at hc
      obtain ⟨hfuel, hmem⟩ := hc
      obtain ⟨result, hres⟩ := parseOptionalFields_terminates ((trim raw).drop 62) hmem fuel
        (by rw [List.length_drop]; omega)
      rw [hloop] at hres
      exact Option.noConfusion hres
    | some fields => exact Or.inr ⟨fields, rfl, Or.inr rfl⟩
  · rw [if_neg h62]
    exact Or.inr ⟨[], rfl, Or.inl (by omega)⟩

theorem slice_length (t : JSString) (a b : Nat) (hab : a ≤ b) (hb : b ≤ t.length) :
    (slice t a b).length = b - a := by
  simp only [slice, List.length_drop, List.length_take]
  omega

/-! ## The date converter -/
theorem dayFromYear_bounds (y : Int) :
    146097 * (y - 1970) - 1000 ≤ 400 * dayFromYear y ∧
      400 * dayFromYear y ≤ 146097 * (y - 1970) + 1000 := by
  unfold dayFromYear
  omega

theorem dayFromYear_succ (y : Int) :
    dayFromYear y + 365 ≤ dayFromYear (y + 1) ∧ dayFromYear (y + 1) ≤ dayFromYear y + 366 := by
  unfold dayFromYear
  omega

theorem dayFromYear_strictMono : StrictMono dayFromYear :=
  strictMono_int_of_lt_succ (fun y => by have := dayFromYear_succ y; omega)

/-- The year found by `yearFromDay` is the year of the day: the day lies from 1 January
of that year up to, not including, 1 January of the next. -/
theorem yearFromDay_spec (d : Int) :
    dayFromYear (yearFromDay d) ≤ d ∧ d < dayFromYear (yearFromDay d + 1) := by
  have hq1 : 146097 * (400 * d / 146097) ≤ 400 * d := Int.mul_ediv_self_le (by decide)
  have hq2 : 400 * d < 146097 * (400 * d / 146097) + 146097 :=
    Int.lt_mul_ediv_self_add (by decide)
  unfold yearFromDay
  dsimp only
  generalize 400 * d / 146097 = q at hq1 hq2 ⊢
  have hlo := (dayFromYear_bounds (1970 + q - 1)).2
  have hhi := (dayFromYear_bounds (1970 + q + 1 + 1)).1
  split_ifs with h1 h2
  · rw [sub_add_cancel]
    exact ⟨by omega, h1⟩
  · exact ⟨h2, by omega⟩
  · exact ⟨by omega, by omega⟩

theorem yearFromDay_eq (y d : Int) (h1 : dayFromYear y ≤ d) (h2 : d < dayFromYear (y + 1)) :
    yearFromDay d = y := by
  obtain ⟨h3, h4⟩ := yearFromDay_spec d
  rcases lt_trichotomy (yearFromDay d) y with h | h | h
  · have : dayFromYear (yearFromDay d + 1) ≤ dayFromYear y :=
      dayFromYear_strictMono.monotone (by omega)
    omega
  · exact h
  · have : dayFromYear (y + 1) ≤ dayFromYear (yearFromDay d) :=
      dayFromYear_strictMono.monotone (by omega)
    omega

theorem monthDayAux_append (l l2 : List Nat) :
    ∀ m d, d < l.sum →
      monthDayAux (l ++ l2) m d = monthDayAux l m d ∧ (monthDayAux l m d).1 < m + l.length := by
  induction l with
  | nil =>
    intro m d h
    simp at h
  | cons len rest ih =>
    intro m d h
    rw [List.cons_append, monthDayAux, monthDayAux]
    by_cases hd : d < len
    · rw [if_pos hd, if_pos hd]
      exact ⟨rfl, by simp⟩
    · rw [if_neg hd, if_neg hd]
      have hsum : d - len < rest.sum := by
        rw [List.sum_cons] at h
        omega
      obtain ⟨e, hlt⟩ := ih (m + 1) (d - len) hsum
      refine ⟨e, ?_⟩
      rw [List.length_cons]
      omega

theorem monthLengths_sum (y : Int) : 365 ≤ (monthLengths y).sum := by
  unfold monthLengths
  cases isLeapYear y <;> decide

/-- The month-and-day string of the instant `t` whose local day is day `k` of
year `y`. -/
theorem toLocaleDateString_of_day (zone : TimeZone) (t y : Int) (k : Nat) (hk : k < 365)
    (h : (t + zone.offsetAt t) / msPerDay = dayFromYear y + k) :
    toLocaleDateString zone (some t) =
      monthNames.getD ((monthDayAux (monthLengths y ++ monthLengths (y + 1)) 0 k).1 % 12) [] ++
        js " " ++ natToString (monthDayAux (monthLengths y ++ monthLengths (y + 1)) 0 k).2 := by
  have hy : yearFromDay (dayFromYear y + k) = y :=
    yearFromDay_eq y _ (by omega) (by have := (dayFromYear_succ y).1; omega)
  have hk2 : (dayFromYear y + (k : Int) - dayFromYear y).toNat = k := by omega
  obtain ⟨e, hlt⟩ := monthDayAux_append (monthLengths y) (monthLengths (y + 1)) 0 k
    (by have := monthLengths_sum y; omega)
  have hlen : (monthLengths y).length = 12 := rfl
  unfold toLocaleDateString
  dsimp only
  rw [h, hy, hk2, e, Nat.mod_eq_of_lt (by omega)]

theorem printedDate_out_of_range (zone : TimeZone) (year day : Int)
    (h : ¬ InDateRange zone year day) : printedDate zone year day = js "Invalid Date" := by
  unfold printedDate dateOfYear dateOfValue
  dsimp only
  by_cases h1 : -maxTime ≤ jan1Instant zone year ∧ jan1Instant zone year ≤ maxTime
  · have hc : timeClip (dayFromYear (dateYear year) * msPerDay -
        zone.offsetOfLocal (dayFromYear (dateYear year) * msPerDay)) =
        some (jan1Instant zone year) := by
      unfold timeClip
      rw [if_neg (by
        unfold jan1Instant localJan1 at h1
        omega)]
      rfl
    rw [hc, Option.map_some', Option.some_bind]
    have hc2 : timeClip (jan1Instant zone year + (day - 1) * 24 * 60 * 60 * 1000) = none := by
      unfold timeClip
      rw [if_pos (by
        unfold InDateRange printedInstant msPerDay at h
        omega)]
    rw [hc2]
    rfl
  · have hc : timeClip (dayFromYear (dateYear year) * msPerDay -
        zone.offsetOfLocal (dayFromYear (dateYear year) * msPerDay)) = none := by
      unfold timeClip
      rw [if_pos (by
        unfold jan1Instant localJan1 at h1
        omega)]
    rw [hc]
    rfl

theorem printedDate_in_range (zone : TimeZone) (year day : Int)
    (h : InDateRange zone year day) :
    printedDate zone year day = toLocaleDateString zone (some (printedInstant zone year day)) := by
  unfold printedDate dateOfYear dateOfValue
  dsimp only
  obtain ⟨h1, h2⟩ := h
  have hc : timeClip (dayFromYear (dateYear year) * msPerDay -
      zone.offsetOfLocal (dayFromYear (dateYear year) * msPerDay)) =
      some (jan1Instant zone year) := by
    unfold timeClip
    rw [if_neg (by
      unfold jan1Instant localJan1 at h1
      omega)]
    rfl
  rw [hc, Option.map_some', Option.some_bind]
  have hc2 : timeClip (jan1Instant zone year + (day - 1) * 24 * 60 * 60 * 1000) =
      some (printedInstant zone year day) := by
    unfold timeClip
    rw [if_neg (by
      unfold printedInstant msPerDay at h2
      omega)]
    unfold printedInstant msPerDay
    congr 1
    omega
  rw [hc2]

/-- The local day of the printed instant. -/
theorem printedInstant_local (zone : TimeZone) (year day : Int) :
    printedInstant zone year day + zone.offsetAt (printedInstant zone year day) =
      (dayFromYear (dateYear year) + (day - 1)) * msPerDay + clockShift zone year day := by
  unfold clockShift printedInstant jan1Instant localJan1
  ring

/-- Where the zone's clock is not behind, and less than a day ahead of, the
clock local midnight of 1 January was read with, the converter prints the
calendar day `day`. -/
theorem printedDate_steady (zone : TimeZone) (year day : Int) (hr : InDateRange zone year day)
    (h1 : 1 ≤ day) (h2 : day ≤ 365) (hs0 : 0 ≤ clockShift zone year day)
    (hs1 : clockShift zone year day < msPerDay) :
    printedDate zone year day = calendarDayString year (day - 1).toNat := by
  rw [printedDate_in_range zone year day hr]
  have hloc := printedInstant_local zone year day
  have hday : (printedInstant zone year day + zone.offsetAt (printedInstant zone year day)) /
      msPerDay = dayFromYear (dateYear year) + ((day - 1).toNat : Int) := by
    rw [hloc]
    unfold msPerDay at hs1 ⊢
    omega
  rw [toLocaleDateString_of_day zone _ (dateYear year) (day - 1).toNat (by omega) hday]
  rfl

/-- Where the zone put its clock back by at most a day in between, the
converter prints the calendar day before day `day`. -/
theorem printedDate_clock_back (zone : TimeZone) (year day : Int)
    (hr : InDateRange zone year day) (h1 : 2 ≤ day) (h2 : day ≤ 365)
    (hs0 : -msPerDay ≤ clockShift zone year day) (hs1 : clockShift zone year day < 0) :
    printedDate zone year day = calendarDayString year (day - 2).toNat := by
  rw [printedDate_in_range zone year day hr]
  have hloc := printedInstant_local zone year day
  have hday : (printedInstant zone year day + zone.offsetAt (printedInstant zone year day)) /
      msPerDay = dayFromYear (dateYear year) + ((day - 2).toNat : Int) := by
    rw [hloc]
    unfold msPerDay at hs0 ⊢
    omega
  rw [toLocaleDateString_of_day zone _ (dateYear year) (day - 2).toNat (by omega) hday]
  rfl

theorem monthNames_head :
    ∀ i, i < 12 → monthNames.getD i [] ≠ [] ∧ (monthNames.getD i []).head? ≠ some 73 := by
  decide

/-- What `toLocaleDateString` prints is neither of the two sentinels of the
converter. -/
theorem toLocaleDateString_ne_sentinel (zone : TimeZone) (date : Option Int) :
    toLocaleDateString zone date ≠ js "Invalid date" ∧
      toLocaleDateString zone date ≠ js "Unknown date" := by
  cases date with
  | none =>
    have e : toLocaleDateString zone none = js "Invalid Date" := rfl
    rw [e]
    exact ⟨by decide, by decide⟩
  | some t =>
    unfold toLocaleDateString
    dsimp only
    generalize (monthDayAux (monthLengths (yearFromDay ((t + zone.offsetAt t) / msPerDay))) 0
      ((t + zone.offsetAt t) / msPerDay -
        dayFromYear (yearFromDay ((t + zone.offsetAt t) / msPerDay))).toNat) = md
    have hm : ∀ i, (monthNames.getD i [] ++ js " ").head? ≠ some 73 ∧
        (monthNames.getD i [] ++ js " ").head? ≠ some 85 := by
      intro i
      by_cases hi : i < 12
      · revert i
        decide
      · have : monthNames.getD i [] = [] := by
          rw [List.getD_eq_default]
          have : monthNames.length = 12 := rfl
          omega
        rw [this]
        decide
    have hne : monthNames.getD md.1 [] ++ js " " ≠ [] := by simp [js]
    constructor
    · intro he
      have hh := congrArg List.head? he
      rw [List.head?_append_of_ne_nil _ hne] at hh
      exact (hm md.1).1 (by rw [hh]; decide)
    · intro he
      have hh := congrArg List.head? he
      rw [List.head?_append_of_ne_nil _ hne] at hh
      exact (hm md.1).2 (by rw [hh]; decide)

/-- The converter on a 3-unit fragment, by what `parseInt` reads from its day
part and from its first character. -/
theorem convertJulianDateToCalendar_of_length (zone : TimeZone) (currentYear : Int)
    (s : JSString) (h3 : s.length = 3) :
    convertJulianDateToCalendar zone currentYear s =
      match parseInt (substringFrom s 1) 10 with
      | none => js "Invalid date"
      | some day =>
        if day < 1 ∨ day > 366 then js "Invalid date"
        else
          match parseInt (charAt s 0) 10 with
          | none => js "Invalid Date"
          | some digit => printedDate zone (resolveFullYear currentYear digit) day := by
  unfold convertJulianDateToCalendar
  rw [if_neg (not_not.mpr h3)]
  dsimp only
  cases parseInt (substringFrom s 1) 10 with
  | none => rfl
  | some day =>
    dsimp only
    split_ifs
    · rfl
    · cases parseInt (charAt s 0) 10 <;> rfl

/-- In UTC the clock never moves. -/
theorem utc_clockWithinADay : ClockWithinADay utc := by
  intro year day _ _
  unfold clockShift utc msPerDay
  dsimp only
  omega

/-- A zone that puts its clock back once, by less than a day, moves its clock
by less than a day between any two instants, and reads every local midnight
with the offset in force at that instant. -/
theorem clockBackZone_clockWithinADay (before after change : Int) (h1 : after ≤ before)
    (h2 : before - after < msPerDay) : ClockWithinADay (clockBackZone before after change) := by
  intro year day hd1 _
  unfold clockShift printedInstant jan1Instant clockBackZone
  dsimp only
  generalize localJan1 year = m
  unfold msPerDay at h2 ⊢
  split_ifs <;> omega

/-! ## `parseInt` -/

theorem stripHexPrefix_ten (l : JSString) : stripHexPrefix 10 l = l := by
  unfold stripHexPrefix
  split <;> simp

theorem isRadixDigit_ten (c : Nat) : isRadixDigit 10 c = isDigit c := by
  unfold isRadixDigit digitValue isDigit
  split_ifs with h1 h2 h3
  · have e1 : decide (48 ≤ c) = true := by simp [h1.1]
    have e2 : decide (c ≤ 57) = true := by simp [h1.2]
    have e3 : decide (c - 48 < 10) = true := by
      have : c - 48 < 10 := by omega
      simp [this]
    rw [e1, e2]
    exact e3
  · have e0 : ¬ (c ≤ 57) := by omega
    have e1 : decide (c ≤ 57) = false := by simp [e0]
    have e3 : decide (c - 97 + 10 < 10) = false := by simp
    rw [e1, Bool.and_false]
    exact e3
  · have e0 : ¬ (c ≤ 57) := by omega
    have e1 : decide (c ≤ 57) = false := by simp [e0]
    have e3 : decide (c - 65 + 10 < 10) = false := by simp
    rw [e1, Bool.and_false]
    exact e3
  · have e0 : ¬ (48 ≤ c ∧ c ≤ 57) := h1
    have e1 : (decide (48 ≤ c) && decide (c ≤ 57)) = false := by
      simpa using e0
    rw [e1]

theorem takeWhile_eq_nil_iff_head (p : Nat → Bool) (l : JSString) :
    l.takeWhile p = [] ↔ ∀ c, l.head? = some c → p c = false := by
  cases l with
  | nil => simp
  | cons a rest =>
    cases h : p a <;> simp [List.takeWhile, h]

/-- Radix-10 `parseInt` gives `NaN` exactly when, after leading white space
and one optional sign, the string does not continue with a decimal digit. -/
theorem parseInt_ten_eq_none_iff (s : JSString) :
    parseInt s 10 = none ↔
      ∀ c, (stripSign (s.dropWhile isWhiteSpace)).2.head? = some c → isDigit c = false := by
  unfold parseInt
  rcases hp : stripSign (s.dropWhile isWhiteSpace) with ⟨neg, s1⟩
  dsimp only
  rw [stripHexPrefix_ten]
  have hfun : isRadixDigit 10 = isDigit := funext isRadixDigit_ten
  rw [hfun, ← takeWhile_eq_nil_iff_head]
  split_ifs with h1 h2
  · simp [h1]
  · simp [h1]
  · simp [h1]

/-! ## Claims -/

/-- C1 (what the code does): for every string whose trimmed length is at least
60 and whose first trimmed character is not `M`, the format error raised inside
the `try` block is caught and replaced: `parseBCBP` throws the message
`Failed to parse boarding pass data` that its `catch` gives to every error of
the `try` block, and the caller, which looks for `format` in the message, does
not report a boarding-pass-format problem. -/
theorem C1_bad_format_reported_as_generic_failure (zone : TimeZone) (currentYear : Int) (fuel : Nat)
    (raw : JSString) (h60 : 60 ≤ (trim raw).length) (hM : (trim raw).head? ≠ some 77) :
    parseBCBPTry zone currentYear fuel (trim raw) =
        Outcome.thrown (js "Not a valid boarding pass format (must start with M)") ∧
      parseBCBP zone currentYear fuel raw = Outcome.thrown (js "Failed to parse boarding pass data") ∧
      (∀ data message, 60 ≤ (trim data).length →
        parseBCBPTry zone currentYear fuel (trim data) = Outcome.thrown message →
        parseBCBP zone currentYear fuel data =
          Outcome.thrown (js "Failed to parse boarding pass data")) ∧
      processScannedDataErrorMsg (js "Failed to parse boarding pass data") =
        js "Failed to parse boarding pass data" ∧
      processScannedDataErrorMsg (js "Not a valid boarding pass format (must start with M)") =
        js "The scanned barcode doesn't appear to be a boarding pass format." := by
  obtain ⟨h1, h2⟩ := parseBCBP_not_M zone currentYear fuel raw h60 hM
  refine ⟨h1, h2, ?_, by decide, by decide⟩
  intro data message hd ht
  have hne : data ≠ [] := ne_nil_of_trim_length hd
  have hlt : ¬ (trim data).length < 60 := by omega
  simp only [parseBCBP, if_neg hne, if_neg hlt]
  rw [ht]

theorem C1_bad_format_reported_as_generic_failure_witness :
    parseBCBP utc 2024 0 (js "X1DOE/JANE            EABC123 JFKLAXUA 1234 410Y012C0001 100") =
      Outcome.thrown (js "Failed to parse boarding pass data") :=
  (C1_bad_format_reported_as_generic_failure utc 2024 0
    (js "X1DOE/JANE            EABC123 JFKLAXUA 1234 410Y012C0001 100")
    (by decide) (by decide)).2.1

/-- C2 (counterexample): the empty string has trimmed length 0, below 60, and
`parseBCBP` fails on it with `Invalid barcode data`, not with the too-short
error. -/
theorem C2_empty_string_is_invalid_input :
    (trim (js "")).length < 60 ∧
      parseBCBP utc 2024 0 (js "") = Outcome.thrown (js "Invalid barcode data") ∧
      parseBCBP utc 2024 0 (js "") ≠
        Outcome.thrown (js "Barcode data is too short (must be at least 60 characters)") := by
  decide

/-- C2 (amended): for every non-empty string whose length after trimming is
below 60 (white-space-only strings included), `parseBCBP` fails with the
too-short error, whatever the reference year and fuel; the empty string fails
with the invalid-input error. -/
theorem C2_too_short (zone : TimeZone) (currentYear : Int) (fuel : Nat) (raw : JSString)
    (hlen : (trim raw).length < 60) :
    (raw ≠ [] → parseBCBP zone currentYear fuel raw =
        Outcome.thrown (js "Barcode data is too short (must be at least 60 characters)")) ∧
      (raw = [] → parseBCBP zone currentYear fuel raw = Outcome.thrown (js "Invalid barcode data")) := by
  constructor
  · intro hne
    simp only [parseBCBP, if_neg hne, if_pos hlen]
  · intro h0
    simp only [parseBCBP, if_pos h0]

theorem C2_too_short_witness :
    parseBCBP utc 2024 0 (js "  \n ") =
      Outcome.thrown (js "Barcode data is too short (must be at least 60 characters)") :=
  (C2_too_short utc 2024 0 (js "  \n ") (by decide)).1 (by decide)

/-- C3 (failing input): the 64-character string below has trimmed length at
least 60 and starts with `M`, and its optional-field tail is `-2`; for every
reference year and every amount of fuel `parseBCBP` is still running in the
optional-field loop: it neither returns a record nor throws. -/
theorem C3_parseBCBP_never_returns_on_minus_two_tail (zone : TimeZone) (currentYear : Int) (fuel : Nat) :
    60 ≤ (trim (js "M1DOE/JANE            EABC123 JFKLAXUA 1234 410Y012C0001 100>1-2")).length ∧
      (trim (js "M1DOE/JANE            EABC123 JFKLAXUA 1234 410Y012C0001 100>1-2")).head? =
        some 77 ∧
      parseBCBP zone currentYear fuel
        (js "M1DOE/JANE            EABC123 JFKLAXUA 1234 410Y012C0001 100>1-2") =
        Outcome.unfinished := by
  refine ⟨by decide, by decide, ?_⟩
  rw [parseBCBP_decodable zone currentYear fuel _ (by decide) (by decide)]
  have ht : trim (js "M1DOE/JANE            EABC123 JFKLAXUA 1234 410Y012C0001 100>1-2") =
      js "M1DOE/JANE            EABC123 JFKLAXUA 1234 410Y012C0001 100>1-2" := by decide
  have hlen : (js "M1DOE/JANE            EABC123 JFKLAXUA 1234 410Y012C0001 100>1-2").length > 62 := by
    decide
  have htail : substringFrom (js "M1DOE/JANE            EABC123 JFKLAXUA 1234 410Y012C0001 100>1-2")
      62 = js "-2" := by decide
  rw [ht, if_pos hlen, htail, parseOptionalFields, parseOptionalFieldsLoop_minus_two]

/-- C4 (failing input): on the tail `-2` the loop of `parseOptionalFields`
reads size `-2`, pushes an entry and returns the cursor to 0, so for every
amount of fuel it is still running: it does not terminate and returns no
list. -/
theorem C4_parseOptionalFields_loops_on_minus_two (fuel : Nat) :
    parseOptionalFields fuel (js "-2") = none ∧
      ∀ fields, parseOptionalFieldsLoop (js "-2") (fuel + 1) 0 fields =
        parseOptionalFieldsLoop (js "-2") fuel 0
          (fields ++ [{ data := js "-2", description := js "Additional Data" }]) := by
  refine ⟨?_, fun fields => parseOptionalFieldsLoop_minus_two_step fuel fields⟩
  rw [parseOptionalFields, parseOptionalFieldsLoop_minus_two]


/-- C5: for every input whose trimmed form `t` has length at least 60 and
starts with `M`, `parseBCBP` returns a record (unless, for `t` longer than 62,
the optional-field loop is still running when the fuel is used up, which takes
fuel below half the length of `t` or a `-` in the tail `t[62..]`), and in that
record `formatCode`, `numberOfLegs`, `electronicTicketIndicator`, `origin`,
`destination`, `class`, `passengerStatus`, `structuredDataSize` are the slices
`t[0,1)`, `t[1,2)`, `t[22,23)`, `t[30,33)`, `t[33,36)`, `t[47,48)`, `t[57,58)`,
`t[58,60)`; `pnr`, `flightNumber`, `checkinSequenceNumber` are the trimmed
slices `t[23,30)`, `t[39,44)`, `t[52,57)`; and `passengerName` is the trimmed
slice `t[2,22)` whenever that contains no `/`. -/
theorem C5_mandatory_fields_are_slices (zone : TimeZone) (currentYear : Int) (fuel : Nat) (raw : JSString)
    (h60 : 60 ≤ (trim raw).length) (hM : (trim raw).head? = some 77) :
    (parseBCBP zone currentYear fuel raw = Outcome.unfinished ∧ 62 < (trim raw).length ∧
        parseOptionalFields fuel ((trim raw).drop 62) = none ∧
        (2 * fuel < (trim raw).length ∨ 45 ∈ (trim raw).drop 62)) ∨
      ∃ r, parseBCBP zone currentYear fuel raw = Outcome.returned r ∧
        r.formatCode = slice (trim raw) 0 1 ∧
        r.numberOfLegs = slice (trim raw) 1 2 ∧
        r.electronicTicketIndicator = slice (trim raw) 22 23 ∧
        r.origin = slice (trim raw) 30 33 ∧
        r.destination = slice (trim raw) 33 36 ∧
        r.cabinClass = slice (trim raw) 47 48 ∧
        r.passengerStatus = slice (trim raw) 57 58 ∧
        r.structuredDataSize = slice (trim raw) 58 60 ∧
        r.pnr = trim (slice (trim raw) 23 30) ∧
        r.flightNumber = trim (slice (trim raw) 39 44) ∧
        r.checkinSequenceNumber = trim (slice (trim raw) 52 57) ∧
        (47 ∉ slice (trim raw) 2 22 → r.passengerName = trim (slice (trim raw) 2 22)) := by
  rcases parseBCBP_outcome zone currentYear fuel raw h60 hM with h | ⟨fields, hr, _⟩
  · exact Or.inl h
  · refine Or.inr ⟨_, hr, ?_, ?_, ?_, ?_, ?_, ?_, ?_, ?_, ?_, ?_, ?_, ?_⟩
    · exact charAt_eq_slice _ _
    · exact charAt_eq_slice _ _
    · exact charAt_eq_slice _ _
    · exact substring_lit (trim raw) 30 33 30 33 rfl rfl (by omega) (by omega)
    · exact substring_lit (trim raw) 33 36 33 36 rfl rfl (by omega) (by omega)
    · exact charAt_eq_slice _ _
    · exact charAt_eq_slice _ _
    · exact substring_lit (trim raw) 58 60 58 60 rfl rfl (by omega) (by omega)
    · exact congrArg trim (substring_lit (trim raw) 23 30 23 30 rfl rfl (by omega) (by omega))
    · exact congrArg trim (substring_lit (trim raw) 39 44 39 44 rfl rfl (by omega) (by omega))
    · exact congrArg trim (substring_lit (trim raw) 52 57 52 57 rfl rfl (by omega) (by omega))
    · intro hno
      have hno2 : 47 ∉ trim (slice (trim raw) 2 22) := fun h => hno (mem_of_mem_trim h)
      have hinc : includes (trim (slice (trim raw) 2 22)) 47 = false := by
        simpa [includes] using hno2
      have hs : substring (trim raw) 2 22 = slice (trim raw) 2 22 :=
        substring_lit (trim raw) 2 22 2 22 rfl rfl (by omega) (by omega)
      unfold decodedRecord
      dsimp only
      rw [hs, formatPassengerName_of_not_includes _ hinc, Option.getD_some]

theorem C5_mandatory_fields_are_slices_witness :
    ∃ r, parseBCBP utc 2024 0 (js " M1DOE JANE            EABC123 JFKLAXUA 1234 410Y012C0001 100\n") =
        Outcome.returned r ∧
      r.origin = js "JFK" ∧ r.destination = js "LAX" ∧ r.pnr = js "ABC123" ∧
      r.passengerName = js "DOE JANE" := by
  rcases C5_mandatory_fields_are_slices utc 2024 0
      (js " M1DOE JANE            EABC123 JFKLAXUA 1234 410Y012C0001 100\n")
      (by decide) (by decide) with h | ⟨r, hr, _, _, _, ho, hd, _, _, _, hp, _, _, hn⟩
  · exact absurd h.2.1 (by decide)
  · refine ⟨r, hr, ?_, ?_, ?_, ?_⟩
    · rw [ho]; decide
    · rw [hd]; decide
    · rw [hp]; decide
    · rw [hn (by decide)]; decide

/-- C6 (counterexample): with reference year 2024, in the zone UTC, the
converter does not return `April 16` for the fragment `410`, and the day of
year it reads from it is not 107. -/
theorem C6_fragment_410_is_not_April_16 :
    convertJulianDateToCalendar utc 2024 (js "410") ≠ js "April 16" ∧
      parseInt (substringFrom (js "410") 1) 10 ≠ some 107 := by
  decide

/-- C6 (amended): with reference year 2024, the converter applied to the
3-character fragment `410` reads year digit 4 and day-of-year 10 (the two
characters after the first), resolves year 2024, and returns `January 10`, in
every time zone whose clock at the instant printed (nine times 24 hours after
local midnight of 1 January 2024) is not behind, and less than a day ahead of,
the clock that midnight was read with, both instants lying in the range of a
`Date`. -/
theorem C6_fragment_410_is_January_10 (zone : TimeZone) (hr : InDateRange zone 2024 10)
    (hs0 : 0 ≤ clockShift zone 2024 10) (hs1 : clockShift zone 2024 10 < msPerDay) :
    parseInt (charAt (js "410") 0) 10 = some 4 ∧
      parseInt (substringFrom (js "410") 1) 10 = some 10 ∧
      resolveFullYear 2024 4 = 2024 ∧
      convertJulianDateToCalendar zone 2024 (js "410") = js "January 10" := by
  refine ⟨by decide, by decide, by decide, ?_⟩
  rw [convertJulianDateToCalendar_of_length zone 2024 (js "410") (by decide)]
  have hd : parseInt (substringFrom (js "410") 1) 10 = some 10 := by decide
  have hy : parseInt (charAt (js "410") 0) 10 = some 4 := by decide
  have hres : resolveFullYear 2024 4 = 2024 := by decide
  rw [hd]
  dsimp only
  rw [if_neg (by decide), hy]
  dsimp only
  rw [hres, printedDate_steady zone 2024 10 hr (by decide) (by decide) hs0 hs1]
  decide

theorem C6_fragment_410_is_January_10_witness :
    convertJulianDateToCalendar utc 2024 (js "410") = js "January 10" ∧
      convertJulianDateToCalendar saoPaulo2019 2024 (js "410") = js "January 10" :=
  ⟨(C6_fragment_410_is_January_10 utc (by decide) (by decide) (by decide)).2.2.2,
    (C6_fragment_410_is_January_10 saoPaulo2019 (by decide) (by decide) (by decide)).2.2.2⟩

/-- C7 (failing input): for every reference year the converter returns
`Invalid Date` (capital `D`) for the fragment `A10`, whose first character is
not a digit; that string is neither of the sentinels `Invalid date` and
`Unknown date`, nor a month name followed by a day. -/
theorem C7_non_digit_year_gives_Invalid_Date (zone : TimeZone) (currentYear : Int) :
    convertJulianDateToCalendar zone currentYear (js "A10") = js "Invalid Date" ∧
      convertJulianDateToCalendar zone currentYear (js "A10") ≠ js "Invalid date" ∧
      convertJulianDateToCalendar zone currentYear (js "A10") ≠ js "Unknown date" ∧
      ∀ m ∈ monthNames, ∀ day : Nat,
        convertJulianDateToCalendar zone currentYear (js "A10") ≠ m ++ js " " ++ natToString day := by
  have h : convertJulianDateToCalendar zone currentYear (js "A10") = js "Invalid Date" := by
    rw [convertJulianDateToCalendar_of_length zone currentYear (js "A10") (by decide)]
    have hd : parseInt (substringFrom (js "A10") 1) 10 = some 10 := by decide
    have hy : parseInt (charAt (js "A10") 0) 10 = none := by decide
    rw [hd]
    dsimp only
    rw [if_neg (by decide), hy]
  rw [h]
  refine ⟨rfl, by decide, by decide, ?_⟩
  intro m hm day he
  have hmem : ∀ m ∈ monthNames, m ≠ [] ∧ m.head? ≠ some 73 := by decide
  obtain ⟨hne, hh⟩ := hmem m hm
  have h2 := congrArg List.head? he
  rw [List.append_assoc, List.head?_append_of_ne_nil _ hne] at h2
  exact hh (by rw [← h2]; decide)

/-- C8 (counterexample): the 3-character fragments `41X` and `4 5` have a day
part that is not made only of decimal digits, yet the converter returns
`January 1` and `January 5` for them, not `Invalid date`. -/
theorem C8_non_digit_day_part_accepted :
    (js "41X").length = 3 ∧ (substringFrom (js "41X") 1).all isDigit = false ∧
      convertJulianDateToCalendar utc 2024 (js "41X") = js "January 1" ∧
      (js "4 5").length = 3 ∧ (substringFrom (js "4 5") 1).all isDigit = false ∧
      convertJulianDateToCalendar utc 2024 (js "4 5") = js "January 5" ∧
      js "January 1" ≠ js "Invalid date" ∧ js "January 5" ≠ js "Invalid date" := by
  decide

/-- C8 (amended): the converter returns exactly `Invalid date` for every
fragment whose length is not 3, and for a 3-character fragment exactly when
`parseInt` reads no number from the day part (the characters after the first)
or reads a number outside `[1,366]`; and `parseInt` reads no number exactly
when, after leading white space and one optional sign, the day part does not
continue with a decimal digit. -/
theorem C8_invalid_date (zone : TimeZone) (currentYear : Int) (s : JSString) :
    (s.length ≠ 3 → convertJulianDateToCalendar zone currentYear s = js "Invalid date") ∧
      (s.length = 3 →
        (convertJulianDateToCalendar zone currentYear s = js "Invalid date" ↔
          (parseInt (s.drop 1) 10 = none ∨
            ∃ day, parseInt (s.drop 1) 10 = some day ∧ (day < 1 ∨ 366 < day)))) ∧
      (parseInt (s.drop 1) 10 = none ↔
        ∀ c, (stripSign ((s.drop 1).dropWhile isWhiteSpace)).2.head? = some c →
          isDigit c = false) := by
  refine ⟨?_, ?_, parseInt_ten_eq_none_iff (s.drop 1)⟩
  · intro h
    unfold convertJulianDateToCalendar
    rw [if_pos h]
  · intro h3
    have hsub : substringFrom s 1 = s.drop 1 := by
      have := substringFrom_eq_drop s 1
      simpa using this
    rw [convertJulianDateToCalendar_of_length zone currentYear s h3, hsub]
    cases hd : parseInt (List.drop 1 s) 10 with
    | none => simp
    | some day =>
      dsimp only
      by_cases hr : day < 1 ∨ day > 366
      · rw [if_pos hr]
        simp only [true_iff]
        exact Or.inr ⟨day, rfl, hr⟩
      · rw [if_neg hr]
        have hne : (match parseInt (charAt s 0) 10 with
            | none => js "Invalid Date"
            | some digit => printedDate zone (resolveFullYear currentYear digit) day) ≠
            js "Invalid date" := by
          cases parseInt (charAt s 0) 10 with
          | none =>
            have hID : js "Invalid Date" ≠ js "Invalid date" := by decide
            exact hID
          | some digit =>
            unfold printedDate
            exact (toLocaleDateString_ne_sentinel _ _).1
        constructor
        · intro he
          exact absurd he hne
        · rintro (h | ⟨d, hd2, hr2⟩)
          · exact absurd h (by simp)
          · simp only [Option.some.injEq] at hd2
            subst hd2
            exact absurd hr2 hr

theorem C8_invalid_date_witness :
    convertJulianDateToCalendar utc 2024 (js "4107") = js "Invalid date" ∧
      convertJulianDateToCalendar utc 2024 (js "4XY") = js "Invalid date" ∧
      convertJulianDateToCalendar utc 2024 (js "400") = js "Invalid date" :=
  ⟨(C8_invalid_date utc 2024 (js "4107")).1 (by decide),
    ((C8_invalid_date utc 2024 (js "4XY")).2.1 (by decide)).2 (Or.inl (by decide)),
    ((C8_invalid_date utc 2024 (js "400")).2.1 (by decide)).2 (Or.inr ⟨0, by decide, by decide⟩)⟩

/-- C9 (counterexample): the input below is decoded, its trimmed name field is
`A/B/C`, and the record's `passengerName` is `B A`, whereas the part after the
first `/`, a space and the part before it give `B/C A`. -/
theorem C9_second_slash_cuts_first_name :
    ∃ r, parseBCBP utc 2024 0 (js "M1A/B/C               EABC123 JFKLAXUA 1234 410Y012C0001 100") =
        Outcome.returned r ∧
      trim (slice (trim (js "M1A/B/C               EABC123 JFKLAXUA 1234 410Y012C0001 100")) 2 22) =
        js "A/B/C" ∧
      r.passengerName = js "B A" ∧
      trim (afterFirstSlash (js "A/B/C")) ++ js " " ++ trim (beforeFirstSlash (js "A/B/C")) =
        js "B/C A" ∧
      r.passengerName ≠
        trim (afterFirstSlash (js "A/B/C")) ++ js " " ++ trim (beforeFirstSlash (js "A/B/C")) := by
  refine ⟨decodedRecord utc 2024
    (js "M1A/B/C               EABC123 JFKLAXUA 1234 410Y012C0001 100") [], ?_, ?_, ?_, ?_, ?_⟩ <;>
  decide

/-- C9 (amended): for every decodable input whose trimmed name field
`t[2,22)` contains at least one `/`, `passengerName` is `trim(first) + " " +
trim(before)`, where `before` is the part of the trimmed field preceding its
first `/` and `first` is the part between the first `/` and the next one
(everything after the first `/` when there is no second one); what follows a
second `/` is dropped.  A record is returned unless the optional-field loop is
still running when the fuel is used up, which takes fuel below half the length
of `t` or a `-` in the tail `t[62..]`. -/
theorem C9_name_reordered (zone : TimeZone) (currentYear : Int) (fuel : Nat) (raw : JSString)
    (h60 : 60 ≤ (trim raw).length) (hM : (trim raw).head? = some 77)
    (hslash : 47 ∈ trim (slice (trim raw) 2 22)) :
    (parseBCBP zone currentYear fuel raw = Outcome.unfinished ∧ 62 < (trim raw).length ∧
        parseOptionalFields fuel ((trim raw).drop 62) = none ∧
        (2 * fuel < (trim raw).length ∨ 45 ∈ (trim raw).drop 62)) ∨
      ∃ r, parseBCBP zone currentYear fuel raw = Outcome.returned r ∧
        r.passengerName =
          trim (beforeFirstSlash (afterFirstSlash (trim (slice (trim raw) 2 22)))) ++ js " " ++
            trim (beforeFirstSlash (trim (slice (trim raw) 2 22))) ∧
        (47 ∉ afterFirstSlash (trim (slice (trim raw) 2 22)) →
          r.passengerName =
            trim (afterFirstSlash (trim (slice (trim raw) 2 22))) ++ js " " ++
              trim (beforeFirstSlash (trim (slice (trim raw) 2 22)))) := by
  rcases parseBCBP_outcome zone currentYear fuel raw h60 hM with h | ⟨fields, hr, _⟩
  · exact Or.inl h
  · have hinc : includes (trim (slice (trim raw) 2 22)) 47 = true := by
      simpa [includes] using hslash
    have hs : substring (trim raw) 2 22 = slice (trim raw) 2 22 :=
      substring_lit (trim raw) 2 22 2 22 rfl rfl (by omega) (by omega)
    have hname : (decodedRecord zone currentYear (trim raw) fields).passengerName =
        trim (beforeFirstSlash (afterFirstSlash (trim (slice (trim raw) 2 22)))) ++ js " " ++
          trim (beforeFirstSlash (trim (slice (trim raw) 2 22))) := by
      unfold decodedRecord
      dsimp only
      rw [hs, formatPassengerName_of_includes _ hinc, Option.getD_some]
      rfl
    refine Or.inr ⟨_, hr, hname, ?_⟩
    intro hno
    rw [hname]
    have hall : beforeFirstSlash (afterFirstSlash (trim (slice (trim raw) 2 22))) =
        afterFirstSlash (trim (slice (trim raw) 2 22)) := by
      unfold beforeFirstSlash
      rw [List.takeWhile_eq_self_iff]
      intro c hc
      have : c ≠ 47 := fun h => hno (h ▸ hc)
      simpa using this
    rw [hall]

theorem C9_name_reordered_witness :
    ∃ r, parseBCBP utc 2024 0 (js "M1DOE/JANE            EABC123 JFKLAXUA 1234 410Y012C0001 100") =
        Outcome.returned r ∧ r.passengerName = js "JANE DOE" := by
  rcases C9_name_reordered utc 2024 0
      (js "M1DOE/JANE            EABC123 JFKLAXUA 1234 410Y012C0001 100")
      (by decide) (by decide) (by decide) with h | ⟨r, hr, hn, _⟩
  · exact absurd h.2.1 (by decide)
  · exact ⟨r, hr, by rw [hn]; decide⟩

/-- C10: for every decodable input with 3-character airline slice
`a = t[36,39)`, the record's `airline` is the last two characters of `a` exactly
when `a` starts with `P` or `O` and those two characters are one of `AA`, `UA`,
`DL`, `QF`, `BA`; in every other case `airline = a`.  In particular `PAA`,
`PUA`, `PQF` give `AA`, `UA`, `QF` and `PAB` stays `PAB`.  A record is returned
unless the optional-field loop is still running when the fuel is used up, which
takes fuel below half the length of `t` or a `-` in the tail `t[62..]`. -/
theorem C10_airline_correction (zone : TimeZone) (currentYear : Int) (fuel : Nat) (raw : JSString)
    (h60 : 60 ≤ (trim raw).length) (hM : (trim raw).head? = some 77) :
    ((parseBCBP zone currentYear fuel raw = Outcome.unfinished ∧ 62 < (trim raw).length ∧
        parseOptionalFields fuel ((trim raw).drop 62) = none ∧
        (2 * fuel < (trim raw).length ∨ 45 ∈ (trim raw).drop 62)) ∨
      ∃ r, parseBCBP zone currentYear fuel raw = Outcome.returned r ∧
        (r.airline = (slice (trim raw) 36 39).drop 1 ↔
          (((slice (trim raw) 36 39).head? = some 80 ∨ (slice (trim raw) 36 39).head? = some 79) ∧
            (slice (trim raw) 36 39).drop 1 ∈ [js "AA", js "UA", js "DL", js "QF", js "BA"])) ∧
        (¬ (((slice (trim raw) 36 39).head? = some 80 ∨
              (slice (trim raw) 36 39).head? = some 79) ∧
            (slice (trim raw) 36 39).drop 1 ∈ [js "AA", js "UA", js "DL", js "QF", js "BA"]) →
          r.airline = slice (trim raw) 36 39)) ∧
      correctAirline (js "PAA") = js "AA" ∧ correctAirline (js "PUA") = js "UA" ∧
      correctAirline (js "PQF") = js "QF" ∧ correctAirline (js "PAB") = js "PAB" := by
  refine ⟨?_, by decide, by decide, by decide, by decide⟩
  rcases parseBCBP_outcome zone currentYear fuel raw h60 hM with h | ⟨fields, hr, _⟩
  · exact Or.inl h
  · have hs : substring (trim raw) 36 39 = slice (trim raw) 36 39 :=
      substring_lit (trim raw) 36 39 36 39 rfl rfl (by omega) (by omega)
    have hlen : (slice (trim raw) 36 39).length = 3 :=
      slice_length (trim raw) 36 39 (by omega) (by omega)
    have hair : (decodedRecord zone currentYear (trim raw) fields).airline =
        correctAirline (slice (trim raw) 36 39) := by
      unfold decodedRecord
      dsimp only
      rw [hs]
    refine Or.inr ⟨_, hr, ?_, ?_⟩
    · rw [hair, correctAirline_of_length _ hlen]
      constructor
      · intro he
        by_contra hc
        rw [if_neg hc] at he
        have := congrArg List.length he
        rw [List.length_drop, hlen] at this
        omega
      · intro hc
        rw [if_pos hc]
    · intro hc
      rw [hair, correctAirline_of_length _ hlen, if_neg hc]

theorem C10_airline_correction_witness :
    ∃ r, parseBCBP utc 2024 0 (js "M1DOE/JANE            EABC123 JFKLAXOBA1234 410Y012C0001 100") =
        Outcome.returned r ∧ r.airline = js "BA" := by
  rcases (C10_airline_correction utc 2024 0
      (js "M1DOE/JANE            EABC123 JFKLAXOBA1234 410Y012C0001 100")
      (by decide) (by decide)).1 with h | ⟨r, hr, hiff, _⟩
  · exact absurd h.2.1 (by decide)
  · exact ⟨r, hr, by rw [hiff.2 (by decide)]; decide⟩



/-! ## Decimal numerals -/

theorem toDigitsCore_append (fuel : Nat) :
    ∀ (n : Nat) (ds : List Char), n < fuel →
      Nat.toDigitsCore 10 fuel n ds = Nat.toDigitsCore 10 (n + 1) n [] ++ ds := by
  induction fuel using Nat.strong_induction_on with
  | _ fuel ih =>
    intro n ds hn
    cases fuel with
    | zero => omega
    | succ f =>
      rw [Nat.toDigitsCore, Nat.toDigitsCore]
      by_cases h0 : n / 10 = 0
      · rw [if_pos h0, if_pos h0]
        rfl
      · rw [if_neg h0, if_neg h0]
        have hlt : n / 10 < n := Nat.div_lt_self (by omega) (by decide)
        rw [ih f (by omega) (n / 10) _ (by omega)]
        rcases Nat.lt_or_ge 0 n with hpos | hz
        · rw [ih n (by omega) (n / 10) [Nat.digitChar (n % 10)] hlt]
          simp
        · omega

theorem toDigits_step (n : Nat) :
    Nat.toDigits 10 n =
      if n / 10 = 0 then [Nat.digitChar (n % 10)]
      else Nat.toDigits 10 (n / 10) ++ [Nat.digitChar (n % 10)] := by
  unfold Nat.toDigits
  rw [Nat.toDigitsCore]
  by_cases h0 : n / 10 = 0
  · rw [if_pos h0, if_pos h0]
  · rw [if_neg h0, if_neg h0]
    have hlt : n / 10 < n := Nat.div_lt_self (by omega) (by decide)
    exact toDigitsCore_append n (n / 10) _ hlt

theorem digitChar_toNat : ∀ d, d < 10 → (Nat.digitChar d).toNat = 48 + d := by
  decide

theorem natToString_step (n : Nat) :
    natToString n =
      if n < 10 then [48 + n] else natToString (n / 10) ++ [48 + n % 10] := by
  unfold natToString
  rw [toDigits_step]
  have hd : (Nat.digitChar (n % 10)).toNat = 48 + n % 10 :=
    digitChar_toNat _ (Nat.mod_lt _ (by decide))
  by_cases h : n < 10
  · have h0 : n / 10 = 0 := by omega
    have hm : n % 10 = n := by omega
    rw [if_pos h0, if_pos h, List.map_singleton, hd, hm]
  · have h0 : ¬ n / 10 = 0 := by omega
    rw [if_neg h0, if_neg h, List.map_append, List.map_singleton, hd]

theorem digitsValue_snoc (radix : Nat) (ds : JSString) (c : Nat) :
    digitsValue radix (ds ++ [c]) = digitsValue radix ds * radix + (digitValue c).getD 0 := by
  simp [digitsValue, List.foldl_append]

theorem digitValue_of_isDigit {c : Nat} (h : isDigit c = true) : digitValue c = some (c - 48) := by
  have h2 : 48 ≤ c ∧ c ≤ 57 := by simpa [isDigit] using h
  unfold digitValue
  rw [if_pos h2]

theorem dropWhile_zero_eq_nil_iff (ds : JSString) :
    ds.dropWhile (fun c => c == 48) = [] ↔ ∀ x ∈ ds, x = 48 := by
  simp [List.dropWhile_eq_nil_iff]

theorem digitsValue_eq_zero_iff (ds : JSString) (hd : ∀ x ∈ ds, isDigit x = true) :
    digitsValue 10 ds = 0 ↔ ∀ x ∈ ds, x = 48 := by
  induction ds using List.reverseRecOn with
  | nil => simp [digitsValue]
  | append_singleton ds c ih =>
    have hc : isDigit c = true := hd c (by simp)
    have hds : ∀ x ∈ ds, isDigit x = true := fun x hx => hd x (by simp [hx])
    have hc2 : 48 ≤ c ∧ c ≤ 57 := by simpa [isDigit] using hc
    rw [digitsValue_snoc, digitValue_of_isDigit hc, Option.getD_some]
    constructor
    · intro h
      have h1 : digitsValue 10 ds = 0 := by omega
      have h2 : c = 48 := by omega
      intro x hx
      rcases List.mem_append.mp hx with hx | hx
      · exact (ih hds).mp h1 x hx
      · simp only [List.mem_singleton] at hx
        rw [hx, h2]
    · intro h
      have h1 : digitsValue 10 ds = 0 := (ih hds).mpr (fun x hx => h x (by simp [hx]))
      have h2 : c = 48 := h c (by simp)
      omega

/-- Printing the value of a non-empty run of decimal digits gives the run
without its leading zeros. -/
theorem natToString_digitsValue (ds : JSString) (hne : ds ≠ [])
    (hd : ∀ x ∈ ds, isDigit x = true) :
    natToString (digitsValue 10 ds) = withoutLeadingZeros ds := by
  induction ds using List.reverseRecOn with
  | nil => exact absurd rfl hne
  | append_singleton ds c ih =>
    have hc : isDigit c = true := hd c (by simp)
    have hds : ∀ x ∈ ds, isDigit x = true := fun x hx => hd x (by simp [hx])
    have hc2 : 48 ≤ c ∧ c ≤ 57 := by simpa [isDigit] using hc
    rw [digitsValue_snoc, digitValue_of_isDigit hc, Option.getD_some, natToString_step]
    by_cases hz : digitsValue 10 ds = 0
    · have hall : ∀ x ∈ ds, x = 48 := (digitsValue_eq_zero_iff ds hds).mp hz
      have hdw : ds.dropWhile (fun c => c == 48) = [] := (dropWhile_zero_eq_nil_iff ds).mpr hall
      rw [hz, if_pos (by omega)]
      have e : 48 + (0 * 10 + (c - 48)) = c := by omega
      rw [e]
      unfold withoutLeadingZeros
      rw [List.dropWhile_append, hdw]
      simp only [List.isEmpty_nil, if_true]
      by_cases h48 : c = 48
      · subst h48
        simp [List.dropWhile]
      · have hb : (c == 48) = false := by simp [h48]
        simp [List.dropWhile, hb]
    · have hne2 : ds ≠ [] := by
        intro h
        apply hz
        rw [h]
        rfl
      have hdw : ds.dropWhile (fun c => c == 48) ≠ [] := by
        intro h
        exact hz ((digitsValue_eq_zero_iff ds hds).mpr ((dropWhile_zero_eq_nil_iff ds).mp h))
      rw [if_neg (by omega)]
      have e1 : (digitsValue 10 ds * 10 + (c - 48)) / 10 = digitsValue 10 ds := by omega
      have e2 : 48 + (digitsValue 10 ds * 10 + (c - 48)) % 10 = c := by omega
      rw [e1, e2, ih hne2 hds]
      unfold withoutLeadingZeros
      rw [if_neg hdw, List.dropWhile_append]
      have hemp : (List.dropWhile (fun c => c == 48) ds).isEmpty = false := by
        cases h : List.dropWhile (fun c => c == 48) ds with
        | nil => exact absurd h hdw
        | cons a l => rfl
      rw [hemp]
      simp only [Bool.false_eq_true, if_false]
      rw [if_neg (by simp [hdw])]

/-! ## The seat step -/

theorem isDigit_not_whiteSpace {c : Nat} (h : isDigit c = true) : isWhiteSpace c = false := by
  have h2 : 48 ≤ c ∧ c ≤ 57 := by simpa [isDigit] using h
  unfold isWhiteSpace
  simp
  omega

theorem stripSign_of_isDigit (c : Nat) (rest : JSString) (h : isDigit c = true) :
    stripSign (c :: rest) = (false, c :: rest) := by
  have h2 : 48 ≤ c ∧ c ≤ 57 := by simpa [isDigit] using h
  unfold stripSign
  split
  · rename_i heq
    simp only [List.cons.injEq] at heq
    omega
  · rename_i heq
    simp only [List.cons.injEq] at heq
    omega
  · rfl

/-- Radix-10 `parseInt` of a non-empty run of decimal digits is its value. -/
theorem parseInt_digits (ds : JSString) (hne : ds ≠ []) (hd : ∀ x ∈ ds, isDigit x = true) :
    parseInt ds 10 = some (digitsValue 10 ds : Int) := by
  cases ds with
  | nil => exact absurd rfl hne
  | cons c rest =>
    have hc : isDigit c = true := hd c (by simp)
    have hws : (c :: rest).dropWhile isWhiteSpace = c :: rest := by
      simp [List.dropWhile, isDigit_not_whiteSpace hc]
    have htw : (c :: rest).takeWhile (isRadixDigit 10) = c :: rest := by
      rw [List.takeWhile_eq_self_iff]
      intro x hx
      rw [isRadixDigit_ten]
      exact hd x hx
    unfold parseInt
    rw [hws, stripSign_of_isDigit c rest hc]
    dsimp only
    rw [stripHexPrefix_ten, htw]
    simp

theorem renderSeat_snoc (ds : JSString) (l : Nat) (hne : ds ≠ [])
    (hd : ∀ x ∈ ds, isDigit x = true) :
    renderSeat (ds ++ [l]) = withoutLeadingZeros ds ++ [l] := by
  unfold renderSeat
  rw [List.dropLast_concat, parseInt_digits ds hne hd]
  have h1 : numberToString (some (digitsValue 10 ds : Int)) = natToString (digitsValue 10 ds) := rfl
  rw [h1, natToString_digitsValue ds hne hd]
  simp

theorem matchesDigitsLetter_iff (s : JSString) :
    matchesDigitsLetter s = true ↔
      ∃ ds l, s = ds ++ [l] ∧ ds ≠ [] ∧ (∀ x ∈ ds, isDigit x = true) ∧ isLetter l = true := by
  induction s using List.reverseRecOn with
  | nil => simp [matchesDigitsLetter]
  | append_singleton ds l _ =>
    unfold matchesDigitsLetter
    rw [List.reverse_append]
    cases hr : ds.reverse with
    | nil =>
      have hds : ds = [] := by simpa using hr
      subst hds
      have hm : (match [l] ++ ([] : List Nat) with
          | l :: d :: ds => isLetter l && (d :: ds).all isDigit
          | _ => false) = false := rfl
      rw [List.reverse_cons, List.reverse_nil, List.nil_append, hm]
      simp only [List.nil_append, Bool.false_eq_true, false_iff]
      rintro ⟨ds2, l2, heq, hne2, _, _⟩
      have hlen := congrArg List.length heq
      simp only [List.length_cons, List.length_nil, List.length_append] at hlen
      have : ds2.length = 0 := by omega
      exact hne2 (List.length_eq_zero.mp this)
    | cons d rest =>
      have hds : ds ≠ [] := by
        intro h
        rw [h] at hr
        simp at hr
      have hall : (d :: rest).all isDigit = true ↔ ∀ x ∈ ds, isDigit x = true := by
        rw [← hr]
        simp
      simp only [List.reverse_cons, List.reverse_nil, List.nil_append, List.singleton_append,
        Bool.and_eq_true]
      constructor
      · rintro ⟨hl, ha⟩
        exact ⟨ds, l, rfl, hds, hall.mp ha, hl⟩
      · rintro ⟨ds2, l2, heq, _, hd2, hl2⟩
        obtain ⟨h1, h2⟩ := List.append_inj' heq rfl
        simp only [List.cons.injEq, and_true] at h2
        subst h1 h2
        exact ⟨hl2, hall.mpr hd2⟩

theorem matchesLetterDigitsLetter_iff (s : JSString) :
    matchesLetterDigitsLetter s = true ↔
      ∃ a ds l, s = a :: (ds ++ [l]) ∧ isLetter a = true ∧ ds ≠ [] ∧
        (∀ x ∈ ds, isDigit x = true) ∧ isLetter l = true := by
  cases s with
  | nil => simp [matchesLetterDigitsLetter]
  | cons a rest =>
    unfold matchesLetterDigitsLetter
    rw [Bool.and_eq_true, matchesDigitsLetter_iff]
    constructor
    · rintro ⟨ha, ds, l, heq, hne, hd, hl⟩
      exact ⟨a, ds, l, by rw [heq], ha, hne, hd, hl⟩
    · rintro ⟨a2, ds, l, heq, ha, hne, hd, hl⟩
      simp only [List.cons.injEq] at heq
      obtain ⟨h1, h2⟩ := heq
      subst h1
      exact ⟨ha, ds, l, h2, hne, hd, hl⟩

theorem matchesZeros_iff (s : JSString) :
    matchesZeros s = true ↔ s ≠ [] ∧ ∀ x ∈ s, x = 48 := by
  cases s with
  | nil => simp [matchesZeros]
  | cons a rest => simp [matchesZeros]

theorem isDigit_not_isLetter {c : Nat} (h : isDigit c = true) : isLetter c = false := by
  have h2 : 48 ≤ c ∧ c ≤ 57 := by simpa [isDigit] using h
  unfold isLetter
  simp
  omega

theorem not_matchesLetterDigitsLetter_of_digit_head (c : Nat) (rest : JSString)
    (h : isDigit c = true) : matchesLetterDigitsLetter (c :: rest) = false := by
  show (isLetter c && matchesDigitsLetter rest) = false
  rw [isDigit_not_isLetter h, Bool.false_and]

theorem formatSeat_letterDigitsLetter (a : Nat) (ds : JSString) (l : Nat)
    (ha : isLetter a = true) (hne : ds ≠ []) (hd : ∀ x ∈ ds, isDigit x = true)
    (hl : isLetter l = true) :
    formatSeat (a :: (ds ++ [l])) = withoutLeadingZeros ds ++ [l] := by
  have hm : matchesLetterDigitsLetter (a :: (ds ++ [l])) = true :=
    (matchesLetterDigitsLetter_iff _).mpr ⟨a, ds, l, rfl, ha, hne, hd, hl⟩
  unfold formatSeat
  rw [if_neg (by simp), if_pos hm, List.drop_succ_cons, List.drop_zero,
    renderSeat_snoc ds l hne hd]

theorem formatSeat_digitsLetter (ds : JSString) (l : Nat) (hne : ds ≠ [])
    (hd : ∀ x ∈ ds, isDigit x = true) (hl : isLetter l = true) :
    formatSeat (ds ++ [l]) = withoutLeadingZeros ds ++ [l] := by
  have hm : matchesDigitsLetter (ds ++ [l]) = true :=
    (matchesDigitsLetter_iff _).mpr ⟨ds, l, rfl, hne, hd, hl⟩
  have hn : matchesLetterDigitsLetter (ds ++ [l]) = false := by
    cases ds with
    | nil => exact absurd rfl hne
    | cons c rest =>
      exact not_matchesLetterDigitsLetter_of_digit_head c (rest ++ [l]) (hd c (by simp))
  unfold formatSeat
  rw [if_neg (by simp), hn, hm]
  simp only [Bool.false_eq_true, if_false, if_true]
  exact renderSeat_snoc ds l hne hd

theorem formatSeat_zeros (s : JSString) (hne : s ≠ []) (hz : ∀ x ∈ s, x = 48) :
    formatSeat s = js "Unassigned" := by
  have hdig : ∀ x ∈ s, isDigit x = true := by
    intro x hx
    rw [hz x hx]
    rfl
  have h1 : matchesLetterDigitsLetter s = false := by
    cases s with
    | nil => exact absurd rfl hne
    | cons c rest => exact not_matchesLetterDigitsLetter_of_digit_head c rest (hdig c (by simp))
  have h2 : matchesDigitsLetter s = false := by
    cases hm : matchesDigitsLetter s with
    | false => rfl
    | true =>
      exfalso
      obtain ⟨ds, l, heq, _, _, hl⟩ := (matchesDigitsLetter_iff s).mp hm
      have hl2 : isDigit l = true := hdig l (by rw [heq]; simp)
      rw [isDigit_not_isLetter hl2] at hl
      exact Bool.noConfusion hl
  have h3 : matchesZeros s = true := (matchesZeros_iff s).mpr ⟨hne, hz⟩
  unfold formatSeat
  rw [if_neg hne, h1, h2, h3]
  simp only [Bool.false_eq_true, if_false, if_true]

theorem formatSeat_other (s : JSString)
    (h1 : ¬ ∃ a ds l, s = a :: (ds ++ [l]) ∧ isLetter a = true ∧ ds ≠ [] ∧
      (∀ x ∈ ds, isDigit x = true) ∧ isLetter l = true)
    (h2 : ¬ ∃ ds l, s = ds ++ [l] ∧ ds ≠ [] ∧ (∀ x ∈ ds, isDigit x = true) ∧ isLetter l = true)
    (h3 : ¬ (s ≠ [] ∧ ∀ x ∈ s, x = 48)) :
    formatSeat s = s := by
  have e1 : matchesLetterDigitsLetter s = false := by
    cases hm : matchesLetterDigitsLetter s with
    | false => rfl
    | true => exact absurd ((matchesLetterDigitsLetter_iff s).mp hm) h1
  have e2 : matchesDigitsLetter s = false := by
    cases hm : matchesDigitsLetter s with
    | false => rfl
    | true => exact absurd ((matchesDigitsLetter_iff s).mp hm) h2
  have e3 : matchesZeros s = false := by
    cases hm : matchesZeros s with
    | false => rfl
    | true => exact absurd ((matchesZeros_iff s).mp hm) h3
  unfold formatSeat
  rw [e1, e2, e3]
  simp only [Bool.false_eq_true, if_false]
  split_ifs with h
  · rfl
  · rfl

/-! ## Independence of `structuredDataSize` -/

theorem slice_take (t : JSString) (a b n : Nat) (hb : b ≤ n) :
    slice (t.take n) a b = slice t a b := by
  unfold slice
  rw [List.take_take, Nat.min_eq_left hb]

theorem slice_congr_take {t t2 : JSString} (n : Nat) (h : t2.take n = t.take n) (a b : Nat)
    (hb : b ≤ n) : slice t2 a b = slice t a b := by
  rw [← slice_take t2 a b n hb, h, slice_take t a b n hb]

theorem charAt_congr_take {t t2 : JSString} (n : Nat) (h : t2.take n = t.take n) (i : Nat)
    (hi : i + 1 ≤ n) : charAt t2 i = charAt t i := by
  rw [charAt_eq_slice, charAt_eq_slice, slice_congr_take n h i (i + 1) hi]

theorem charAt_congr_drop {t t2 : JSString} (n : Nat) (h : t2.drop n = t.drop n) (i : Nat) :
    charAt t2 (n + i) = charAt t (n + i) := by
  unfold charAt
  rw [← List.drop_drop, ← List.drop_drop, h]

theorem substring_congr_take {t t2 : JSString} (n : Nat) (h : t2.take n = t.take n)
    (hlen : n ≤ t.length) (hlen2 : n ≤ t2.length) (a b : Nat) (ia ib : Int) (ha : ia = (a : Int))
    (hb : ib = (b : Int)) (hab : a ≤ b) (hbn : b ≤ n) :
    substring t2 ia ib = substring t ia ib := by
  rw [substring_lit t2 a b ia ib ha hb hab (by omega), substring_lit t a b ia ib ha hb hab (by omega),
    slice_congr_take n h a b hbn]

/-- Two trimmed strings of at least 60 units that agree outside `[58,60)` give
records that agree in every field but `structuredDataSize`. -/
theorem decodedRecord_congr (zone : TimeZone) (currentYear : Int) (t t2 : JSString) (fields : List OptionalField)
    (h60 : 60 ≤ t.length) (h60b : 60 ≤ t2.length) (htake : t2.take 58 = t.take 58)
    (hdrop : t2.drop 60 = t.drop 60) :
    decodedRecord zone currentYear t2 fields =
      { decodedRecord zone currentYear t fields with structuredDataSize := substring t2 58 60 } := by
  have hlen : t2.length = t.length := by
    have h1 := congrArg List.length hdrop
    rw [List.length_drop, List.length_drop] at h1
    omega
  have c0 := charAt_congr_take 58 htake 0 (by omega)
  have c1 := charAt_congr_take 58 htake 1 (by omega)
  have c22 := charAt_congr_take 58 htake 22 (by omega)
  have c47 := charAt_congr_take 58 htake 47 (by omega)
  have c57 := charAt_congr_take 58 htake 57 (by omega)
  have c60 : charAt t2 60 = charAt t 60 := charAt_congr_drop 60 hdrop 0
  have c61 : charAt t2 61 = charAt t 61 := charAt_congr_drop 60 hdrop 1
  have s1 := substring_congr_take 58 htake (by omega) (by omega) 2 22 2 22 rfl rfl (by omega)
    (by omega)
  have s2 := substring_congr_take 58 htake (by omega) (by omega) 23 30 23 30 rfl rfl (by omega)
    (by omega)
  have s3 := substring_congr_take 58 htake (by omega) (by omega) 30 33 30 33 rfl rfl (by omega)
    (by omega)
  have s4 := substring_congr_take 58 htake (by omega) (by omega) 33 36 33 36 rfl rfl (by omega)
    (by omega)
  have s5 := substring_congr_take 58 htake (by omega) (by omega) 36 39 36 39 rfl rfl (by omega)
    (by omega)
  have s6 := substring_congr_take 58 htake (by omega) (by omega) 39 44 39 44 rfl rfl (by omega)
    (by omega)
  have s7 := substring_congr_take 58 htake (by omega) (by omega) 44 47 44 47 rfl rfl (by omega)
    (by omega)
  have s8 := substring_congr_take 58 htake (by omega) (by omega) 48 52 48 52 rfl rfl (by omega)
    (by omega)
  have s9 := substring_congr_take 58 htake (by omega) (by omega) 52 57 52 57 rfl rfl (by omega)
    (by omega)
  unfold decodedRecord
  dsimp only
  rw [c0, c1, c22, c47, c57, c60, c61, s1, s2, s3, s4, s5, s6, s7, s8, s9, hlen]

/-! ## Claims, continued -/

/-- C11: the seat step, for every seat string `s` of at most 5 characters.  If
`s` is one ASCII letter, one or more decimal digits and one ASCII letter, or
one or more digits followed by one letter, the result is the digit run written
without leading zeros followed by the final letter; if `s` consists of one or
more `0` only, the result is `Unassigned`; every other `s`, the empty string
included, is returned unchanged.  So `C008F` and `008F` give `8F`, `12C` gives
`12C` and `00000` gives `Unassigned`. -/
theorem C11_seat_normalization (s : JSString) (_hlen : s.length ≤ 5) :
    (∀ a ds l, s = a :: (ds ++ [l]) → isLetter a = true → ds ≠ [] →
        (∀ x ∈ ds, isDigit x = true) → isLetter l = true →
        formatSeat s = withoutLeadingZeros ds ++ [l]) ∧
      (∀ ds l, s = ds ++ [l] → ds ≠ [] → (∀ x ∈ ds, isDigit x = true) → isLetter l = true →
        formatSeat s = withoutLeadingZeros ds ++ [l]) ∧
      (s ≠ [] → (∀ x ∈ s, x = 48) → formatSeat s = js "Unassigned") ∧
      ((¬ ∃ a ds l, s = a :: (ds ++ [l]) ∧ isLetter a = true ∧ ds ≠ [] ∧
            (∀ x ∈ ds, isDigit x = true) ∧ isLetter l = true) →
        (¬ ∃ ds l, s = ds ++ [l] ∧ ds ≠ [] ∧ (∀ x ∈ ds, isDigit x = true) ∧
            isLetter l = true) →
        ¬ (s ≠ [] ∧ ∀ x ∈ s, x = 48) → formatSeat s = s) ∧
      formatSeat (js "C008F") = js "8F" ∧ formatSeat (js "008F") = js "8F" ∧
      formatSeat (js "12C") = js "12C" ∧ formatSeat (js "00000") = js "Unassigned" ∧
      formatSeat (js "") = js "" := by
  refine ⟨?_, ?_, ?_, ?_, by decide, by decide, by decide, by decide, by decide⟩
  · intro a ds l hs ha hne hd hl
    rw [hs]
    exact formatSeat_letterDigitsLetter a ds l ha hne hd hl
  · intro ds l hs hne hd hl
    rw [hs]
    exact formatSeat_digitsLetter ds l hne hd hl
  · intro hne hz
    exact formatSeat_zeros s hne hz
  · intro h1 h2 h3
    exact formatSeat_other s h1 h2 h3

theorem C11_seat_normalization_witness :
    formatSeat (js "A012F") = js "12F" ∧ formatSeat (js "7b") = js "7b" ∧
      formatSeat (js "000") = js "Unassigned" ∧
      parseBCBP utc 2024 0 (js "M1DOE/JANE            EABC123 JFKLAXUA 1234 410Y012C0001 100") =
        Outcome.returned (decodedRecord utc 2024
          (js "M1DOE/JANE            EABC123 JFKLAXUA 1234 410Y012C0001 100") []) ∧
      (decodedRecord utc 2024
        (js "M1DOE/JANE            EABC123 JFKLAXUA 1234 410Y012C0001 100") []).seat = js "12C" :=
  ⟨((C11_seat_normalization (js "A012F") (by decide)).1 65 (js "012") 70 (by decide) (by decide)
      (by decide) (by decide) (by decide)).trans (by decide),
    ((C11_seat_normalization (js "7b") (by decide)).2.1 (js "7") 98 (by decide) (by decide)
      (by decide) (by decide)).trans (by decide),
    (C11_seat_normalization (js "000") (by decide)).2.2.1 (by decide) (by decide),
    by decide, by decide⟩

/-- C12: for every decodable input, the record's `checkedIn` is true if and
only if its `passengerStatus`, the character at offset 57 of the trimmed
string, is `1` or `2`.  A record is returned unless the optional-field loop is
still running when the fuel is used up, which takes fuel below half the length
of `t` or a `-` in the tail `t[62..]`. -/
theorem C12_checkedIn_iff_status (zone : TimeZone) (currentYear : Int) (fuel : Nat) (raw : JSString)
    (h60 : 60 ≤ (trim raw).length) (hM : (trim raw).head? = some 77) :
    (parseBCBP zone currentYear fuel raw = Outcome.unfinished ∧ 62 < (trim raw).length ∧
        parseOptionalFields fuel ((trim raw).drop 62) = none ∧
        (2 * fuel < (trim raw).length ∨ 45 ∈ (trim raw).drop 62)) ∨
      ∃ r, parseBCBP zone currentYear fuel raw = Outcome.returned r ∧
        r.passengerStatus = slice (trim raw) 57 58 ∧
        (r.checkedIn = true ↔ (r.passengerStatus = js "1" ∨ r.passengerStatus = js "2")) := by
  rcases parseBCBP_outcome zone currentYear fuel raw h60 hM with h | ⟨fields, hr, _⟩
  · exact Or.inl h
  · refine Or.inr ⟨_, hr, charAt_eq_slice _ _, ?_⟩
    unfold decodedRecord
    dsimp only
    exact decide_eq_true_iff

theorem C12_checkedIn_iff_status_witness :
    ∃ r, parseBCBP utc 2024 0 (js "M1DOE/JANE            EABC123 JFKLAXUA 1234 410Y012C0001 200") =
        Outcome.returned r ∧ r.checkedIn = true := by
  rcases C12_checkedIn_iff_status utc 2024 0
      (js "M1DOE/JANE            EABC123 JFKLAXUA 1234 410Y012C0001 200")
      (by decide) (by decide) with h | ⟨r, hr, hs, hiff⟩
  · exact absurd h.2.1 (by decide)
  · exact ⟨r, hr, hiff.2 (Or.inr (by rw [hs]; decide))⟩

/-- C13 (counterexample): the input below has trimmed length 61 and is
decoded; `versionNumber` is present in the record and is the empty string, not
a single character. -/
theorem C13_versionNumber_empty_at_length_61 :
    ∃ r, parseBCBP utc 2024 0 (js "M1DOE/JANE            EABC123 JFKLAXUA 1234 410Y012C0001 100>") =
        Outcome.returned r ∧
      (trim (js "M1DOE/JANE            EABC123 JFKLAXUA 1234 410Y012C0001 100>")).length = 61 ∧
      r.versionIndicator = some (js ">") ∧ r.versionNumber = some (js "") ∧
      ¬ ∃ c, r.versionNumber = some [c] := by
  refine ⟨decodedRecord utc 2024
    (js "M1DOE/JANE            EABC123 JFKLAXUA 1234 410Y012C0001 100>") [], by decide, by decide,
    by decide, by decide, ?_⟩
  rintro ⟨c, hc⟩
  have h0 : (decodedRecord utc 2024
      (js "M1DOE/JANE            EABC123 JFKLAXUA 1234 410Y012C0001 100>") []).versionNumber =
      some [] := by decide
  rw [h0] at hc
  simp at hc

/-- C13 (amended): for every decodable input with trimmed form `t`,
`versionIndicator` and `versionNumber` are present in the record exactly when
`length(t) > 60`; `versionIndicator` is then the single character `t[60]`, and
when `length(t) > 61` `versionNumber` is the single character `t[61]`.  A record
is returned unless the optional-field loop is still running when the fuel is
used up, which takes fuel below half the length of `t` or a `-` in the tail
`t[62..]`. -/
theorem C13_version_fields (zone : TimeZone) (currentYear : Int) (fuel : Nat) (raw : JSString)
    (h60 : 60 ≤ (trim raw).length) (hM : (trim raw).head? = some 77) :
    (parseBCBP zone currentYear fuel raw = Outcome.unfinished ∧ 62 < (trim raw).length ∧
        parseOptionalFields fuel ((trim raw).drop 62) = none ∧
        (2 * fuel < (trim raw).length ∨ 45 ∈ (trim raw).drop 62)) ∨
      ∃ r, parseBCBP zone currentYear fuel raw = Outcome.returned r ∧
        (r.versionIndicator.isSome = true ↔ 60 < (trim raw).length) ∧
        (r.versionNumber.isSome = true ↔ 60 < (trim raw).length) ∧
        (60 < (trim raw).length →
          r.versionIndicator = some (slice (trim raw) 60 61) ∧
            (slice (trim raw) 60 61).length = 1) ∧
        (61 < (trim raw).length →
          r.versionNumber = some (slice (trim raw) 61 62) ∧
            (slice (trim raw) 61 62).length = 1) := by
  rcases parseBCBP_outcome zone currentYear fuel raw h60 hM with h | ⟨fields, hr, _⟩
  · exact Or.inl h
  · refine Or.inr ⟨_, hr, ?_⟩
    unfold decodedRecord
    dsimp only
    by_cases hlen : (trim raw).length > 60
    · rw [if_pos hlen, if_pos hlen]
      refine ⟨by simp [hlen], by simp [hlen], ?_, ?_⟩
      · intro _
        exact ⟨by rw [charAt_eq_slice], slice_length _ 60 61 (by omega) (by omega)⟩
      · intro h61
        exact ⟨by rw [charAt_eq_slice], slice_length _ 61 62 (by omega) (by omega)⟩
    · rw [if_neg hlen, if_neg hlen]
      refine ⟨by simp [hlen], by simp [hlen], ?_, ?_⟩
      · intro h
        exact absurd h hlen
      · intro h
        omega

theorem C13_version_fields_witness :
    ∃ r, parseBCBP utc 2024 0 (js "M1DOE/JANE            EABC123 JFKLAXUA 1234 410Y012C0001 100>6") =
        Outcome.returned r ∧ r.versionIndicator = some (js ">") ∧ r.versionNumber = some (js "6") := by
  rcases C13_version_fields utc 2024 0
      (js "M1DOE/JANE            EABC123 JFKLAXUA 1234 410Y012C0001 100>6")
      (by decide) (by decide) with h | ⟨r, hr, _, _, hi, hn⟩
  · exact absurd h.2.1 (by decide)
  · exact ⟨r, hr, by rw [(hi (by decide)).1]; decide, by rw [(hn (by decide)).1]; decide⟩


/-- C14: for every decodable input with trimmed form `t`, `optionalFields` is
present exactly when `length(t) > 62`, and then is what `parseOptionalFields`
returns on all of `t` from offset 62 to the end; and for a second input whose
trimmed form differs from `t` only in `t[58,60)`, either both calls are still
in the optional-field loop when the fuel is used up, or both return records,
which differ only in `structuredDataSize`.  A record is returned unless the
optional-field loop is still running when the fuel is used up, which takes
fuel below half the length of `t` or a `-` in the tail `t[62..]`. -/
theorem C14_optional_fields (zone : TimeZone) (currentYear : Int) (fuel : Nat) (raw : JSString)
    (h60 : 60 ≤ (trim raw).length) (hM : (trim raw).head? = some 77) :
    ((parseBCBP zone currentYear fuel raw = Outcome.unfinished ∧ 62 < (trim raw).length ∧
        parseOptionalFields fuel ((trim raw).drop 62) = none ∧
        (2 * fuel < (trim raw).length ∨ 45 ∈ (trim raw).drop 62)) ∨
      ∃ r, parseBCBP zone currentYear fuel raw = Outcome.returned r ∧
        (r.optionalFields.isSome = true ↔ 62 < (trim raw).length) ∧
        (62 < (trim raw).length →
          r.optionalFields = parseOptionalFields fuel ((trim raw).drop 62))) ∧
      ∀ raw2, 60 ≤ (trim raw2).length → (trim raw2).take 58 = (trim raw).take 58 →
        (trim raw2).drop 60 = (trim raw).drop 60 →
        (parseBCBP zone currentYear fuel raw = Outcome.unfinished ∧
            parseBCBP zone currentYear fuel raw2 = Outcome.unfinished) ∨
          ∃ r r2, parseBCBP zone currentYear fuel raw = Outcome.returned r ∧
            parseBCBP zone currentYear fuel raw2 = Outcome.returned r2 ∧
            r2 = { r with structuredDataSize := r2.structuredDataSize } := by
  constructor
  · rcases parseBCBP_outcome zone currentYear fuel raw h60 hM with h | ⟨fields, hr, hf⟩
    · exact Or.inl h
    · refine Or.inr ⟨_, hr, ?_⟩
      unfold decodedRecord
      dsimp only
      by_cases hlen : (trim raw).length > 62
      · rw [if_pos hlen]
        refine ⟨by simp [hlen], fun _ => ?_⟩
        rcases hf with hf | hf
        · omega
        · rw [hf]
      · rw [if_neg hlen]
        refine ⟨by simp [hlen], fun h => absurd h hlen⟩
  · intro raw2 h60b htake hdrop
    have hM2 : (trim raw2).head? = some 77 := by
      have h1 : ((trim raw2).take 58).head? = ((trim raw).take 58).head? := by rw [htake]
      rw [List.head?_take, List.head?_take] at h1
      simpa [hM] using h1
    have hlen : (trim raw2).length = (trim raw).length := by
      have h1 := congrArg List.length hdrop
      rw [List.length_drop, List.length_drop] at h1
      omega
    have htail : substringFrom (trim raw2) 62 = substringFrom (trim raw) 62 := by
      have e1 : substringFrom (trim raw2) 62 = (trim raw2).drop 62 :=
        substringFrom_eq_drop (trim raw2) 62
      have e2 : substringFrom (trim raw) 62 = (trim raw).drop 62 :=
        substringFrom_eq_drop (trim raw) 62
      have e3 : (trim raw2).drop 62 = (trim raw).drop 62 := by
        have : (62 : Nat) = 60 + 2 := rfl
        rw [this, ← List.drop_drop, ← List.drop_drop, hdrop]
      rw [e1, e2, e3]
    rw [parseBCBP_decodable zone currentYear fuel raw h60 hM,
      parseBCBP_decodable zone currentYear fuel raw2 h60b hM2, htail, hlen]
    by_cases h62 : (trim raw).length > 62
    · rw [if_pos h62, if_pos h62]
      cases parseOptionalFields fuel (substringFrom (trim raw) 62) with
      | none => exact Or.inl ⟨rfl, rfl⟩
      | some fields =>
        exact Or.inr ⟨_, _, rfl, rfl,
          decodedRecord_congr zone currentYear (trim raw) (trim raw2) fields h60 h60b htake hdrop⟩
    · rw [if_neg h62, if_neg h62]
      exact Or.inr ⟨_, _, rfl, rfl,
        decodedRecord_congr zone currentYear (trim raw) (trim raw2) [] h60 h60b htake hdrop⟩

theorem C14_optional_fields_witness :
    ∃ r r2,
      parseBCBP utc 2024 3 (js "M1DOE/JANE            EABC123 JFKLAXUA 1234 410Y012C0001 100>602AB") =
        Outcome.returned r ∧
      parseBCBP utc 2024 3 (js "M1DOE/JANE            EABC123 JFKLAXUA 1234 410Y012C0001 1FF>602AB") =
        Outcome.returned r2 ∧
      r2 = { r with structuredDataSize := js "FF" } ∧
      r.optionalFields = some [{ data := js "AB", description := js "Additional Data" }] := by
  rcases (C14_optional_fields utc 2024 3
      (js "M1DOE/JANE            EABC123 JFKLAXUA 1234 410Y012C0001 100>602AB")
      (by decide) (by decide)).2
      (js "M1DOE/JANE            EABC123 JFKLAXUA 1234 410Y012C0001 1FF>602AB")
      (by decide) (by decide) (by decide) with h | ⟨r, r2, hr, hr2, he⟩
  · exact absurd h.1 (by decide)
  · have h2 : r2.structuredDataSize = js "FF" := by
      have := hr2
      rw [show parseBCBP utc 2024 3
        (js "M1DOE/JANE            EABC123 JFKLAXUA 1234 410Y012C0001 1FF>602AB") =
        Outcome.returned (decodedRecord utc 2024
          (js "M1DOE/JANE            EABC123 JFKLAXUA 1234 410Y012C0001 1FF>602AB")
          [{ data := js "AB", description := js "Additional Data" }]) from by decide] at this
      injection this with this
      rw [← this]
      decide
    have h3 : r.optionalFields = some [{ data := js "AB", description := js "Additional Data" }] := by
      have := hr
      rw [show parseBCBP utc 2024 3
        (js "M1DOE/JANE            EABC123 JFKLAXUA 1234 410Y012C0001 100>602AB") =
        Outcome.returned (decodedRecord utc 2024
          (js "M1DOE/JANE            EABC123 JFKLAXUA 1234 410Y012C0001 100>602AB")
          [{ data := js "AB", description := js "Additional Data" }]) from by decide] at this
      injection this with this
      rw [← this]
      decide
    refine ⟨r, r2, hr, hr2, ?_, h3⟩
    rw [← h2]
    exact he


/-! ## The optional-field loop: stopping and framing -/

theorem parseOptionalFieldsLoop_of_NaN (tail : JSString) (fuel : Nat) (pos : Int)
    (fields : List OptionalField) (h : parseInt (substring tail pos (pos + 2)) 16 = none) :
    parseOptionalFieldsLoop tail (fuel + 1) pos fields = some fields := by
  rw [parseOptionalFieldsLoop]
  split_ifs with h1 h2
  · rfl
  · dsimp only
    rw [h]
  · rfl

theorem parseOptionalFieldsLoop_of_short (tail : JSString) (fuel : Nat) (pos size : Int)
    (fields : List OptionalField) (h : parseInt (substring tail pos (pos + 2)) 16 = some size)
    (hs : pos + 2 + size > (tail.length : Int)) :
    parseOptionalFieldsLoop tail (fuel + 1) pos fields = some fields := by
  rw [parseOptionalFieldsLoop]
  split_ifs with h1 h2
  · rfl
  · dsimp only
    rw [h]
    dsimp only
    rw [if_pos hs]
  · rfl

theorem isRadixDigit_sixteen (c : Nat) : isRadixDigit 16 c = isHexDigit c := by
  unfold isRadixDigit digitValue isHexDigit
  split_ifs with h1 h2 h3
  · have e1 : decide (48 ≤ c) = true := by simp [h1.1]
    have e2 : decide (c ≤ 57) = true := by simp [h1.2]
    have e3 : decide (c - 48 < 16) = true := by
      have : c - 48 < 16 := by omega
      simp [this]
    rw [e1, e2]
    exact e3
  · have e3 : decide (c - 97 + 10 < 16) = decide (c ≤ 102) := by
      apply decide_eq_decide.mpr
      omega
    have e1 : decide (c ≤ 57) = false := by
      have : ¬ c ≤ 57 := by omega
      simp [this]
    have e2 : decide (97 ≤ c) = true := by simp [h2.1]
    have e4 : decide (c ≤ 70) = false := by
      have : ¬ c ≤ 70 := by omega
      simp [this]
    rw [e1, e2, e4]
    simpa using e3
  · have e3 : decide (c - 65 + 10 < 16) = decide (c ≤ 70) := by
      apply decide_eq_decide.mpr
      omega
    have e1 : decide (c ≤ 57) = false := by
      have : ¬ c ≤ 57 := by omega
      simp [this]
    have e2 : decide (65 ≤ c) = true := by simp [h3.1]
    have e4 : decide (97 ≤ c) = false := by
      have : ¬ 97 ≤ c := by omega
      simp [this]
    rw [e1, e2, e4]
    simpa using e3
  · have e1 : (decide (48 ≤ c) && decide (c ≤ 57)) = false := by simpa using h1
    have e2 : (decide (97 ≤ c) && decide (c ≤ 102)) = false := by
      have : ¬ (97 ≤ c ∧ c ≤ 102) := by omega
      simpa using this
    have e3 : (decide (65 ≤ c) && decide (c ≤ 70)) = false := by
      have : ¬ (65 ≤ c ∧ c ≤ 70) := by omega
      simpa using this
    rw [e1, e2, e3]
    rfl

/-- Radix-16 `parseInt` gives `NaN` exactly when, after leading white space,
one optional sign and an optional `0x` or `0X`, the string does not continue
with a hexadecimal digit. -/
theorem parseInt_sixteen_eq_none_iff (s : JSString) :
    parseInt s 16 = none ↔
      ∀ c, (stripHexPrefix 16 (stripSign (s.dropWhile isWhiteSpace)).2).head? = some c →
        isHexDigit c = false := by
  unfold parseInt
  rcases hp : stripSign (s.dropWhile isWhiteSpace) with ⟨neg, s1⟩
  dsimp only
  have hfun : isRadixDigit 16 = isHexDigit := funext isRadixDigit_sixteen
  rw [hfun, ← takeWhile_eq_nil_iff_head]
  split_ifs with h1 h2
  · simp [h1]
  · simp [h1]
  · simp [h1]

/-- The entry pushed at cursor `p` for a size `n` that fits is framed. -/
theorem framedIn_pushed (tail : JSString) (p n : Nat) (hfit : p + 2 + n ≤ tail.length)
    (hp : parseInt (substring tail (p : Int) ((p : Int) + 2)) 16 = some (n : Int)) :
    FramedIn tail
      { data := substring tail ((p : Int) + 2) ((p : Int) + 2 + (n : Int)),
        description := identifyField (substring tail ((p : Int) + 2) ((p : Int) + 2 + (n : Int))) } := by
  have hd : substring tail ((p : Int) + 2) ((p : Int) + 2 + (n : Int)) =
      slice tail (p + 2) (p + 2 + n) :=
    substring_lit tail (p + 2) (p + 2 + n) _ _ (by push_cast; rfl) (by push_cast; rfl)
      (by omega) hfit
  have hsizeHex : substring tail (p : Int) ((p : Int) + 2) = slice tail p (p + 2) :=
    substring_lit tail p (p + 2) _ _ rfl (by push_cast; rfl) (by omega) (by omega)
  have hlen : (slice tail (p + 2) (p + 2 + n)).length = n := by
    rw [slice_length tail (p + 2) (p + 2 + n) (by omega) hfit]
    omega
  unfold FramedIn
  dsimp only
  rw [hd, hlen]
  rw [hsizeHex] at hp
  exact ⟨p, hfit, hp, rfl⟩

/-- On a tail without `-`, every entry the loop adds is framed. -/
theorem parseOptionalFieldsLoop_framed (tail : JSString) (hs : 45 ∉ tail) :
    ∀ (fuel : Nat) (pos : Int) (fields result : List OptionalField), 0 ≤ pos →
      (∀ e ∈ fields, FramedIn tail e) →
      parseOptionalFieldsLoop tail fuel pos fields = some result →
      ∀ e ∈ result, FramedIn tail e := by
  intro fuel
  induction fuel with
  | zero =>
    intro pos fields result _ _ h
    rw [parseOptionalFieldsLoop] at h
    exact Option.noConfusion h
  | succ n ih =>
    intro pos fields result h0 hf h
    rw [parseOptionalFieldsLoop] at h
    by_cases h1 : pos < (tail.length : Int)
    · rw [if_pos h1] at h
      by_cases h2 : pos + 2 > (tail.length : Int)
      · rw [if_pos h2] at h
        simp only [Option.some.injEq] at h
        rw [← h]
        exact hf
      · rw [if_neg h2] at h
        dsimp only at h
        cases hp : parseInt (substring tail pos (pos + 2)) 16 with
        | none =>
          rw [hp] at h
          simp only [Option.some.injEq] at h
          rw [← h]
          exact hf
        | some size =>
          rw [hp] at h
          dsimp only at h
          have hsz : 0 ≤ size := parseInt_nonneg hp (fun hm => hs (mem_of_mem_substring hm))
          by_cases h3 : pos + 2 + size > (tail.length : Int)
          · rw [if_pos h3] at h
            simp only [Option.some.injEq] at h
            rw [← h]
            exact hf
          · rw [if_neg h3] at h
            obtain ⟨p, rfl⟩ := Int.eq_ofNat_of_zero_le h0
            obtain ⟨k, rfl⟩ := Int.eq_ofNat_of_zero_le hsz
            refine ih _ _ result (by omega) ?_ h
            intro e he
            rcases List.mem_append.mp he with he | he
            · exact hf e he
            · simp only [List.mem_singleton] at he
              rw [he]
              exact framedIn_pushed tail p k (by omega) hp
    · rw [if_neg h1] at h
      simp only [Option.some.injEq] at h
      rw [← h]
      exact hf

/-- On the tail `0A063123456` the loop reads size 10, finds only 9 units left
and ends with no entry. -/
theorem parseOptionalFields_0A_tail (fuel : Nat) :
    parseOptionalFields (fuel + 1) (js "0A063123456") = some [] := by
  have h : parseInt (substring (js "0A063123456") 0 (0 + 2)) 16 = some 10 := by decide
  exact parseOptionalFieldsLoop_of_short (js "0A063123456") fuel 0 10 [] h (by decide)

/-! ## Claims on the optional-field loop -/

/-- C15 (failing inputs): the two characters `1G`, and the two characters ` 5`
(a space and `5`), are not two hexadecimal digits, yet the loop does not stop
there: radix-16 `parseInt` reads the sizes 1 and 5 from them and a field is
emitted (`A` on the tail `1GA`, `ABCDE` on the tail ` 5ABCDE`).  The signed
pairs `-1` and `-2` are not two hexadecimal digits either: on the tail `-1`
the size read is -1 and the field `1` is emitted, and on the tail `-2` the size
read is -2 and the loop is still running after 100 entries.  On `ZZ` no number
is read and the loop stops with no field. -/
theorem C15_non_hex_prefix_read_as_size :
    ((js "1G").all isHexDigit = false ∧ parseInt (js "1G") 16 = some 1 ∧
        parseOptionalFields 2 (js "1GA") =
          some [{ data := js "A", description := js "Additional Data" }]) ∧
      ((js " 5").all isHexDigit = false ∧ parseInt (js " 5") 16 = some 5 ∧
        parseOptionalFields 2 (js " 5ABCDE") =
          some [{ data := js "ABCDE", description := js "Additional Data" }]) ∧
      ((js "-1").all isHexDigit = false ∧ parseInt (js "-1") 16 = some (-1) ∧
        parseOptionalFields 2 (js "-1") =
          some [{ data := js "1", description := js "Check-in Source" }]) ∧
      ((js "-2").all isHexDigit = false ∧ parseInt (js "-2") 16 = some (-2) ∧
        parseOptionalFields 100 (js "-2") = none) ∧
      ((js "ZZ").all isHexDigit = false ∧ parseInt (js "ZZ") 16 = none ∧
        parseOptionalFields 1 (js "ZZ") = some []) := by
  decide

/-- C16 (failing input, and the rule on tails without `-`): on the tail `-1`
the size read is `-1` and `parseOptionalFields` returns one entry whose data is
the single character `1`, the second character of the prefix itself.  On a
tail that contains no `-`, every returned entry is framed: its data has exactly
as many characters as the number read from the two characters right before it;
and whenever fewer than `size` characters remain after a prefix, the loop stops
and returns the entries emitted before it. -/
theorem C16_negative_size_emits_entry :
    parseInt (js "-1") 16 = some (-1) ∧
      parseOptionalFields 2 (js "-1") =
        some [{ data := js "1", description := js "Check-in Source" }] ∧
      (∀ (tail : JSString) (fuel : Nat) (result : List OptionalField), 45 ∉ tail →
        parseOptionalFields fuel tail = some result → ∀ e ∈ result, FramedIn tail e) ∧
      (∀ (tail : JSString) (fuel : Nat) (pos size : Int) (fields : List OptionalField),
        parseInt (substring tail pos (pos + 2)) 16 = some size →
        pos + 2 + size > (tail.length : Int) →
        parseOptionalFieldsLoop tail (fuel + 1) pos fields = some fields) := by
  refine ⟨by decide, by decide, ?_, ?_⟩
  · intro tail fuel result hs h
    exact parseOptionalFieldsLoop_framed tail hs fuel 0 [] result (le_refl _)
      (fun e he => absurd he (List.not_mem_nil e)) h
  · intro tail fuel pos size fields h hs
    exact parseOptionalFieldsLoop_of_short tail fuel pos size fields h hs

theorem C16_negative_size_emits_entry_witness :
    FramedIn (js "02AB") { data := js "AB", description := js "Additional Data" } :=
  C16_negative_size_emits_entry.2.2.1 (js "02AB") 2
    [{ data := js "AB", description := js "Additional Data" }] (by decide) (by decide)
    { data := js "AB", description := js "Additional Data" } (List.mem_singleton.mpr rfl)

/-- C17 (counterexample): on the tail `0A063123456` `parseOptionalFields`
returns the empty list, and for no amount of fuel a non-empty one. -/
theorem C17_tail_0A_gives_no_field :
    parseOptionalFields 1 (js "0A063123456") = some [] ∧
      ¬ ∃ fuel e rest, parseOptionalFields fuel (js "0A063123456") = some (e :: rest) := by
  refine ⟨by decide, ?_⟩
  rintro ⟨fuel, e, rest, h⟩
  cases fuel with
  | zero => exact Option.noConfusion h
  | succ n =>
    rw [parseOptionalFields_0A_tail n] at h
    simp at h

/-- C17 (amended): given the tail `0A063123456`, `parseOptionalFields` reads
the first two characters `0A` as hexadecimal length 10; only 9 characters
remain after them, so no field is emitted and the result is the empty list. -/
theorem C17_tail_0A_reads_ten_and_stops (fuel : Nat) :
    parseInt (substring (js "0A063123456") 0 2) 16 = some 10 ∧
      ((js "0A063123456").drop 2).length = 9 ∧
      parseOptionalFields (fuel + 1) (js "0A063123456") = some [] :=
  ⟨by decide, by decide, parseOptionalFields_0A_tail fuel⟩

/-! ## The field classifier -/

theorem dropWhile_append_of_all (p : Nat → Bool) (ws ds : JSString)
    (h : ∀ c ∈ ws, p c = true) : (ws ++ ds).dropWhile p = ds.dropWhile p := by
  induction ws with
  | nil => rfl
  | cons a rest ih =>
    have ha : p a = true := h a (by simp)
    rw [List.cons_append, List.dropWhile_cons, if_pos ha]
    exact ih (fun c hc => h c (by simp [hc]))

theorem dropWhile_whiteSpace_digits (ds : JSString) (hd : ∀ c ∈ ds, isDigit c = true) :
    ds.dropWhile isWhiteSpace = ds := by
  cases ds with
  | nil => rfl
  | cons a rest =>
    have ha : isWhiteSpace a = false := isDigit_not_whiteSpace (hd a (by simp))
    rw [List.dropWhile_cons, ha]
    rfl

theorem matchesFrequentFlyer_iff (s : JSString) :
    matchesFrequentFlyer s = true ↔ IsFrequentFlyerNumber s := by
  unfold IsFrequentFlyerNumber
  constructor
  · intro h
    match s, h with
    | a :: b :: rest, h =>
      have h' : (isUpper a && isUpper b &&
          (!(rest.dropWhile isWhiteSpace).isEmpty && (rest.dropWhile isWhiteSpace).all isDigit)) =
          true := h
      simp only [Bool.and_eq_true, Bool.not_eq_true', List.all_eq_true] at h'
      obtain ⟨⟨ha, hb⟩, hne, hd⟩ := h'
      refine ⟨a, b, rest.takeWhile isWhiteSpace, rest.dropWhile isWhiteSpace, ?_, ha, hb, ?_, ?_, hd⟩
      · rw [List.takeWhile_append_dropWhile]
      · intro c hc
        exact (List.mem_takeWhile_imp hc)
      · intro hnil
        rw [hnil] at hne
        simp at hne
  · rintro ⟨a, b, ws, ds, hs, ha, hb, hws, hne, hd⟩
    subst hs
    have hdw : (ws ++ ds).dropWhile isWhiteSpace = ds := by
      rw [dropWhile_append_of_all isWhiteSpace ws ds hws, dropWhile_whiteSpace_digits ds hd]
    show (isUpper a && isUpper b &&
        (!((ws ++ ds).dropWhile isWhiteSpace).isEmpty &&
          ((ws ++ ds).dropWhile isWhiteSpace).all isDigit)) = true
    rw [hdw, ha, hb]
    have h1 : ds.isEmpty = false := by
      cases ds with
      | nil => exact absurd rfl hne
      | cons x l => rfl
    have h2 : ds.all isDigit = true := List.all_eq_true.mpr hd
    rw [h1, h2]
    rfl

theorem matchesBaggageTag_iff (s : JSString) : matchesBaggageTag s = true ↔ IsBaggageTag s := by
  simp [matchesBaggageTag, IsBaggageTag]

theorem identifyField_singleton (c : Nat) :
    identifyField [c] =
      if isDigit c = true then js "Check-in Source"
      else if c = 89 ∨ c = 124 ∨ c = 78 ∨ c = 84 then js "Fast Track"
      else js "Additional Data" := by
  have h1 : matchesFrequentFlyer [c] = false := rfl
  have h2 : matchesBaggageTag [c] = false := by simp [matchesBaggageTag]
  have h3 : matchesOneDigit [c] = isDigit c := rfl
  have h4 : matchesZeroToThree [c] = (decide (48 ≤ c) && decide (c ≤ 51)) := rfl
  have h5 : matchesFastTrack [c] = (decide (c = 89) || decide (c = 124) || decide (c = 78) ||
      decide (c = 84)) := rfl
  unfold identifyField
  rw [h1, h2, h3, h4, h5]
  simp only [Bool.false_eq_true, if_false, List.length_singleton, true_and]
  by_cases hd : isDigit c = true
  · rw [if_pos hd, if_pos hd]
  · rw [if_neg hd, if_neg hd]
    have hz : ¬ ((decide (48 ≤ c) && decide (c ≤ 51)) = true) := by
      intro hz
      apply hd
      simp only [Bool.and_eq_true, decide_eq_true_eq] at hz
      unfold isDigit
      simp only [Bool.and_eq_true, decide_eq_true_eq]
      omega
    rw [if_neg hz]
    simp only [Bool.or_eq_true, decide_eq_true_eq, or_assoc]

theorem identifyField_of_frequentFlyer (s : JSString) (h : matchesFrequentFlyer s = true) :
    identifyField s = js "Frequent Flyer Number" := by
  unfold identifyField
  rw [if_pos h]

theorem identifyField_of_baggageTag (s : JSString) (h1 : matchesFrequentFlyer s = false)
    (h2 : matchesBaggageTag s = true) : identifyField s = js "Baggage Tag License Plate" := by
  unfold identifyField
  rw [h1, if_neg (by simp), if_pos h2]

theorem identifyField_of_length_ne_one (s : JSString) (h1 : matchesFrequentFlyer s = false)
    (h2 : matchesBaggageTag s = false) (hlen : s.length ≠ 1) :
    identifyField s = js "Additional Data" := by
  have h5 : matchesFastTrack s = false := by
    match s, hlen with
    | [], _ => rfl
    | [c], hl => exact absurd rfl hl
    | _ :: _ :: _, _ => rfl
  unfold identifyField
  rw [h1, h2, h5]
  simp only [Bool.false_eq_true, if_false]
  rw [if_neg (fun h => hlen h.1), if_neg (fun h => hlen h.1)]

/-- The five ways `identifyField` ends. -/
theorem identifyField_cases (s : JSString) :
    (matchesFrequentFlyer s = true ∧ identifyField s = js "Frequent Flyer Number") ∨
      (matchesFrequentFlyer s = false ∧ matchesBaggageTag s = true ∧
        identifyField s = js "Baggage Tag License Plate") ∨
      (∃ c, s = [c] ∧ isDigit c = true ∧ identifyField s = js "Check-in Source") ∨
      (∃ c, s = [c] ∧ isDigit c = false ∧ (c = 89 ∨ c = 124 ∨ c = 78 ∨ c = 84) ∧
        identifyField s = js "Fast Track") ∨
      (matchesFrequentFlyer s = false ∧ matchesBaggageTag s = false ∧
        (∀ c, s = [c] → isDigit c = false ∧ ¬ (c = 89 ∨ c = 124 ∨ c = 78 ∨ c = 84)) ∧
        identifyField s = js "Additional Data") := by
  cases h1 : matchesFrequentFlyer s with
  | true => exact Or.inl ⟨rfl, identifyField_of_frequentFlyer s h1⟩
  | false =>
    cases h2 : matchesBaggageTag s with
    | true => exact Or.inr (Or.inl ⟨rfl, rfl, identifyField_of_baggageTag s h1 h2⟩)
    | false =>
      by_cases hlen : s.length = 1
      · obtain ⟨c, hc⟩ := List.length_eq_one.mp hlen
        subst hc
        have hs := identifyField_singleton c
        by_cases hd : isDigit c = true
        · rw [if_pos hd] at hs
          exact Or.inr (Or.inr (Or.inl ⟨c, rfl, hd, hs⟩))
        · rw [if_neg hd] at hs
          have hd2 : isDigit c = false := by simpa using hd
          by_cases hy : c = 89 ∨ c = 124 ∨ c = 78 ∨ c = 84
          · rw [if_pos hy] at hs
            exact Or.inr (Or.inr (Or.inr (Or.inl ⟨c, rfl, hd2, hy, hs⟩)))
          · rw [if_neg hy] at hs
            refine Or.inr (Or.inr (Or.inr (Or.inr ⟨rfl, rfl, ?_, hs⟩)))
            intro c2 hc2
            simp only [List.cons.injEq, and_true] at hc2
            subst hc2
            exact ⟨hd2, hy⟩
      · refine Or.inr (Or.inr (Or.inr (Or.inr
          ⟨rfl, rfl, ?_, identifyField_of_length_ne_one s h1 h2 hlen⟩)))
        intro c hc
        rw [hc] at hlen
        exact absurd rfl hlen

theorem isDigit_not_isUpper {c : Nat} (h : isDigit c = true) : isUpper c = false := by
  have h2 : 48 ≤ c ∧ c ≤ 57 := by simpa [isDigit] using h
  unfold isUpper
  simp
  omega

theorem not_matchesFrequentFlyer_of_baggageTag (s : JSString) (h : IsBaggageTag s) :
    matchesFrequentFlyer s = false := by
  obtain ⟨_, hd⟩ := h
  match s, hd with
  | [], _ => rfl
  | [_], _ => rfl
  | a :: b :: rest, hd =>
    show (isUpper a && isUpper b &&
        (!(rest.dropWhile isWhiteSpace).isEmpty && (rest.dropWhile isWhiteSpace).all isDigit)) =
        false
    rw [isDigit_not_isUpper (hd a (by simp))]
    rfl

theorem js_pipe : js "|" = [124] := by decide

/-! ## Claims on the field classifier -/

/-- C18 (failing input, and the rules that hold): `identifyField` returns
`Fast Track` for the one-character string `|`, which matches none of the rules
1 to 5 of the specification, where the claim says `Additional Data`.  Apart
from that string the claim holds: `identifyField` always returns one of the six
labels; a string of two upper-case letters, optional white space and digits
gives `Frequent Flyer Number`; ten or more digits give `Baggage Tag License
Plate`; a single digit gives `Check-in Source`; a single `Y`, `N` or `T` gives
`Fast Track`; and every string other than `|` that matches none of these gives
`Additional Data`. -/
theorem C18_pipe_labelled_fast_track :
    identifyField (js "|") = js "Fast Track" ∧
      ¬ IsFrequentFlyerNumber (js "|") ∧ ¬ IsBaggageTag (js "|") ∧
      ¬ IsSingleDigit (js "|") ∧ ¬ IsSingleYNT (js "|") ∧
      (∀ s, identifyField s ∈ labels) ∧
      (∀ s, IsFrequentFlyerNumber s → identifyField s = js "Frequent Flyer Number") ∧
      (∀ s, IsBaggageTag s → identifyField s = js "Baggage Tag License Plate") ∧
      (∀ s, IsSingleDigit s → identifyField s = js "Check-in Source") ∧
      (∀ s, IsSingleYNT s → identifyField s = js "Fast Track") ∧
      (∀ s, ¬ IsFrequentFlyerNumber s → ¬ IsBaggageTag s → ¬ IsSingleDigit s →
        ¬ IsSingleYNT s → s ≠ js "|" → identifyField s = js "Additional Data") := by
  refine ⟨by decide, ?_, ?_, ?_, ?_, ?_, ?_, ?_, ?_, ?_, ?_⟩
  · intro h
    have h1 := (matchesFrequentFlyer_iff _).mpr h
    exact absurd h1 (by decide)
  · intro h
    have h1 := (matchesBaggageTag_iff _).mpr h
    exact absurd h1 (by decide)
  · rintro ⟨c, hc, hd⟩
    rw [js_pipe] at hc
    simp only [List.cons.injEq, and_true] at hc
    subst hc
    exact absurd hd (by decide)
  · rintro ⟨c, hc, hy⟩
    rw [js_pipe] at hc
    simp only [List.cons.injEq, and_true] at hc
    omega
  · intro s
    rcases identifyField_cases s with ⟨_, h⟩ | ⟨_, _, h⟩ | ⟨_, _, _, h⟩ | ⟨_, _, _, _, h⟩ |
      ⟨_, _, _, h⟩ <;>
    · rw [h]
      decide
  · intro s h
    exact identifyField_of_frequentFlyer s ((matchesFrequentFlyer_iff s).mpr h)
  · intro s h
    exact identifyField_of_baggageTag s (not_matchesFrequentFlyer_of_baggageTag s h)
      ((matchesBaggageTag_iff s).mpr h)
  · rintro s ⟨c, hc, hd⟩
    rw [hc, identifyField_singleton, if_pos hd]
  · rintro s ⟨c, hc, hy⟩
    have hd : ¬ isDigit c = true := by
      rcases hy with h | h | h <;>
      · rw [h]
        decide
    rw [hc, identifyField_singleton, if_neg hd, if_pos (by omega)]
  · intro s h1 h2 h3 h4 h5
    rcases identifyField_cases s with ⟨hf, _⟩ | ⟨_, hb, _⟩ | ⟨c, hc, hd, _⟩ | ⟨c, hc, _, hy, _⟩ |
      ⟨_, _, _, h⟩
    · exact absurd ((matchesFrequentFlyer_iff s).mp hf) h1
    · exact absurd ((matchesBaggageTag_iff s).mp hb) h2
    · exact absurd ⟨c, hc, hd⟩ h3
    · by_cases hp : c = 124
      · exfalso
        apply h5
        rw [hc, hp, js_pipe]
      · exact absurd ⟨c, hc, by omega⟩ h4
    · exact h

theorem C18_pipe_labelled_fast_track_witness :
    identifyField (js "AA 1234") = js "Frequent Flyer Number" ∧
      identifyField (js "N") = js "Fast Track" ∧
      identifyField (js "hello") = js "Additional Data" :=
  ⟨C18_pipe_labelled_fast_track.2.2.2.2.2.2.1 (js "AA 1234")
      ⟨65, 65, js " ", js "1234", by decide, by decide, by decide, by decide, by decide,
        by decide⟩,
    C18_pipe_labelled_fast_track.2.2.2.2.2.2.2.2.2.1 (js "N") ⟨78, by decide, by decide⟩,
    by decide⟩

/-- C19 (failing input): `identifyField` returns `Fast Track` for the
one-character string `|`; in general it returns `Fast Track` if and only if
the field is exactly one character and that character is `Y`, `|`, `N` or
`T`. -/
theorem C19_fast_track_includes_pipe :
    identifyField (js "|") = js "Fast Track" ∧
      ∀ s, identifyField s = js "Fast Track" ↔
        ∃ c, s = [c] ∧ (c = 89 ∨ c = 124 ∨ c = 78 ∨ c = 84) := by
  refine ⟨by decide, fun s => ⟨?_, ?_⟩⟩
  · intro h
    rcases identifyField_cases s with ⟨_, h2⟩ | ⟨_, _, h2⟩ | ⟨_, _, _, h2⟩ | ⟨c, hc, _, hy, _⟩ |
      ⟨_, _, _, h2⟩
    · rw [h2] at h
      exact absurd h (by decide)
    · rw [h2] at h
      exact absurd h (by decide)
    · rw [h2] at h
      exact absurd h (by decide)
    · exact ⟨c, hc, hy⟩
    · rw [h2] at h
      exact absurd h (by decide)
  · rintro ⟨c, hc, hy⟩
    have hd : ¬ isDigit c = true := by
      rcases hy with h | h | h | h <;>
      · rw [h]
        decide
    rw [hc, identifyField_singleton, if_neg hd, if_pos hy]

/-- C20: for every field consisting of exactly one decimal digit, `0` to `3`
included, `identifyField` returns `Check-in Source`; and there is no string
for which `identifyField` returns `Selectee Indicator`. -/
theorem C20_selectee_indicator_unreachable :
    (∀ c, isDigit c = true → identifyField [c] = js "Check-in Source") ∧
      (∀ s, identifyField s ≠ js "Selectee Indicator") ∧
      identifyField (js "0") = js "Check-in Source" ∧
      identifyField (js "1") = js "Check-in Source" ∧
      identifyField (js "2") = js "Check-in Source" ∧
      identifyField (js "3") = js "Check-in Source" := by
  refine ⟨?_, ?_, by decide, by decide, by decide, by decide⟩
  · intro c hd
    rw [identifyField_singleton, if_pos hd]
  · intro s h
    rcases identifyField_cases s with ⟨_, h2⟩ | ⟨_, _, h2⟩ | ⟨_, _, _, h2⟩ | ⟨_, _, _, _, h2⟩ |
      ⟨_, _, _, h2⟩ <;>
    · rw [h2] at h
      exact absurd h (by decide)

theorem C20_selectee_indicator_unreachable_witness :
    identifyField (js "9") = js "Check-in Source" :=
  C20_selectee_indicator_unreachable.1 57 (by decide)

/-! ## Year resolution -/

theorem natToString_getLast (n : Nat) : (natToString n).getLast? = some (48 + n % 10) := by
  rw [natToString_step]
  by_cases h : n < 10
  · rw [if_pos h]
    have hm : n % 10 = n := by omega
    rw [hm]
    rfl
  · rw [if_neg h, List.getLast?_append]
    rfl

/-- C27 (counterexample): for reference year 0 and year digit 3 the resolved
year is -7, whose decimal numeral `-7` ends in 7, not in 3. -/
theorem C27_resolved_year_negative :
    resolveFullYear 0 3 = -7 ∧ numberToString (some (resolveFullYear 0 3)) = js "-7" ∧
      (numberToString (some (resolveFullYear 0 3))).getLast? = some 55 ∧
      (numberToString (some (resolveFullYear 0 3))).getLast? ≠ (js "3").getLast? := by
  decide

/-- C27 (amended): for every reference year `c` and year digit `d` in `0..9`,
the resolved year `y` equals `floor(c/10)*10 + d` when that value is at most
`c + 2` and that value minus 10 otherwise; hence `y` is congruent to `d` modulo
10, `y ≤ c + 2` (the boundary `y = c + 2` is kept in the current decade) and
`y ≥ c - 9`; `y` is non-negative for every `c ≥ 7`, and whenever `y` is
non-negative its decimal numeral ends in the digit `d`. -/
theorem C27_year_resolution (c d : Int) (hd0 : 0 ≤ d) (hd9 : d ≤ 9) :
    resolveFullYear c d =
        (if c / 10 * 10 + d ≤ c + 2 then c / 10 * 10 + d else c / 10 * 10 + d - 10) ∧
      resolveFullYear c d % 10 = d ∧
      resolveFullYear c d ≤ c + 2 ∧
      c - 9 ≤ resolveFullYear c d ∧
      (c / 10 * 10 + d = c + 2 → resolveFullYear c d = c + 2) ∧
      (7 ≤ c → 0 ≤ resolveFullYear c d) ∧
      (0 ≤ resolveFullYear c d →
        (numberToString (some (resolveFullYear c d))).getLast? = some (48 + d.toNat)) := by
  have hy : resolveFullYear c d =
      (if c / 10 * 10 + d ≤ c + 2 then c / 10 * 10 + d else c / 10 * 10 + d - 10) := by
    unfold resolveFullYear
    dsimp only
    split_ifs <;> omega
  have hmod : resolveFullYear c d % 10 = d := by
    rw [hy]
    split_ifs <;> omega
  refine ⟨hy, hmod, ?_, ?_, ?_, ?_, ?_⟩
  · rw [hy]
    split_ifs <;> omega
  · rw [hy]
    split_ifs <;> omega
  · intro h
    rw [hy, if_pos (by omega)]
    exact h
  · intro h7
    rw [hy]
    split_ifs <;> omega
  · intro h0
    obtain ⟨n, hn⟩ := Int.eq_ofNat_of_zero_le h0
    rw [hn]
    have h1 : numberToString (some (n : Int)) = natToString n := rfl
    rw [h1, natToString_getLast]
    have h2 : (n : Int) % 10 = d := by rw [← hn]; exact hmod
    have h3 : n % 10 = d.toNat := by omega
    rw [h3]

theorem C27_year_resolution_witness :
    resolveFullYear 2024 6 = 2026 ∧ resolveFullYear 2024 7 = 2017 :=
  ⟨((C27_year_resolution 2024 6 (by decide) (by decide)).2.2.2.2.1 (by decide)),
    (C27_year_resolution 2024 7 (by decide) (by decide)).1.trans (by decide)⟩

/-! ## Name reordering with a single slash -/

theorem decodedRecord_passengerName_of_slash (zone : TimeZone) (currentYear : Int) (t : JSString)
    (fields : List OptionalField) (h60 : 60 ≤ t.length) (hslash : 47 ∈ trim (slice t 2 22)) :
    (decodedRecord zone currentYear t fields).passengerName =
      trim (beforeFirstSlash (afterFirstSlash (trim (slice t 2 22)))) ++ js " " ++
        trim (beforeFirstSlash (trim (slice t 2 22))) := by
  have hinc : includes (trim (slice t 2 22)) 47 = true := by
    simpa [includes] using hslash
  have hs : substring t 2 22 = slice t 2 22 :=
    substring_lit t 2 22 2 22 rfl rfl (by omega) (by omega)
  unfold decodedRecord
  dsimp only
  rw [hs, formatPassengerName_of_includes _ hinc, Option.getD_some]
  rfl

theorem count_dropWhile_drop (s : JSString) (h : 47 ∈ s) :
    s.count 47 = (afterFirstSlash s).count 47 + 1 := by
  unfold afterFirstSlash
  induction s with
  | nil => simp at h
  | cons a rest ih =>
    by_cases ha : a = 47
    · subst ha
      simp [List.dropWhile]
    · have hmem : 47 ∈ rest := by
        rcases List.mem_cons.mp h with h1 | h1
        · exact absurd h1.symm ha
        · exact h1
      have hb : (a != 47) = true := by simp [ha]
      have hne : ¬ (a == 47) = true := by simp [ha]
      rw [List.dropWhile_cons, if_pos hb, List.count_cons, if_neg hne, add_zero]
      exact ih hmem

theorem beforeFirstSlash_of_not_mem (s : JSString) (h : 47 ∉ s) : beforeFirstSlash s = s := by
  unfold beforeFirstSlash
  rw [List.takeWhile_eq_self_iff]
  intro c hc
  have : c ≠ 47 := fun he => h (he ▸ hc)
  simpa using this

/-- C25: for every decodable input whose trimmed name field `t[2,22)` contains
exactly one `/`, `passengerName` is the trimmed part after the `/`, one space,
and the trimmed part before the `/`, every character as it stands in the input
(no change of letter case); so the field `SMITH/JOHN` followed by ten spaces
gives `JOHN SMITH`.  A record is returned unless the optional-field loop is
still running when the fuel is used up, which takes fuel below half the length
of `t` or a `-` in the tail `t[62..]`. -/
theorem C25_name_keeps_case (zone : TimeZone) (currentYear : Int) (fuel : Nat) (raw : JSString)
    (h60 : 60 ≤ (trim raw).length) (hM : (trim raw).head? = some 77)
    (hone : (trim (slice (trim raw) 2 22)).count 47 = 1) :
    ((parseBCBP zone currentYear fuel raw = Outcome.unfinished ∧ 62 < (trim raw).length ∧
        parseOptionalFields fuel ((trim raw).drop 62) = none ∧
        (2 * fuel < (trim raw).length ∨ 45 ∈ (trim raw).drop 62)) ∨
      ∃ r, parseBCBP zone currentYear fuel raw = Outcome.returned r ∧
        r.passengerName =
          trim (afterFirstSlash (trim (slice (trim raw) 2 22))) ++ js " " ++
            trim (beforeFirstSlash (trim (slice (trim raw) 2 22)))) ∧
      formatPassengerName (trim (js "SMITH/JOHN          ")) = some (js "JOHN SMITH") ∧
      js "JOHN SMITH" ≠ js "John Smith" := by
  refine ⟨?_, by decide, by decide⟩
  rcases parseBCBP_outcome zone currentYear fuel raw h60 hM with h | ⟨fields, hr, _⟩
  · exact Or.inl h
  · have hmem : 47 ∈ trim (slice (trim raw) 2 22) := by
      apply List.count_pos_iff.mp
      omega
    have hcount := count_dropWhile_drop _ hmem
    have hno : 47 ∉ afterFirstSlash (trim (slice (trim raw) 2 22)) := by
      intro hin
      have := List.count_pos_iff.mpr hin
      omega
    refine Or.inr ⟨_, hr, ?_⟩
    rw [decodedRecord_passengerName_of_slash zone currentYear (trim raw) fields h60 hmem,
      beforeFirstSlash_of_not_mem _ hno]

theorem C25_name_keeps_case_witness :
    ∃ r, parseBCBP utc 2024 0 (js "M1SMITH/JOHN          EABC123 JFKLAXUA 1234 410Y012C0001 100") =
        Outcome.returned r ∧ r.passengerName = js "JOHN SMITH" := by
  rcases (C25_name_keeps_case utc 2024 0
      (js "M1SMITH/JOHN          EABC123 JFKLAXUA 1234 410Y012C0001 100")
      (by decide) (by decide) (by decide)).1 with h | ⟨r, hr, hn⟩
  · exact absurd h.2.1 (by decide)
  · exact ⟨r, hr, by rw [hn]; decide⟩

/-! ## Determinism -/

/-- More fuel does not change what the loop returns. -/
theorem parseOptionalFieldsLoop_mono (tail : JSString) :
    ∀ (fuel : Nat) (pos : Int) (fields result : List OptionalField),
      parseOptionalFieldsLoop tail fuel pos fields = some result →
      ∀ extra, parseOptionalFieldsLoop tail (fuel + extra) pos fields = some result := by
  intro fuel
  induction fuel with
  | zero =>
    intro pos fields result h
    rw [parseOptionalFieldsLoop] at h
    exact Option.noConfusion h
  | succ n ih =>
    intro pos fields result h extra
    have he : n + 1 + extra = (n + extra) + 1 := by omega
    rw [he, parseOptionalFieldsLoop]
    rw [parseOptionalFieldsLoop] at h
    by_cases h1 : pos < (tail.length : Int)
    · rw [if_pos h1] at h ⊢
      by_cases h2 : pos + 2 > (tail.length : Int)
      · rw [if_pos h2] at h ⊢
        exact h
      · rw [if_neg h2] at h ⊢
        dsimp only at h ⊢
        cases hp : parseInt (substring tail pos (pos + 2)) 16 with
        | none =>
          rw [hp] at h
          exact h
        | some size =>
          rw [hp] at h
          dsimp only at h ⊢
          by_cases h3 : pos + 2 + size > (tail.length : Int)
          · rw [if_pos h3] at h ⊢
            exact h
          · rw [if_neg h3] at h ⊢
            exact ih _ _ _ h extra
    · rw [if_neg h1] at h ⊢
      exact h

theorem parseOptionalFields_fuel_irrelevant (tail : JSString) (f1 f2 : Nat)
    (r1 r2 : List OptionalField) (h1 : parseOptionalFields f1 tail = some r1)
    (h2 : parseOptionalFields f2 tail = some r2) : r1 = r2 := by
  unfold parseOptionalFields at h1 h2
  have e1 := parseOptionalFieldsLoop_mono tail f1 0 [] r1 h1 f2
  have e2 := parseOptionalFieldsLoop_mono tail f2 0 [] r2 h2 f1
  rw [Nat.add_comm f2 f1, e1] at e2
  exact Option.some.inj e2

/-- The outcome of `parseBCBP` on an input that is not decodable does not
depend on the time zone, the reference year or the fuel. -/
theorem parseBCBP_not_decodable (raw : JSString)
    (h : ¬ (60 ≤ (trim raw).length ∧ (trim raw).head? = some 77)) :
    ∃ message, ∀ (zone : TimeZone) (currentYear : Int) (fuel : Nat),
      parseBCBP zone currentYear fuel raw = Outcome.thrown message := by
  by_cases h0 : raw = []
  · refine ⟨js "Invalid barcode data", fun zone currentYear fuel => ?_⟩
    simp only [parseBCBP, if_pos h0]
  · by_cases hlt : (trim raw).length < 60
    · refine ⟨js "Barcode data is too short (must be at least 60 characters)",
        fun zone currentYear fuel => ?_⟩
      simp only [parseBCBP, if_neg h0, if_pos hlt]
    · have h60 : 60 ≤ (trim raw).length := by omega
      have hM : (trim raw).head? ≠ some 77 := fun hm => h ⟨h60, hm⟩
      exact ⟨js "Failed to parse boarding pass data",
        fun zone currentYear fuel => (parseBCBP_not_M zone currentYear fuel raw h60 hM).2⟩

theorem decodedRecord_year (zone1 zone2 : TimeZone) (y1 y2 : Int) (t : JSString)
    (fields : List OptionalField) :
    decodedRecord zone2 y2 t fields =
      { decodedRecord zone1 y1 t fields with date := (decodedRecord zone2 y2 t fields).date } := by
  unfold decodedRecord
  rfl

theorem decodedRecord_date (zone : TimeZone) (currentYear : Int) (t : JSString)
    (fields : List OptionalField) (h60 : 60 ≤ t.length) :
    (decodedRecord zone currentYear t fields).date =
      convertJulianDateToCalendar zone currentYear (slice t 44 47) := by
  have hs : substring t 44 47 = slice t 44 47 :=
    substring_lit t 44 47 44 47 rfl rfl (by omega) (by omega)
  unfold decodedRecord
  dsimp only
  rw [hs]

/-- C23 (counterexample): the same raw string with the same reference year 2023
is decoded to two different records in two time zones: its date fragment `399`
is printed `April 9` in UTC and `April 8` in Australia/Sydney, where the clock
was put back one hour on 2 April 2023. -/
theorem C23_same_year_two_zones_two_dates :
    ∃ r1 r2,
      parseBCBP utc 2023 0 (js "M1DOE/JANE            EABC123 JFKLAXUA 1234 399Y012C0001 100") =
        Outcome.returned r1 ∧
      parseBCBP sydney2023 2023 0
          (js "M1DOE/JANE            EABC123 JFKLAXUA 1234 399Y012C0001 100") =
        Outcome.returned r2 ∧
      r1.date = js "April 9" ∧ r2.date = js "April 8" ∧ r1 ≠ r2 :=
  ⟨decodedRecord utc 2023 (js "M1DOE/JANE            EABC123 JFKLAXUA 1234 399Y012C0001 100") [],
    decodedRecord sydney2023 2023
      (js "M1DOE/JANE            EABC123 JFKLAXUA 1234 399Y012C0001 100") [],
    by decide, by decide, by decide, by decide, by decide⟩

/-- C23 (amended): `parseBCBP` is a function of the raw string, the reference
year and the host's time zone.  For the same raw string under two reference
years and two time zones the two outcomes agree on success or failure (the same
error, or both still in the optional-field loop, or two records) and the two
records agree on every field other than `date`, which is the converter's result
for the fragment `t[44,47)` under each year and zone; and for the same raw
string, reference year and time zone, any two amounts of fuel that let the call
finish give the same outcome. -/
theorem C23_outcome_depends_on_year_and_zone_only_in_date (zone1 zone2 : TimeZone)
    (y1 y2 : Int) (fuel : Nat) (raw : JSString) :
    ((∃ message, parseBCBP zone1 y1 fuel raw = Outcome.thrown message ∧
          parseBCBP zone2 y2 fuel raw = Outcome.thrown message) ∨
        (parseBCBP zone1 y1 fuel raw = Outcome.unfinished ∧
          parseBCBP zone2 y2 fuel raw = Outcome.unfinished) ∨
        ∃ r1 r2, parseBCBP zone1 y1 fuel raw = Outcome.returned r1 ∧
          parseBCBP zone2 y2 fuel raw = Outcome.returned r2 ∧
          r2 = { r1 with date := r2.date } ∧
          r1.date = convertJulianDateToCalendar zone1 y1 (slice (trim raw) 44 47) ∧
          r2.date = convertJulianDateToCalendar zone2 y2 (slice (trim raw) 44 47)) ∧
      ∀ fuel2, parseBCBP zone1 y1 fuel raw ≠ Outcome.unfinished →
        parseBCBP zone1 y1 fuel2 raw ≠ Outcome.unfinished →
        parseBCBP zone1 y1 fuel raw = parseBCBP zone1 y1 fuel2 raw := by
  by_cases hdec : 60 ≤ (trim raw).length ∧ (trim raw).head? = some 77
  · obtain ⟨h60, hM⟩ := hdec
    constructor
    · rw [parseBCBP_decodable zone1 y1 fuel raw h60 hM,
        parseBCBP_decodable zone2 y2 fuel raw h60 hM]
      by_cases h62 : (trim raw).length > 62
      · rw [if_pos h62, if_pos h62]
        cases parseOptionalFields fuel (substringFrom (trim raw) 62) with
        | none => exact Or.inr (Or.inl ⟨rfl, rfl⟩)
        | some fields =>
          exact Or.inr (Or.inr ⟨_, _, rfl, rfl,
            decodedRecord_year zone1 zone2 y1 y2 (trim raw) fields,
            decodedRecord_date zone1 y1 (trim raw) fields h60,
            decodedRecord_date zone2 y2 (trim raw) fields h60⟩)
      · rw [if_neg h62, if_neg h62]
        exact Or.inr (Or.inr ⟨_, _, rfl, rfl,
          decodedRecord_year zone1 zone2 y1 y2 (trim raw) [],
          decodedRecord_date zone1 y1 (trim raw) [] h60,
          decodedRecord_date zone2 y2 (trim raw) [] h60⟩)
    · intro fuel2
      rw [parseBCBP_decodable zone1 y1 fuel raw h60 hM,
        parseBCBP_decodable zone1 y1 fuel2 raw h60 hM]
      by_cases h62 : (trim raw).length > 62
      · rw [if_pos h62, if_pos h62]
        cases h1 : parseOptionalFields fuel (substringFrom (trim raw) 62) with
        | none =>
          intro hne
          exact absurd rfl hne
        | some r1 =>
          cases h2 : parseOptionalFields fuel2 (substringFrom (trim raw) 62) with
          | none =>
            intro _ hne
            exact absurd rfl hne
          | some r2 =>
            intro _ _
            rw [parseOptionalFields_fuel_irrelevant _ fuel fuel2 r1 r2 h1 h2]
      · rw [if_neg h62, if_neg h62]
        intro _ _
        rfl
  · obtain ⟨message, hm⟩ := parseBCBP_not_decodable raw hdec
    constructor
    · exact Or.inl ⟨message, hm zone1 y1 fuel, hm zone2 y2 fuel⟩
    · intro fuel2 _ _
      rw [hm zone1 y1 fuel, hm zone1 y1 fuel2]

theorem C23_outcome_depends_on_year_and_zone_only_in_date_witness :
    parseBCBP utc 2024 2 (js "M1DOE/JANE            EABC123 JFKLAXUA 1234 460Y012C0001 100>602AB") =
        parseBCBP utc 2024 7
          (js "M1DOE/JANE            EABC123 JFKLAXUA 1234 460Y012C0001 100>602AB") ∧
      ∃ r1 r2,
        parseBCBP utc 2024 2
            (js "M1DOE/JANE            EABC123 JFKLAXUA 1234 460Y012C0001 100>602AB") =
          Outcome.returned r1 ∧
        parseBCBP saoPaulo2019 2033 2
            (js "M1DOE/JANE            EABC123 JFKLAXUA 1234 460Y012C0001 100>602AB") =
          Outcome.returned r2 ∧
        r2 = { r1 with date := r2.date } ∧
        r1.date = js "February 29" ∧ r2.date = js "March 1" := by
  refine ⟨(C23_outcome_depends_on_year_and_zone_only_in_date utc saoPaulo2019 2024 2033 2
    (js "M1DOE/JANE            EABC123 JFKLAXUA 1234 460Y012C0001 100>602AB")).2 7
    (by decide) (by decide), ?_⟩
  rcases (C23_outcome_depends_on_year_and_zone_only_in_date utc saoPaulo2019 2024 2033 2
    (js "M1DOE/JANE            EABC123 JFKLAXUA 1234 460Y012C0001 100>602AB")).1 with
    ⟨_, h, _⟩ | ⟨h, _⟩ | ⟨r1, r2, h1, h2, h3, hd1, hd2⟩
  · have hk : (match parseBCBP utc 2024 2
        (js "M1DOE/JANE            EABC123 JFKLAXUA 1234 460Y012C0001 100>602AB") with
        | Outcome.thrown _ => true
        | _ => false) = false := by decide
    rw [h] at hk
    exact Bool.noConfusion hk
  · exact absurd h (by decide)
  · exact ⟨r1, r2, h1, h2, h3, by rw [hd1]; decide, by rw [hd2]; decide⟩

/-! ## Idempotence of the seat step -/

theorem withoutLeadingZeros_ne_nil (ds : JSString) : withoutLeadingZeros ds ≠ [] := by
  unfold withoutLeadingZeros
  split_ifs with h
  · simp
  · exact h

theorem withoutLeadingZeros_digits (ds : JSString) (hd : ∀ x ∈ ds, isDigit x = true) :
    ∀ x ∈ withoutLeadingZeros ds, isDigit x = true := by
  unfold withoutLeadingZeros
  split_ifs with h
  · intro x hx
    simp only [List.mem_singleton] at hx
    rw [hx]
    rfl
  · intro x hx
    exact hd x ((List.dropWhile_sublist _).subset hx)

theorem withoutLeadingZeros_idem (ds : JSString) :
    withoutLeadingZeros (withoutLeadingZeros ds) = withoutLeadingZeros ds := by
  unfold withoutLeadingZeros
  by_cases h : ds.dropWhile (fun c => c == 48) = []
  · rw [if_pos h]
    rfl
  · rw [if_neg h, List.dropWhile_idempotent, if_neg h]

theorem formatSeat_digitsLetter_idem (ds : JSString) (l : Nat) (hd : ∀ x ∈ ds, isDigit x = true)
    (hl : isLetter l = true) :
    formatSeat (withoutLeadingZeros ds ++ [l]) = withoutLeadingZeros ds ++ [l] := by
  rw [formatSeat_digitsLetter (withoutLeadingZeros ds) l (withoutLeadingZeros_ne_nil ds)
    (withoutLeadingZeros_digits ds hd) hl, withoutLeadingZeros_idem]

/-- The seat step applied twice is the seat step applied once. -/
theorem formatSeat_idem (s : JSString) : formatSeat (formatSeat s) = formatSeat s := by
  by_cases h1 : ∃ a ds l, s = a :: (ds ++ [l]) ∧ isLetter a = true ∧ ds ≠ [] ∧
      (∀ x ∈ ds, isDigit x = true) ∧ isLetter l = true
  · obtain ⟨a, ds, l, hs, ha, hne, hd, hl⟩ := h1
    rw [hs, formatSeat_letterDigitsLetter a ds l ha hne hd hl]
    exact formatSeat_digitsLetter_idem ds l hd hl
  · by_cases h2 : ∃ ds l, s = ds ++ [l] ∧ ds ≠ [] ∧ (∀ x ∈ ds, isDigit x = true) ∧
        isLetter l = true
    · obtain ⟨ds, l, hs, hne, hd, hl⟩ := h2
      rw [hs, formatSeat_digitsLetter ds l hne hd hl]
      exact formatSeat_digitsLetter_idem ds l hd hl
    · by_cases h3 : s ≠ [] ∧ ∀ x ∈ s, x = 48
      · rw [formatSeat_zeros s h3.1 h3.2]
        decide
      · rw [formatSeat_other s h1 h2 h3, formatSeat_other s h1 h2 h3]

/-- C30: the seat step is idempotent: for every seat string `s` of at most 5
characters, applying the step to its own result gives the same result again;
in particular `Unassigned` and `8F` are fixed points. -/
theorem C30_seat_normalization_idempotent (s : JSString) (_hlen : s.length ≤ 5) :
    formatSeat (formatSeat s) = formatSeat s ∧
      formatSeat (js "Unassigned") = js "Unassigned" ∧ formatSeat (js "8F") = js "8F" :=
  ⟨formatSeat_idem s, by decide, by decide⟩

theorem C30_seat_normalization_idempotent_witness :
    formatSeat (js "C008F") = js "8F" ∧ formatSeat (formatSeat (js "C008F")) = js "8F" :=
  ⟨by decide,
    ((C30_seat_normalization_idempotent (js "C008F") (by decide)).1).trans (by decide)⟩

/-! ## The end-to-end scenario -/

theorem dropWhile_of_head_false (p : Nat → Bool) (s : JSString)
    (h : ∀ c, s.head? = some c → p c = false) : s.dropWhile p = s := by
  cases s with
  | nil => rfl
  | cons a rest =>
    have ha : p a = false := h a rfl
    rw [List.dropWhile_cons, ha]
    rfl

theorem trim_eq_self (s : JSString) (h1 : ∀ c, s.head? = some c → isWhiteSpace c = false)
    (h2 : ∀ c, s.getLast? = some c → isWhiteSpace c = false) : trim s = s := by
  unfold trim
  rw [dropWhile_of_head_false isWhiteSpace s h1,
    dropWhile_of_head_false isWhiteSpace s.reverse (by rw [List.head?_reverse]; exact h2),
    List.reverse_reverse]

theorem trim_append_whiteSpace (s : JSString) (c : Nat) (hc : isWhiteSpace c = true) :
    trim (s ++ [c]) = trim s := by
  unfold trim
  rw [List.dropWhile_append]
  cases hd : s.dropWhile isWhiteSpace with
  | nil =>
    simp [List.dropWhile, hc]
  | cons a rest =>
    simp [List.dropWhile, hc]

theorem slice_append_left (s t : JSString) (a b : Nat) (hb : b ≤ s.length) :
    slice (s ++ t) a b = slice s a b := by
  unfold slice
  rw [List.take_append_of_le_length hb]

theorem scenarioRaw_eq :
    scenarioRaw = js "M1SMITH/JOHN        EABC1234JFKLAXAA1234 4107Y0012C00001100" := by
  decide

/-- The scenario string padded on the right with one unit `c`. -/
theorem parseBCBP_scenario_padded (zone : TimeZone) (currentYear : Int) (fuel : Nat) (c : Nat) :
    (isWhiteSpace c = true →
      parseBCBP zone currentYear fuel (scenarioRaw ++ [c]) =
        Outcome.thrown (js "Barcode data is too short (must be at least 60 characters)")) ∧
    (isWhiteSpace c = false →
      ∃ r, parseBCBP zone currentYear fuel (scenarioRaw ++ [c]) = Outcome.returned r ∧
        r.airline = js "123" ∧ r.checkedIn = false ∧ r.passengerStatus = js "0" ∧
        r.origin = js "KLA") := by
  have hlen : scenarioRaw.length = 59 := by decide
  constructor
  · intro hc
    have ht : trim (scenarioRaw ++ [c]) = scenarioRaw := by
      rw [trim_append_whiteSpace scenarioRaw c hc]
      decide
    have hne : scenarioRaw ++ [c] ≠ [] := by simp
    have hlt : (trim (scenarioRaw ++ [c])).length < 60 := by
      rw [ht, hlen]
      decide
    simp only [parseBCBP, if_neg hne, if_pos hlt]
  · intro hc
    have ht : trim (scenarioRaw ++ [c]) = scenarioRaw ++ [c] := by
      apply trim_eq_self
      · intro x hx
        have h77 : (scenarioRaw ++ [c]).head? = some 77 := by
          rw [List.head?_append_of_ne_nil _ (by decide)]
          decide
        rw [h77] at hx
        simp only [Option.some.injEq] at hx
        rw [← hx]
        rfl
      · intro x hx
        rw [List.getLast?_append] at hx
        have hx2 : some c = some x := hx
        simp only [Option.some.injEq] at hx2
        rw [← hx2]
        exact hc
    have hlen60 : (scenarioRaw ++ [c]).length = 60 := by
      rw [List.length_append, hlen]
      rfl
    have h60 : 60 ≤ (trim (scenarioRaw ++ [c])).length := by
      rw [ht, hlen60]
    have hM : (trim (scenarioRaw ++ [c])).head? = some 77 := by
      rw [ht, List.head?_append_of_ne_nil _ (by decide)]
      decide
    have h62 : ¬ (trim (scenarioRaw ++ [c])).length > 62 := by
      rw [ht, hlen60]
      decide
    refine ⟨decodedRecord zone currentYear (scenarioRaw ++ [c]) [], ?_, ?_, ?_, ?_, ?_⟩
    · rw [parseBCBP_decodable zone currentYear fuel _ h60 hM, if_neg h62, ht]
    · unfold decodedRecord
      dsimp only
      rw [substring_lit (scenarioRaw ++ [c]) 36 39 36 39 rfl rfl (by decide)
        (by rw [hlen60]; decide), slice_append_left scenarioRaw [c] 36 39 (by rw [hlen]; decide)]
      decide
    · unfold decodedRecord
      dsimp only
      rw [charAt_eq_slice, slice_append_left scenarioRaw [c] 57 58 (by rw [hlen]; decide)]
      decide
    · unfold decodedRecord
      dsimp only
      rw [charAt_eq_slice, slice_append_left scenarioRaw [c] 57 58 (by rw [hlen]; decide)]
      decide
    · unfold decodedRecord
      dsimp only
      rw [substring_lit (scenarioRaw ++ [c]) 30 33 30 33 rfl rfl (by decide)
        (by rw [hlen60]; decide), slice_append_left scenarioRaw [c] 30 33 (by rw [hlen]; decide)]
      decide

/-- C24 (counterexample): the concatenation of the scenario's pieces has 59
characters, and whatever character pads it to 60, `parseBCBP` does not return a
record with `checkedIn = true` and `airline = "AA"`: padded with a space it
fails with the too-short error, padded with `0` it returns a record with
airline `123` and `checkedIn = false`. -/
theorem C24_scenario_is_misaligned :
    scenarioRaw.length = 59 ∧
      parseBCBP utc 2024 0 (scenarioRaw ++ js " ") =
        Outcome.thrown (js "Barcode data is too short (must be at least 60 characters)") ∧
      (∃ r, parseBCBP utc 2024 0 (scenarioRaw ++ js "0") = Outcome.returned r ∧
        r.airline = js "123" ∧ r.checkedIn = false) ∧
      ¬ ∃ c r, parseBCBP utc 2024 0 (scenarioRaw ++ [c]) = Outcome.returned r ∧
        r.checkedIn = true ∧ r.airline = js "AA" := by
  refine ⟨by decide, by decide, ⟨decodedRecord utc 2024 (scenarioRaw ++ js "0") [], by decide,
    by decide, by decide⟩, ?_⟩
  rintro ⟨c, r, hr, hc, _⟩
  cases hw : isWhiteSpace c with
  | true =>
    rw [(parseBCBP_scenario_padded utc 2024 0 c).1 hw] at hr
    exact Outcome.noConfusion hr
  | false =>
    obtain ⟨r2, hr2, _, hc2, _⟩ := (parseBCBP_scenario_padded utc 2024 0 c).2 hw
    rw [hr2] at hr
    injection hr with hr
    rw [← hr, hc2] at hc
    exact Bool.noConfusion hc

/-- C24 (amended): the raw string obtained by concatenating the scenario's
pieces has 59 characters.  Padded to 60 characters with a white-space
character, it is trimmed back to 59 characters and `parseBCBP` fails with the
too-short error; padded with any other character, `parseBCBP` succeeds and the
returned record has `airline = "123"`, `passengerStatus = "0"` and
`checkedIn = false` (origin `KLA`): the pieces do not follow the offset
table. -/
theorem C24_scenario_outcome (zone : TimeZone) (currentYear : Int) (fuel : Nat) (c : Nat) :
    scenarioRaw.length = 59 ∧
      (isWhiteSpace c = true →
        parseBCBP zone currentYear fuel (scenarioRaw ++ [c]) =
          Outcome.thrown (js "Barcode data is too short (must be at least 60 characters)")) ∧
      (isWhiteSpace c = false →
        ∃ r, parseBCBP zone currentYear fuel (scenarioRaw ++ [c]) = Outcome.returned r ∧
          r.airline = js "123" ∧ r.checkedIn = false ∧ r.passengerStatus = js "0" ∧
          r.origin = js "KLA") :=
  ⟨by decide, (parseBCBP_scenario_padded zone currentYear fuel c).1,
    (parseBCBP_scenario_padded zone currentYear fuel c).2⟩

theorem C24_scenario_outcome_witness :
    ∃ r, parseBCBP utc 2024 0 (scenarioRaw ++ js "X") = Outcome.returned r ∧ r.airline = js "123" := by
  obtain ⟨r, hr, ha, _⟩ := (C24_scenario_outcome utc 2024 0 88).2.2 (by decide)
  exact ⟨r, hr, ha⟩

/-! ## The breakdown formatter -/

theorem breakdownFields_bounds : ∀ f ∈ breakdownFields, f.start ≤ f.stop ∧ f.stop ≤ 60 := by
  decide

theorem breakdownLine_eq_tableLine (data : JSString) (field : BreakdownField)
    (h1 : field.start ≤ field.stop) (h2 : field.stop ≤ data.length) :
    breakdownLine data field = tableLine data field := by
  unfold breakdownLine tableLine
  rw [substring_eq_slice data field.start field.stop h1 h2]

theorem breakdown_foldl (data : JSString) (l : List BreakdownField) (init : JSString) :
    l.foldl
        (fun acc field => if data.length ≥ field.stop then acc ++ breakdownLine data field else acc)
        init =
      init ++ ((l.filter (fun f => decide (f.stop ≤ data.length))).map
        (breakdownLine data)).flatten := by
  induction l generalizing init with
  | nil => simp
  | cons f rest ih =>
    rw [List.foldl_cons, ih]
    by_cases h : f.stop ≤ data.length
    · have hf : List.filter (fun f => decide (f.stop ≤ data.length)) (f :: rest) =
          f :: List.filter (fun f => decide (f.stop ≤ data.length)) rest := by
        simp [List.filter_cons, h]
      rw [if_pos h, hf, List.map_cons, List.flatten_cons, List.append_assoc]
    · have hf : List.filter (fun f => decide (f.stop ≤ data.length)) (f :: rest) =
          List.filter (fun f => decide (f.stop ≤ data.length)) rest := by
        simp [List.filter_cons, h]
      rw [if_neg h, hf]

/-- The output for a string of at least 30 units: the header, the lines of the
rows that fit, then the lines for what follows the mandatory block. -/
theorem formatDataBreakdown_of_long (data : JSString) (h30 : 30 ≤ data.length) :
    formatDataBreakdown data =
      js "Field positions breakdown:\n\n" ++
        ((breakdownFields.filter (fun f => decide (f.stop ≤ data.length))).map
          (tableLine data)).flatten ++ versionLines data := by
  have hmap : (breakdownFields.filter (fun f => decide (f.stop ≤ data.length))).map
      (breakdownLine data) =
      (breakdownFields.filter (fun f => decide (f.stop ≤ data.length))).map (tableLine data) := by
    apply List.map_congr_left
    intro f hf
    obtain ⟨hmem, hstop⟩ := List.mem_filter.mp hf
    exact breakdownLine_eq_tableLine data f (breakdownFields_bounds f hmem).1
      (by simpa using hstop)
  have hd : substringFrom data 62 = data.drop 62 := substringFrom_eq_drop data 62
  have c60 : charAt data 60 = slice data 60 61 := charAt_eq_slice data 60
  have c61 : charAt data 61 = slice data 61 62 := charAt_eq_slice data 61
  unfold formatDataBreakdown versionLines
  rw [if_neg (by omega)]
  dsimp only
  rw [breakdown_foldl, hmap, hd, c60, c61]
  by_cases h60 : data.length > 60
  · by_cases h61 : data.length > 61
    · by_cases h62 : data.length > 62
      · rw [if_pos h60, if_pos h61, if_pos h62, if_pos h60, if_pos h61, if_pos h62]
        simp only [List.append_assoc]
      · rw [if_pos h60, if_pos h61, if_neg h62, if_pos h60, if_pos h61, if_neg h62]
        simp only [List.append_assoc, List.append_nil]
    · have h62 : ¬ data.length > 62 := by omega
      rw [if_pos h60, if_neg h61, if_pos h60, if_neg h61, if_neg h62]
      simp only [List.append_assoc, List.append_nil]
  · have h61 : ¬ data.length > 61 := by omega
    have h62 : ¬ data.length > 62 := by omega
    rw [if_neg h60, if_neg h60, if_neg h61, if_neg h62]
    simp only [List.append_nil]

theorem tableLine_infix (raw : JSString) (h30 : 30 ≤ raw.length) (f : BreakdownField)
    (hf : f ∈ breakdownFields) (hstop : f.stop ≤ raw.length) :
    tableLine raw f <:+: formatDataBreakdown raw := by
  rw [formatDataBreakdown_of_long raw h30]
  have hmem : tableLine raw f ∈
      (breakdownFields.filter (fun f => decide (f.stop ≤ raw.length))).map (tableLine raw) :=
    List.mem_map.mpr ⟨f, List.mem_filter.mpr ⟨hf, by simpa using hstop⟩, rfl⟩
  have h1 := List.infix_of_mem_flatten hmem
  exact List.IsInfix.trans h1
    ⟨js "Field positions breakdown:\n\n", versionLines raw, rfl⟩

/-- The rows that fit are all 15 rows exactly when the string has at least 60
units. -/
theorem breakdownFields_filter_eq_self (n : Nat) :
    breakdownFields.filter (fun f => decide (f.stop ≤ n)) = breakdownFields ↔ 60 ≤ n := by
  rw [List.filter_eq_self]
  constructor
  · intro h
    have hlast : ({ start := 58, stop := 60, label := js "Structured Data Size" } :
        BreakdownField) ∈ breakdownFields := by decide
    simpa using h _ hlast
  · intro h f hf
    have := (breakdownFields_bounds f hf).2
    simp only [decide_eq_true_eq]
    omega

theorem versionLines_eq_nil (raw : JSString) : versionLines raw = [] ↔ raw.length ≤ 60 := by
  unfold versionLines
  constructor
  · intro h
    by_contra hc
    rw [if_pos (by omega)] at h
    simp [js] at h
  · intro h
    rw [if_neg (by omega), if_neg (by omega), if_neg (by omega)]
    rfl

set_option maxRecDepth 20000 in
/-- C21 (counterexample): for the 30-character string below the output has
the header and only the five lines of the rows that end at or before offset
30; it has no line for `From Airport`, and the passenger-name line is printed
with the inclusive end, `[2-21]`. -/
theorem C21_thirty_characters_five_lines :
    (js "M1DOE/JANE            EABC123 ").length = 30 ∧
      formatDataBreakdown (js "M1DOE/JANE            EABC123 ") =
        js "Field positions breakdown:\n\n" ++
          js "[0-0] Format Code: \"M\"\n" ++
          js "[1-1] Number of Legs: \"1\"\n" ++
          js "[2-21] Passenger Name: \"DOE/JANE            \"\n" ++
          js "[22-22] Electronic Ticket Indicator: \"E\"\n" ++
          js "[23-29] PNR/Booking Reference: \"ABC123 \"\n" ∧
      includesStr (formatDataBreakdown (js "M1DOE/JANE            EABC123 "))
        (js "From Airport") = false := by
  decide

/-- C21 (amended): `formatDataBreakdown` returns a string for every raw
string.  For a raw string shorter than 30 characters it is the too-short
message with the length.  For a raw string of length at least 30 it is exactly
the header, then one line for each of the mandatory fields of the table whose
range ends within the string (`end ≤ length`) and for no other, in table order,
then the lines for what follows offset 60 (version indicator, version number,
optional tail, each when the string reaches it); each field line has the form
`[start-(end-1)] Label: "value"` with `value = raw[start,end)`.  The fields
that get a line are all 15 fields exactly when the length is at least 60, and
there are lines after them exactly when the length is above 60. -/
theorem C21_breakdown_lines (raw : JSString) :
    (raw.length < 30 →
        formatDataBreakdown raw =
          js "Data too short for breakdown (length: " ++ natToString raw.length ++ js ")") ∧
      (30 ≤ raw.length →
        formatDataBreakdown raw =
          js "Field positions breakdown:\n\n" ++
            ((breakdownFields.filter (fun f => decide (f.stop ≤ raw.length))).map
              (tableLine raw)).flatten ++ versionLines raw) ∧
      (∀ f, f ∈ breakdownFields.filter (fun f => decide (f.stop ≤ raw.length)) ↔
        f ∈ breakdownFields ∧ f.stop ≤ raw.length) ∧
      (breakdownFields.filter (fun f => decide (f.stop ≤ raw.length)) = breakdownFields ↔
        60 ≤ raw.length) ∧
      (versionLines raw = [] ↔ raw.length ≤ 60) ∧
      (30 ≤ raw.length → ∀ f ∈ breakdownFields, f.stop ≤ raw.length →
        tableLine raw f <:+: formatDataBreakdown raw) ∧
      breakdownFields.length = 15 := by
  refine ⟨?_, ?_, ?_, breakdownFields_filter_eq_self raw.length, versionLines_eq_nil raw, ?_,
    by decide⟩
  · intro h
    unfold formatDataBreakdown
    rw [if_pos h]
  · intro h30
    exact formatDataBreakdown_of_long raw h30
  · intro f
    rw [List.mem_filter]
    simp only [decide_eq_true_eq]
  · intro h30 f hf hstop
    exact tableLine_infix raw h30 f hf hstop

set_option maxRecDepth 20000 in
theorem C21_breakdown_lines_witness :
    formatDataBreakdown (js "M1DOE") = js "Data too short for breakdown (length: 5)" ∧
      formatDataBreakdown (js "M1DOE/JANE            EABC123 JFK") =
        js "Field positions breakdown:\n\n" ++
          js "[0-0] Format Code: \"M\"\n" ++
          js "[1-1] Number of Legs: \"1\"\n" ++
          js "[2-21] Passenger Name: \"DOE/JANE            \"\n" ++
          js "[22-22] Electronic Ticket Indicator: \"E\"\n" ++
          js "[23-29] PNR/Booking Reference: \"ABC123 \"\n" ++
          js "[30-32] From Airport: \"JFK\"\n" ∧
      js "[30-32] From Airport: \"JFK\"\n" <:+:
        formatDataBreakdown
          (js "M1DOE/JANE            EABC123 JFKLAXUA 1234 410Y012C0001 100") := by
  refine ⟨((C21_breakdown_lines (js "M1DOE")).1 (by decide)).trans (by decide),
    ((C21_breakdown_lines (js "M1DOE/JANE            EABC123 JFK")).2.1 (by decide)).trans
      (by decide), ?_⟩
  have h := (C21_breakdown_lines
    (js "M1DOE/JANE            EABC123 JFKLAXUA 1234 410Y012C0001 100")).2.2.2.2.2.1 (by decide)
    { start := 30, stop := 33, label := js "From Airport" } (by decide) (by decide)
  have e : tableLine (js "M1DOE/JANE            EABC123 JFKLAXUA 1234 410Y012C0001 100")
      { start := 30, stop := 33, label := js "From Airport" } =
      js "[30-32] From Airport: \"JFK\"\n" := by decide
  rw [e] at h
  exact h

/-- The fields of the decoded record, read over the rows of the breakdown
table. -/
theorem decodedRecord_tableSlices (zone : TimeZone) (currentYear : Int) (t : JSString)
    (fields : List OptionalField) (h60 : 60 ≤ t.length) :
    (decodedRecord zone currentYear t fields).formatCode = tableSlice t 0 ∧
      (decodedRecord zone currentYear t fields).numberOfLegs = tableSlice t 1 ∧
      formatPassengerName (trim (tableSlice t 2)) =
        some (decodedRecord zone currentYear t fields).passengerName ∧
      (decodedRecord zone currentYear t fields).electronicTicketIndicator = tableSlice t 3 ∧
      (decodedRecord zone currentYear t fields).pnr = trim (tableSlice t 4) ∧
      (decodedRecord zone currentYear t fields).origin = tableSlice t 5 ∧
      (decodedRecord zone currentYear t fields).destination = tableSlice t 6 ∧
      (decodedRecord zone currentYear t fields).airline = correctAirline (tableSlice t 7) ∧
      (decodedRecord zone currentYear t fields).flightNumber = trim (tableSlice t 8) ∧
      (decodedRecord zone currentYear t fields).date =
        convertJulianDateToCalendar zone currentYear (tableSlice t 9) ∧
      (decodedRecord zone currentYear t fields).cabinClass = tableSlice t 10 ∧
      (decodedRecord zone currentYear t fields).seat = formatSeat (trim (tableSlice t 11)) ∧
      (decodedRecord zone currentYear t fields).checkinSequenceNumber = trim (tableSlice t 12) ∧
      (decodedRecord zone currentYear t fields).passengerStatus = tableSlice t 13 ∧
      (decodedRecord zone currentYear t fields).structuredDataSize = tableSlice t 14 := by
  have s2 : substring t 2 22 = tableSlice t 2 :=
    substring_lit t 2 22 2 22 rfl rfl (by omega) (by omega)
  have s4 : substring t 23 30 = tableSlice t 4 :=
    substring_lit t 23 30 23 30 rfl rfl (by omega) (by omega)
  have s5 : substring t 30 33 = tableSlice t 5 :=
    substring_lit t 30 33 30 33 rfl rfl (by omega) (by omega)
  have s6 : substring t 33 36 = tableSlice t 6 :=
    substring_lit t 33 36 33 36 rfl rfl (by omega) (by omega)
  have s7 : substring t 36 39 = tableSlice t 7 :=
    substring_lit t 36 39 36 39 rfl rfl (by omega) (by omega)
  have s8 : substring t 39 44 = tableSlice t 8 :=
    substring_lit t 39 44 39 44 rfl rfl (by omega) (by omega)
  have s9 : substring t 44 47 = tableSlice t 9 :=
    substring_lit t 44 47 44 47 rfl rfl (by omega) (by omega)
  have s11 : substring t 48 52 = tableSlice t 11 :=
    substring_lit t 48 52 48 52 rfl rfl (by omega) (by omega)
  have s12 : substring t 52 57 = tableSlice t 12 :=
    substring_lit t 52 57 52 57 rfl rfl (by omega) (by omega)
  have s14 : substring t 58 60 = tableSlice t 14 :=
    substring_lit t 58 60 58 60 rfl rfl (by omega) (by omega)
  have c0 : charAt t 0 = tableSlice t 0 := charAt_eq_slice t 0
  have c1 : charAt t 1 = tableSlice t 1 := charAt_eq_slice t 1
  have c3 : charAt t 22 = tableSlice t 3 := charAt_eq_slice t 22
  have c10 : charAt t 47 = tableSlice t 10 := charAt_eq_slice t 47
  have c13 : charAt t 57 = tableSlice t 13 := charAt_eq_slice t 57
  obtain ⟨name, hname⟩ := formatPassengerName_isSome (trim (tableSlice t 2))
  unfold decodedRecord
  dsimp only
  rw [s2, s4, s5, s6, s7, s8, s9, s11, s12, s14, c0, c1, c3, c10, c13, hname, Option.getD_some]
  exact ⟨rfl, rfl, rfl, rfl, rfl, rfl, rfl, rfl, rfl, rfl, rfl, rfl, rfl, rfl, rfl⟩

/-- C22: the table of `formatDataBreakdown` has the 15 ranges `[0,1)`, `[1,2)`,
`[2,22)`, `[22,23)`, `[23,30)`, `[30,33)`, `[33,36)`, `[36,39)`, `[39,44)`,
`[44,47)`, `[47,48)`, `[48,52)`, `[52,57)`, `[57,58)`, `[58,60)`; they tile
`[0,60)` (first start 0, each start equal to the previous end, last end 60, no
empty range); and for every decodable input each of the 15 mandatory fields of
the record is read from the slice of the trimmed string over the row of the
same rank.  A record is returned unless the optional-field loop is still
running when the fuel is used up, which takes fuel below half the length of `t`
or a `-` in the tail `t[62..]`. -/
theorem C22_offset_tables_agree (zone : TimeZone) (currentYear : Int) (fuel : Nat) (raw : JSString)
    (h60 : 60 ≤ (trim raw).length) (hM : (trim raw).head? = some 77) :
    breakdownFields.map (fun f => (f.start, f.stop)) =
        [(0, 1), (1, 2), (2, 22), (22, 23), (23, 30), (30, 33), (33, 36), (36, 39), (39, 44),
          (44, 47), (47, 48), (48, 52), (52, 57), (57, 58), (58, 60)] ∧
      (breakdownFields.head?.map (fun f => f.start) = some 0 ∧
        breakdownFields.tail.map (fun f => f.start) =
          breakdownFields.dropLast.map (fun f => f.stop) ∧
        breakdownFields.getLast?.map (fun f => f.stop) = some 60 ∧
        ∀ f ∈ breakdownFields, f.start < f.stop) ∧
      ((parseBCBP zone currentYear fuel raw = Outcome.unfinished ∧ 62 < (trim raw).length ∧
          parseOptionalFields fuel ((trim raw).drop 62) = none ∧
          (2 * fuel < (trim raw).length ∨ 45 ∈ (trim raw).drop 62)) ∨
        ∃ r, parseBCBP zone currentYear fuel raw = Outcome.returned r ∧
          r.formatCode = tableSlice (trim raw) 0 ∧
          r.numberOfLegs = tableSlice (trim raw) 1 ∧
          formatPassengerName (trim (tableSlice (trim raw) 2)) = some r.passengerName ∧
          r.electronicTicketIndicator = tableSlice (trim raw) 3 ∧
          r.pnr = trim (tableSlice (trim raw) 4) ∧
          r.origin = tableSlice (trim raw) 5 ∧
          r.destination = tableSlice (trim raw) 6 ∧
          r.airline = correctAirline (tableSlice (trim raw) 7) ∧
          r.flightNumber = trim (tableSlice (trim raw) 8) ∧
          r.date = convertJulianDateToCalendar zone currentYear (tableSlice (trim raw) 9) ∧
          r.cabinClass = tableSlice (trim raw) 10 ∧
          r.seat = formatSeat (trim (tableSlice (trim raw) 11)) ∧
          r.checkinSequenceNumber = trim (tableSlice (trim raw) 12) ∧
          r.passengerStatus = tableSlice (trim raw) 13 ∧
          r.structuredDataSize = tableSlice (trim raw) 14) := by
  refine ⟨by decide, ⟨by decide, by decide, by decide, by decide⟩, ?_⟩
  rcases parseBCBP_outcome zone currentYear fuel raw h60 hM with h | ⟨fields, hr, _⟩
  · exact Or.inl h
  · exact Or.inr ⟨_, hr, decodedRecord_tableSlices zone currentYear (trim raw) fields h60⟩

theorem C22_offset_tables_agree_witness :
    ∃ r, parseBCBP utc 2024 0 (js "M1DOE/JANE            EABC123 JFKLAXUA 1234 410Y012C0001 100") =
        Outcome.returned r ∧ r.destination = js "LAX" := by
  rcases (C22_offset_tables_agree utc 2024 0
      (js "M1DOE/JANE            EABC123 JFKLAXUA 1234 410Y012C0001 100")
      (by decide) (by decide)).2.2 with h | ⟨r, hr, _, _, _, _, _, _, hd, _⟩
  · exact absurd h.2.1 (by decide)
  · exact ⟨r, hr, by rw [hd]; decide⟩

/-! ## Calendar dates of the first 99 days -/

theorem monthLengths_eq (y : Int) : monthLengths y = monthLengthsOf (isLeapYear y) := rfl

set_option maxRecDepth 20000 in
/-- The walk over the month lengths, on the first 99 days of a year. -/
theorem monthDayAux_first_days :
    ∀ leap next : Bool, ∀ idx, idx < 99 →
      (monthDayAux (monthLengthsOf leap ++ monthLengthsOf next) 0 idx).1 ≤ 3 ∧
      1 ≤ (monthDayAux (monthLengthsOf leap ++ monthLengthsOf next) 0 idx).2 ∧
      (monthDayAux (monthLengthsOf leap ++ monthLengthsOf next) 0 idx).2 ≤
        (monthLengthsOf leap).getD
          (monthDayAux (monthLengthsOf leap ++ monthLengthsOf next) 0 idx).1 0 ∧
      ((monthLengthsOf leap).take
          (monthDayAux (monthLengthsOf leap ++ monthLengthsOf next) 0 idx).1).sum +
        (monthDayAux (monthLengthsOf leap ++ monthLengthsOf next) 0 idx).2 = idx + 1 ∧
      ((monthDayAux (monthLengthsOf leap ++ monthLengthsOf next) 0 idx).1 = 3 →
        (monthDayAux (monthLengthsOf leap ++ monthLengthsOf next) 0 idx).2 ≤ 9) := by
  decide

/-- What `calendarDayString` prints for one of the first 99 days of a year:
the month and day of that day of the year the `Date` was built for, between
January 1 and April 9. -/
theorem calendarDayString_first_days (year : Int) (idx : Nat) (h : idx < 99) :
    ∃ m d, IsNthDayOfYear (dateYear year) (idx + 1) m d ∧
      calendarDayString year idx = monthNames.getD m [] ++ js " " ++ natToString d ∧
      m ≤ 3 ∧ (m = 3 → d ≤ 9) := by
  obtain ⟨h1, h2, h3, h4, h5⟩ :=
    monthDayAux_first_days (isLeapYear (dateYear year)) (isLeapYear (dateYear year + 1)) idx h
  refine ⟨(monthDayAux (monthLengths (dateYear year) ++ monthLengths (dateYear year + 1)) 0 idx).1,
    (monthDayAux (monthLengths (dateYear year) ++ monthLengths (dateYear year + 1)) 0 idx).2,
    ?_, ?_, ?_, ?_⟩
  · unfold IsNthDayOfYear daysBeforeMonth
    rw [monthLengths_eq, monthLengths_eq]
    exact ⟨by omega, h2, h3, h4⟩
  · unfold calendarDayString
    dsimp only
    rw [monthLengths_eq, monthLengths_eq, Nat.mod_eq_of_lt (by omega)]
  · rw [monthLengths_eq, monthLengths_eq]
    exact h1
  · rw [monthLengths_eq, monthLengths_eq]
    exact h5

theorem digitsValue_two (d1 d2 : Nat) (h1 : isDigit d1 = true) (h2 : isDigit d2 = true) :
    digitsValue 10 [d1, d2] = (d1 - 48) * 10 + (d2 - 48) := by
  have e : [d1, d2] = [d1] ++ [d2] := rfl
  rw [e, digitsValue_snoc, digitValue_of_isDigit h2, Option.getD_some]
  have e1 : [d1] = [] ++ [d1] := rfl
  rw [e1, digitsValue_snoc, digitValue_of_isDigit h1, Option.getD_some]
  simp [digitsValue]

theorem digitsValue_one (d : Nat) (h : isDigit d = true) : digitsValue 10 [d] = d - 48 := by
  have e1 : [d] = [] ++ [d] := rfl
  rw [e1, digitsValue_snoc, digitValue_of_isDigit h, Option.getD_some]
  simp [digitsValue]

/-- The converter on a fragment of three decimal digits with a day part of
value at least 1. -/
theorem convertJulianDateToCalendar_digits (zone : TimeZone) (currentYear : Int) (d0 d1 d2 : Nat)
    (h0 : isDigit d0 = true) (h1 : isDigit d1 = true) (h2 : isDigit d2 = true)
    (hn : 1 ≤ digitsValue 10 [d1, d2]) :
    convertJulianDateToCalendar zone currentYear [d0, d1, d2] =
      printedDate zone (resolveFullYear currentYear ((d0 - 48 : Nat) : Int))
        (digitsValue 10 [d1, d2] : Nat) := by
  have b1 : 48 ≤ d1 ∧ d1 ≤ 57 := by simpa [isDigit] using h1
  have b2 : 48 ≤ d2 ∧ d2 ≤ 57 := by simpa [isDigit] using h2
  have hv := digitsValue_two d1 d2 h1 h2
  have hsub : substringFrom [d0, d1, d2] 1 = [d1, d2] := by
    have := substringFrom_eq_drop [d0, d1, d2] 1
    simpa using this
  have hchar : charAt [d0, d1, d2] 0 = [d0] := rfl
  have hday : parseInt [d1, d2] 10 = some (digitsValue 10 [d1, d2] : Int) :=
    parseInt_digits [d1, d2] (by simp) (by
      intro x hx
      simp only [List.mem_cons, List.mem_singleton, List.not_mem_nil, or_false] at hx
      rcases hx with hx | hx <;> rw [hx] <;> assumption)
  have hyear : parseInt [d0] 10 = some ((d0 - 48 : Nat) : Int) := by
    rw [parseInt_digits [d0] (by simp) (by
      intro x hx
      simp only [List.mem_singleton] at hx
      rw [hx]
      exact h0), digitsValue_one d0 h0]
  rw [convertJulianDateToCalendar_of_length zone currentYear [d0, d1, d2] rfl, hsub, hchar, hday]
  dsimp only
  rw [if_neg (by omega), hyear]

theorem natToString_no_leading_zero :
    ∀ d, d < 32 → 1 ≤ d → (natToString d).head? ≠ some 48 := by
  decide

theorem calendarDayString_day_60 (year : Int) :
    calendarDayString year 59 =
      if isLeapYear (dateYear year) = true then js "February 29" else js "March 1" := by
  unfold calendarDayString
  dsimp only
  rw [monthLengths_eq, monthLengths_eq]
  cases isLeapYear (dateYear year) <;> cases isLeapYear (dateYear year + 1) <;> decide

/-! ## Claims on the date converter -/

/-- C26 (counterexample): in the zone America/Sao_Paulo with reference year
2026 the fragment `960` resolves to year 2019, not a leap year, whose 60th day
is March 1; the zone put its clock back one hour on 17 February 2019, so 59
times 24 hours after local midnight of 1 January is 23:00 on 28 February, and
the converter returns `February 28`.  And in UTC with reference year 5 the
fragment `060` resolves to year 0, a leap year of the Gregorian calendar whose
60th day is February 29; the converter returns `March 1`, the 60th day of
1900. -/
theorem C26_clock_put_back_prints_previous_day :
    (resolveFullYear 2026 9 = 2019 ∧ isLeapYear 2019 = false ∧
      (2 < 12 ∧ 1 ≤ 1 ∧ 1 ≤ (monthLengths 2019).getD 2 0 ∧ daysBeforeMonth 2019 2 + 1 = 60) ∧
      monthDayString 2 1 = js "March 1" ∧
      clockShift saoPaulo2019 2019 60 = -3600000 ∧
      convertJulianDateToCalendar saoPaulo2019 2026 (js "960") = js "February 28") ∧
    (resolveFullYear 5 0 = 0 ∧ isLeapYear 0 = true ∧
      (1 < 12 ∧ 1 ≤ 29 ∧ 29 ≤ (monthLengths 0).getD 1 0 ∧ daysBeforeMonth 0 1 + 29 = 60) ∧
      convertJulianDateToCalendar utc 5 (js "060") = js "March 1" ∧
      convertJulianDateToCalendar utc 5 (js "060") ≠ js "February 29") := by
  decide

/-- C26 (amended): for every time zone, every reference year and every
3-character fragment made of a decimal year digit followed by two decimal
digits denoting a day-of-year `n ≥ 1`, with `y` the resolved year:
when one of the two instants the converter builds (local midnight of 1 January,
and `n - 1` times 24 hours later) is outside the range of a `Date`, the result
is `Invalid Date`.  Otherwise, when the zone's clock at the later instant is
not behind, and less than a day ahead of, the clock that midnight was read
with, the result is the English month name, a space and the day without
leading zero of the `n`-th day, counted from January 1 as day 1 under the
Gregorian calendar, of the year the `Date` is built for (`y` when `y < 0` or
`y > 99`, `1900 + y` when `0 ≤ y ≤ 99`), so `n = 60` gives `February 29` when
that year is a leap year and `March 1` otherwise; and when the zone put its
clock back in between, by at most a day, the result is the `(n - 1)`-th day of
that year (`n ≥ 2`). -/
theorem C26_nth_day_of_year (zone : TimeZone) (currentYear : Int) (d0 d1 d2 : Nat) (y : Int)
    (n : Nat) (h0 : isDigit d0 = true) (h1 : isDigit d1 = true) (h2 : isDigit d2 = true)
    (hy : y = resolveFullYear currentYear ((d0 - 48 : Nat) : Int))
    (hn : n = digitsValue 10 [d1, d2]) (hn1 : 1 ≤ n) :
    (¬ InDateRange zone y n →
        convertJulianDateToCalendar zone currentYear [d0, d1, d2] = js "Invalid Date") ∧
      (InDateRange zone y n → 0 ≤ clockShift zone y n → clockShift zone y n < msPerDay →
        (∃ m d, IsNthDayOfYear (dateYear y) n m d ∧
          convertJulianDateToCalendar zone currentYear [d0, d1, d2] =
            monthNames.getD m [] ++ js " " ++ natToString d ∧
          (natToString d).head? ≠ some 48) ∧
        (n = 60 →
          convertJulianDateToCalendar zone currentYear [d0, d1, d2] =
            if isLeapYear (dateYear y) = true then js "February 29" else js "March 1")) ∧
      (InDateRange zone y n → -msPerDay ≤ clockShift zone y n → clockShift zone y n < 0 →
        2 ≤ n →
        ∃ m d, IsNthDayOfYear (dateYear y) (n - 1) m d ∧
          convertJulianDateToCalendar zone currentYear [d0, d1, d2] =
            monthNames.getD m [] ++ js " " ++ natToString d ∧
          (natToString d).head? ≠ some 48) ∧
      ((y < 0 ∨ 99 < y) → dateYear y = y) ∧
      ((0 ≤ y ∧ y ≤ 99) → dateYear y = 1900 + y) := by
  have b1 : 48 ≤ d1 ∧ d1 ≤ 57 := by simpa [isDigit] using h1
  have b2 : 48 ≤ d2 ∧ d2 ≤ 57 := by simpa [isDigit] using h2
  have hv := digitsValue_two d1 d2 h1 h2
  have hconv := convertJulianDateToCalendar_digits zone currentYear d0 d1 d2 h0 h1 h2
    (by omega)
  rw [← hy, ← hn] at hconv
  have hzero : ∀ k m d, IsNthDayOfYear (dateYear y) k m d → (natToString d).head? ≠ some 48 := by
    intro k m d hnth
    have hl : ∀ i, i < 12 → (monthLengths (dateYear y)).getD i 0 ≤ 31 := by
      rw [monthLengths_eq]
      cases isLeapYear (dateYear y) <;> decide
    have hle := hl m hnth.1
    have hd31 := hnth.2.2.1
    exact natToString_no_leading_zero d (by omega) hnth.2.1
  refine ⟨?_, ?_, ?_, ?_, ?_⟩
  · intro hr
    rw [hconv, printedDate_out_of_range zone y n hr]
  · intro hr hs0 hs1
    have hprint := printedDate_steady zone y n hr (by omega) (by omega) hs0 hs1
    have e : ((n : Int) - 1).toNat = n - 1 := by omega
    rw [e] at hprint
    constructor
    · obtain ⟨m, d, hnth, hstr, _, _⟩ := calendarDayString_first_days y (n - 1) (by omega)
      have e2 : n - 1 + 1 = n := by omega
      rw [e2] at hnth
      exact ⟨m, d, hnth, by rw [hconv, hprint, hstr], hzero n m d hnth⟩
    · intro h60
      rw [hconv, hprint, h60]
      exact calendarDayString_day_60 y
  · intro hr hs0 hs1 hn2
    have hprint := printedDate_clock_back zone y n hr (by omega) (by omega) hs0 hs1
    have e : ((n : Int) - 2).toNat = n - 2 := by omega
    rw [e] at hprint
    obtain ⟨m, d, hnth, hstr, _, _⟩ := calendarDayString_first_days y (n - 2) (by omega)
    have e2 : n - 2 + 1 = n - 1 := by omega
    rw [e2] at hnth
    exact ⟨m, d, hnth, by rw [hconv, hprint, hstr], hzero (n - 1) m d hnth⟩
  · intro hy2
    unfold dateYear
    rw [if_neg (by omega)]
  · intro hy2
    unfold dateYear
    rw [if_pos hy2]

theorem C26_nth_day_of_year_witness :
    convertJulianDateToCalendar utc 2024 (js "460") = js "February 29" ∧
      convertJulianDateToCalendar utc 2024 (js "360") = js "March 1" ∧
      (∃ m d, IsNthDayOfYear 2019 59 m d ∧
        convertJulianDateToCalendar saoPaulo2019 2026 (js "960") =
          monthNames.getD m [] ++ js " " ++ natToString d) ∧
      convertJulianDateToCalendar utc 275760 (js "101") = js "Invalid Date" := by
  refine ⟨?_, ?_, ?_, ?_⟩
  · exact (((C26_nth_day_of_year utc 2024 52 54 48 2024 60 (by decide) (by decide) (by decide)
      (by decide) (by decide) (by decide)).2.1 (by decide) (by decide) (by decide)).2
      (by decide)).trans (by decide)
  · exact (((C26_nth_day_of_year utc 2024 51 54 48 2023 60 (by decide) (by decide) (by decide)
      (by decide) (by decide) (by decide)).2.1 (by decide) (by decide) (by decide)).2
      (by decide)).trans (by decide)
  · obtain ⟨m, d, hnth, hstr, _⟩ :=
      (C26_nth_day_of_year saoPaulo2019 2026 57 54 48 2019 60 (by decide) (by decide)
        (by decide) (by decide) (by decide) (by decide)).2.2.1 (by decide) (by decide)
        (by decide) (by decide)
    exact ⟨m, d, hnth, hstr⟩
  · exact (C26_nth_day_of_year utc 275760 49 48 49 275761 1 (by decide) (by decide) (by decide)
      (by decide) (by decide) (by decide)).1 (by decide)

/-! ## Bounds on the parsed day of year -/

theorem digitsValue_lt_pow (z : JSString) (hz : ∀ x ∈ z, isDigit x = true) :
    digitsValue 10 z < 10 ^ z.length := by
  induction z using List.reverseRecOn with
  | nil => simp [digitsValue]
  | append_singleton ds c ih =>
    have hc : isDigit c = true := hz c (by simp)
    have hc2 : 48 ≤ c ∧ c ≤ 57 := by simpa [isDigit] using hc
    have hds := ih (fun x hx => hz x (by simp [hx]))
    rw [digitsValue_snoc, digitValue_of_isDigit hc, Option.getD_some, List.length_append,
      List.length_singleton, Nat.pow_succ]
    omega

theorem stripSign_length (l : JSString) : (stripSign l).2.length ≤ l.length := by
  unfold stripSign
  split <;> simp

/-- Radix-10 `parseInt` of a string of `k` units reads a number below `10^k`. -/
theorem parseInt_ten_lt (s : JSString) (v : Int) (h : parseInt s 10 = some v) :
    v < (10 : Int) ^ s.length := by
  unfold parseInt at h
  rcases hp : stripSign (s.dropWhile isWhiteSpace) with ⟨neg, s1⟩
  rw [hp] at h
  dsimp only at h
  rw [stripHexPrefix_ten] at h
  have hfun : isRadixDigit 10 = isDigit := funext isRadixDigit_ten
  rw [hfun] at h
  have hlen1 : s1.length ≤ s.length := by
    have h1 := stripSign_length (s.dropWhile isWhiteSpace)
    rw [hp] at h1
    have h2 := (List.dropWhile_sublist isWhiteSpace (l := s)).length_le
    exact Nat.le_trans h1 h2
  have hlen2 : (s1.takeWhile isDigit).length ≤ s.length :=
    Nat.le_trans (List.takeWhile_prefix isDigit).length_le hlen1
  have hval := digitsValue_lt_pow (s1.takeWhile isDigit) (fun x hx => List.mem_takeWhile_imp hx)
  have hpow : 10 ^ (s1.takeWhile isDigit).length ≤ 10 ^ s.length :=
    Nat.pow_le_pow_right (by decide) hlen2
  have hnat : digitsValue 10 (s1.takeWhile isDigit) < 10 ^ s.length := Nat.lt_of_lt_of_le hval hpow
  have hcast : ((digitsValue 10 (s1.takeWhile isDigit) : Nat) : Int) < (10 : Int) ^ s.length := by
    exact_mod_cast hnat
  split_ifs at h with h1 h2
  · simp only [Option.some.injEq] at h
    rw [← h]
    have : (0 : Int) ≤ (digitsValue 10 (s1.takeWhile isDigit) : Nat) := Int.ofNat_nonneg _
    omega
  · simp only [Option.some.injEq] at h
    rw [← h]
    exact hcast

/-! ## Month and day strings -/

theorem takeWhile_append_stop (p : Nat → Bool) (l : JSString) (a : Nat) (rest : JSString)
    (hl : ∀ x ∈ l, p x = true) (ha : p a = false) : (l ++ a :: rest).takeWhile p = l := by
  induction l with
  | nil => simp [List.takeWhile, ha]
  | cons b l2 ih =>
    have hb : p b = true := hl b (by simp)
    rw [List.cons_append, List.takeWhile_cons, if_pos hb, ih (fun x hx => hl x (by simp [hx]))]

theorem monthNames_no_space :
    ∀ i, i < 12 → ∀ x ∈ monthNames.getD i [], (x != 32) = true := by
  decide

theorem monthNames_injective :
    ∀ i, i < 12 → ∀ j, j < 12 → monthNames.getD i [] = monthNames.getD j [] → i = j := by
  decide

theorem natToString_injective_small :
    ∀ d, d < 32 → ∀ e, e < 32 → natToString d = natToString e → d = e := by
  decide

theorem monthDayString_injective (m d m2 d2 : Nat) (hm : m < 12) (hm2 : m2 < 12) (hd : d < 32)
    (hd2 : d2 < 32) (h : monthDayString m d = monthDayString m2 d2) : m = m2 ∧ d = d2 := by
  unfold monthDayString at h
  have hsp : js " " = [32] := rfl
  rw [hsp, List.append_assoc, List.append_assoc] at h
  have h1 := congrArg (List.takeWhile (fun x => x != 32)) h
  rw [List.singleton_append, List.singleton_append,
    takeWhile_append_stop _ _ 32 _ (monthNames_no_space m hm) rfl,
    takeWhile_append_stop _ _ 32 _ (monthNames_no_space m2 hm2) rfl] at h1
  have hmm := monthNames_injective m hm m2 hm2 h1
  subst hmm
  have h2 := List.append_cancel_left h
  simp only [List.singleton_append, List.cons.injEq, true_and] at h2
  exact ⟨rfl, natToString_injective_small d hd d2 hd2 h2⟩

theorem monthLengths_getD_le (y : Int) : ∀ k, k < 12 → (monthLengths y).getD k 0 ≤ 31 := by
  rw [monthLengths_eq]
  cases isLeapYear y <;> decide

theorem monthDayString_head (m d : Nat) (hm : m < 12) : (monthDayString m d).head? ≠ some 73 := by
  unfold monthDayString
  obtain ⟨hne, hh⟩ := monthNames_head m hm
  rw [List.append_assoc, List.head?_append_of_ne_nil _ hne]
  exact hh

/-- The three kinds of result of the converter on a 3-unit fragment, in a zone
that moves its clock by less than a day. -/
theorem convertJulianDateToCalendar_range (zone : TimeZone) (hz : ClockWithinADay zone)
    (currentYear : Int) (s : JSString) (h3 : s.length = 3) :
    convertJulianDateToCalendar zone currentYear s = js "Invalid date" ∨
      convertJulianDateToCalendar zone currentYear s = js "Invalid Date" ∨
      ∃ m d, convertJulianDateToCalendar zone currentYear s = monthDayString m d ∧ 1 ≤ d ∧
        (m < 3 ∧ d ≤ 31 ∨ m = 3 ∧ d ≤ 9) := by
  have hsub : substringFrom s 1 = s.drop 1 := by
    have := substringFrom_eq_drop s 1
    simpa using this
  rw [convertJulianDateToCalendar_of_length zone currentYear s h3]
  cases hd : parseInt (substringFrom s 1) 10 with
  | none => exact Or.inl rfl
  | some day =>
    dsimp only
    by_cases hr : day < 1 ∨ day > 366
    · rw [if_pos hr]
      exact Or.inl rfl
    · rw [if_neg hr]
      cases parseInt (charAt s 0) 10 with
      | none => exact Or.inr (Or.inl rfl)
      | some digit =>
        dsimp only
        have hlt := parseInt_ten_lt (substringFrom s 1) day hd
        rw [hsub, List.length_drop, h3] at hlt
        have hlt2 : day < 100 := by simpa using hlt
        by_cases hrange : InDateRange zone (resolveFullYear currentYear digit) day
        · obtain ⟨hs0, hs1, hs2⟩ := hz (resolveFullYear currentYear digit) day (by omega) (by omega)
          have hbound : ∀ idx, idx < 99 →
              ∃ m d, calendarDayString (resolveFullYear currentYear digit) idx =
                  monthDayString m d ∧ 1 ≤ d ∧ (m < 3 ∧ d ≤ 31 ∨ m = 3 ∧ d ≤ 9) := by
            intro idx hidx
            obtain ⟨m, d, hnth, hstr, hm, hm3⟩ :=
              calendarDayString_first_days (resolveFullYear currentYear digit) idx hidx
            have hle :=
              monthLengths_getD_le (dateYear (resolveFullYear currentYear digit)) m hnth.1
            have hd31 := hnth.2.2.1
            refine ⟨m, d, hstr, hnth.2.1, ?_⟩
            by_cases h3m : m = 3
            · exact Or.inr ⟨h3m, hm3 h3m⟩
            · exact Or.inl ⟨by omega, by omega⟩
          by_cases hneg : 0 ≤ clockShift zone (resolveFullYear currentYear digit) day
          · rw [printedDate_steady zone _ day hrange (by omega) (by omega) hneg hs1]
            exact Or.inr (Or.inr (hbound _ (by omega)))
          · have hday2 : 2 ≤ day := by
              by_contra hc
              have h1 : day = 1 := by omega
              exact hneg (hs2 h1)
            rw [printedDate_clock_back zone _ day hrange hday2 (by omega) hs0 (by omega)]
            exact Or.inr (Or.inr (hbound _ (by omega)))
        · rw [printedDate_out_of_range zone _ day hrange]
          exact Or.inr (Or.inl rfl)

theorem sydney2023_clockWithinADay : ClockWithinADay sydney2023 :=
  clockBackZone_clockWithinADay 39600000 36000000 1680364800000 (by decide) (by decide)

/-- C29: for every 3-character fragment the day-of-year that radix-10
`parseInt` reads from the two characters after the first is at most 99, so it
is never greater than 366; and, in every time zone that moves its clock by less
than a day between local midnight of 1 January and the 98 days after it, for
every decodable input the record's `date` is `Invalid date`, or the engine's
`Invalid Date`, or the month-and-day string of a date between January 1 and
April 9: it is never the string of a date from April 10 to December 31.  A
record is returned unless the optional-field loop is still running when the
fuel is used up, which takes fuel below half the length of `t` or a `-` in the
tail `t[62..]`. -/
theorem C29_dates_stop_at_April_9 (zone : TimeZone) (hz : ClockWithinADay zone)
    (currentYear : Int) (fuel : Nat) (raw : JSString)
    (h60 : 60 ≤ (trim raw).length) (hM : (trim raw).head? = some 77) :
    (∀ s : JSString, s.length = 3 → ∀ day, parseInt (substringFrom s 1) 10 = some day →
        day ≤ 99 ∧ ¬ day > 366) ∧
      ((parseBCBP zone currentYear fuel raw = Outcome.unfinished ∧ 62 < (trim raw).length ∧
          parseOptionalFields fuel ((trim raw).drop 62) = none ∧
          (2 * fuel < (trim raw).length ∨ 45 ∈ (trim raw).drop 62)) ∨
        ∃ r, parseBCBP zone currentYear fuel raw = Outcome.returned r ∧
          r.date = convertJulianDateToCalendar zone currentYear (slice (trim raw) 44 47) ∧
          (r.date = js "Invalid date" ∨ r.date = js "Invalid Date" ∨
            ∃ m d, r.date = monthDayString m d ∧ 1 ≤ d ∧ (m < 3 ∧ d ≤ 31 ∨ m = 3 ∧ d ≤ 9)) ∧
          ∀ m d, m < 12 → 1 ≤ d → d ≤ 31 → r.date = monthDayString m d →
            m < 3 ∨ (m = 3 ∧ d ≤ 9)) := by
  constructor
  · intro s h3 day hd
    have hsub : substringFrom s 1 = s.drop 1 := by
      have := substringFrom_eq_drop s 1
      simpa using this
    have hlt := parseInt_ten_lt (substringFrom s 1) day hd
    rw [hsub, List.length_drop, h3] at hlt
    have hlt2 : day < 100 := by simpa using hlt
    exact ⟨by omega, by omega⟩
  · rcases parseBCBP_outcome zone currentYear fuel raw h60 hM with h | ⟨fields, hr, _⟩
    · exact Or.inl h
    · have hs : substring (trim raw) 44 47 = slice (trim raw) 44 47 :=
        substring_lit (trim raw) 44 47 44 47 rfl rfl (by omega) (by omega)
      have hlen : (slice (trim raw) 44 47).length = 3 :=
        slice_length (trim raw) 44 47 (by omega) (by omega)
      have hdate : (decodedRecord zone currentYear (trim raw) fields).date =
          convertJulianDateToCalendar zone currentYear (slice (trim raw) 44 47) := by
        unfold decodedRecord
        dsimp only
        rw [hs]
      have hrange :=
        convertJulianDateToCalendar_range zone hz currentYear (slice (trim raw) 44 47) hlen
      rw [← hdate] at hrange
      refine Or.inr ⟨_, hr, hdate, hrange, ?_⟩
      intro m d hm hd1 hd31 he
      rcases hrange with h1 | h1 | ⟨m2, d2, h1, hd2, hr2⟩
      · exfalso
        apply monthDayString_head m d hm
        rw [← he, h1]
        rfl
      · exfalso
        apply monthDayString_head m d hm
        rw [← he, h1]
        rfl
      · rw [h1] at he
        have hm2 : m2 < 12 := by omega
        have hd232 : d2 < 32 := by omega
        obtain ⟨e1, e2⟩ := monthDayString_injective m2 d2 m d hm2 hm hd232 (by omega) he
        subst e1 e2
        rcases hr2 with h | h
        · exact Or.inl h.1
        · exact Or.inr h

theorem C29_dates_stop_at_April_9_witness :
    (∃ r, parseBCBP sydney2023 2023 0
          (js "M1DOE/JANE            EABC123 JFKLAXUA 1234 399Y012C0001 100") =
        Outcome.returned r ∧ r.date = js "April 8") ∧
      ∃ r, parseBCBP utc 2023 0
          (js "M1DOE/JANE            EABC123 JFKLAXUA 1234 399Y012C0001 100") =
        Outcome.returned r ∧ r.date = js "April 9" := by
  constructor
  · rcases (C29_dates_stop_at_April_9 sydney2023 sydney2023_clockWithinADay 2023 0
        (js "M1DOE/JANE            EABC123 JFKLAXUA 1234 399Y012C0001 100")
        (by decide) (by decide)).2 with h | ⟨r, hr, hd, _⟩
    · exact absurd h.2.1 (by decide)
    · exact ⟨r, hr, by rw [hd]; decide⟩
  · rcases (C29_dates_stop_at_April_9 utc utc_clockWithinADay 2023 0
        (js "M1DOE/JANE            EABC123 JFKLAXUA 1234 399Y012C0001 100")
        (by decide) (by decide)).2 with h | ⟨r, hr, hd, _⟩
    · exact absurd h.2.1 (by decide)
    · exact ⟨r, hr, by rw [hd]; decide⟩

/-! ## Round trip of the length-prefixed encoding -/

set_option maxRecDepth 20000 in
theorem parseInt_hex2 :
    ∀ upper : Bool, ∀ n, n < 256 → parseInt (hex2 upper n) 16 = some (n : Int) := by
  decide

theorem slice_append_mid (front mid back : JSString) :
    slice (front ++ (mid ++ back)) front.length (front.length + mid.length) = mid := by
  unfold slice
  rw [List.take_append, List.take_left', List.drop_left]
  rfl

/-- The loop on an encoded tail, started after `front` with `acc` pushed. -/
theorem parseOptionalFieldsLoop_encode (fs : List (Bool × JSString)) :
    ∀ (front : JSString) (fuel : Nat) (acc : List OptionalField),
      (∀ f ∈ fs, f.2.length ≤ 255) → fs.length < fuel →
      parseOptionalFieldsLoop (front ++ encodeFields fs) fuel (front.length : Int) acc =
        some (acc ++ fs.map (fun f => { data := f.2, description := identifyField f.2 })) := by
  induction fs with
  | nil =>
    intro front fuel acc _ hfuel
    obtain ⟨f, rfl⟩ : ∃ f, fuel = f + 1 := ⟨fuel - 1, by simp at hfuel; omega⟩
    rw [parseOptionalFieldsLoop, if_neg (by simp [encodeFields])]
    simp
  | cons head rest ih =>
    intro front fuel acc hlen hfuel
    obtain ⟨upper, d⟩ := head
    obtain ⟨f, rfl⟩ : ∃ f, fuel = f + 1 := ⟨fuel - 1, by simp at hfuel; omega⟩
    have hd : d.length ≤ 255 := hlen (upper, d) (by simp)
    have hh : (hex2 upper d.length).length = 2 := rfl
    have htail : front ++ encodeFields ((upper, d) :: rest) =
        front ++ (hex2 upper d.length ++ (d ++ encodeFields rest)) := by
      simp [encodeFields]
    have htail2 : front ++ encodeFields ((upper, d) :: rest) =
        (front ++ hex2 upper d.length) ++ (d ++ encodeFields rest) := by
      simp [encodeFields]
    have htail3 : front ++ encodeFields ((upper, d) :: rest) =
        (front ++ hex2 upper d.length ++ d) ++ encodeFields rest := by
      simp [encodeFields]
    have hlenT : (front ++ encodeFields ((upper, d) :: rest)).length =
        front.length + 2 + d.length + (encodeFields rest).length := by
      rw [htail3]
      simp only [List.length_append, hh]
    have hsize : substring (front ++ encodeFields ((upper, d) :: rest)) (front.length : Int)
        ((front.length : Int) + 2) = hex2 upper d.length := by
      rw [substring_lit _ front.length (front.length + 2) _ _ rfl (by push_cast; rfl) (by omega)
        (by omega), htail]
      exact slice_append_mid front (hex2 upper d.length) (d ++ encodeFields rest)
    have hdata : substring (front ++ encodeFields ((upper, d) :: rest)) ((front.length : Int) + 2)
        ((front.length : Int) + 2 + (d.length : Int)) = d := by
      rw [substring_lit _ (front.length + 2) (front.length + 2 + d.length) _ _
        (by push_cast; rfl) (by push_cast; rfl) (by omega) (by omega), htail2]
      have e := slice_append_mid (front ++ hex2 upper d.length) d (encodeFields rest)
      rw [List.length_append, hh] at e
      exact e
    rw [parseOptionalFieldsLoop, if_pos (by rw [hlenT]; push_cast; omega),
      if_neg (by rw [hlenT]; push_cast; omega)]
    dsimp only
    rw [hsize, parseInt_hex2 upper d.length (by omega)]
    dsimp only
    rw [if_neg (by rw [hlenT]; push_cast; omega), hdata]
    have hpos : (front.length : Int) + 2 + (d.length : Int) =
        ((front ++ hex2 upper d.length ++ d).length : Int) := by
      simp only [List.length_append, hh]
      push_cast
      rfl
    rw [hpos, htail3, ih (front ++ hex2 upper d.length ++ d) f _
      (fun g hg => hlen g (by simp [hg])) (by simp at hfuel; omega)]
    simp

/-- C28: round trip of the length-prefixed encoding.  For every finite list of
strings `d1..dk`, each of length at most 255, let `tail` be the concatenation
of the two-digit hexadecimal numeral of `length(di)` (upper or lower case,
chosen for each string) followed by `di`; then `parseOptionalFields(tail)`,
given fuel for more than `k` passes, returns exactly `k` entries, in order,
entry `i` having `data = di` and `description = identifyField(di)`. -/
theorem C28_round_trip (fs : List (Bool × JSString)) (fuel : Nat)
    (hlen : ∀ f ∈ fs, f.2.length ≤ 255) (hfuel : fs.length < fuel) :
    parseOptionalFields fuel (encodeFields fs) =
        some (fs.map (fun f => { data := f.2, description := identifyField f.2 })) ∧
      ∀ result, parseOptionalFields fuel (encodeFields fs) = some result →
        result.length = fs.length := by
  have h : parseOptionalFields fuel (encodeFields fs) =
      some (fs.map (fun f => { data := f.2, description := identifyField f.2 })) := by
    have h1 := parseOptionalFieldsLoop_encode fs [] fuel [] hlen hfuel
    simpa [parseOptionalFields] using h1
  refine ⟨h, ?_⟩
  intro result hr
  rw [h] at hr
  simp only [Option.some.injEq] at hr
  rw [← hr, List.length_map]

theorem C28_round_trip_witness :
    encodeFields [(true, js "0631234567"), (false, js ""), (false, js "Y")] =
        js "0A063123456700" ++ js "01Y" ∧
      parseOptionalFields 4 (js "0A063123456700" ++ js "01Y") =
        some [{ data := js "0631234567", description := js "Baggage Tag License Plate" },
          { data := js "", description := js "Additional Data" },
          { data := js "Y", description := js "Fast Track" }] :=
  ⟨by decide,
    ((C28_round_trip [(true, js "0631234567"), (false, js ""), (false, js "Y")] 4
      (by decide) (by decide)).1).trans (by decide)⟩

end BCBP
